import Mathlib

/-!
# Credit ledger, batch generation and payment webhook

A shallow embedding of `src/routes/kidsgenerations.js`, `src/routes/webhook.js` and the two
Mongoose models they use.  The database, the image provider, the mailer and the signature
check are explicit parameters (`Env`, `WebhookEnv`); the persisted state and the trace of the
calls made to the collaborators are carried in `World`.
-/

set_option autoImplicit false

namespace KidsHeroMaker

/-! ## JavaScript values -/

/-- JavaScript numbers as far as this program uses them: integers and `NaN`. -/
inductive JsNum where
  | int (n : Int)
  | nan
  deriving DecidableEq, Repr

/-- JavaScript values that the provider can hand back.  `func ret` is a function that
returns `ret` when called without arguments (the `url()` accessor of a file output). -/
inductive JsVal where
  | undefined
  | null
  | bool (b : Bool)
  | num (n : Int)
  | nan
  | str (s : String)
  | arr (xs : List JsVal)
  | obj (fields : List (String × JsVal))
  | func (ret : JsVal)

namespace JsVal

/-- Truthiness, the test behind `!x`, `x || y` and `if (x)`. -/
def truthy : JsVal → Bool
  | undefined => false
  | null => false
  | bool b => b
  | num n => n != 0
  | nan => false
  | str s => s != ""
  | arr _ => true
  | obj _ => true
  | func _ => true

/-- The test `typeof x === "string"`. -/
def isString : JsVal → Bool
  | str _ => true
  | _ => false

/-- The test `Array.isArray(x)`. -/
def isArray : JsVal → Bool
  | arr _ => true
  | _ => false

/-- The test `typeof x === "object"` (true of `null`, arrays and plain objects). -/
def isObject : JsVal → Bool
  | null => true
  | arr _ => true
  | obj _ => true
  | _ => false

/-- The test `typeof x === "function"`. -/
def isFunction : JsVal → Bool
  | func _ => true
  | _ => false

/-- Property read `x.name` on a non-nullish value: own fields of an object, `undefined`
everywhere else (none of the names read by this program exists on arrays, strings, numbers
or functions). -/
def get : JsVal → String → JsVal
  | obj fields, name => (fields.lookup name).getD undefined
  | _, _ => undefined

/-- Index read `x[0]`. -/
def first : JsVal → JsVal
  | arr (x :: _) => x
  | _ => undefined

/-- The call `f()`. -/
def call : JsVal → JsVal
  | func ret => ret
  | _ => undefined

/-- The result of `xs.find((x) => typeof x === "string")`. -/
def findString : List JsVal → JsVal
  | [] => undefined
  | x :: xs => if x.isString then x else findString xs

end JsVal

/-- The array branch of `normalizeReplicateOutput` (lines 52-60): `some v` when the branch
returns `v`, `none` when control falls through to line 61. -/
def normalizeArrayBranch (out : JsVal) : Option JsVal :=
  match out with
  | JsVal.arr xs =>
    let s := JsVal.findString xs
    if s.truthy then some s
    else if out.first.truthy && out.first.isObject then
      if (out.first.get "url").isString then some (out.first.get "url")
      else if (out.first.get "image").truthy then some (out.first.get "image")
      else if (out.first.get "images").isArray && (out.first.get "images").first.truthy then
        some (out.first.get "images").first
      else none
    else none
  | _ => none

/-- The function `normalizeReplicateOutput` of `kidsgenerations.js` (lines 49-66). -/
def normalizeReplicateOutput (out : JsVal) : JsVal :=
  if !out.truthy then JsVal.null
  else if out.isString then out
  else
    match normalizeArrayBranch out with
    | some v => v
    | none =>
      if (out.get "url").truthy && (out.get "url").isFunction then (out.get "url").call
      else if (out.get "url").isString then out.get "url"
      else if (out.get "image").truthy then out.get "image"
      else if (out.get "images").isArray && (out.get "images").first.truthy then
        (out.get "images").first
      else JsVal.null

/-! ## Errors, settled promises and the windowed runner -/

/-- A thrown value.  The collaborators (database driver, provider client, mailer, signature
check) and the routes themselves throw `Error` instances: a name, a message and, for the
credit check, a `status`. -/
structure JsError where
  name : String
  message : String
  status : Option Nat
  deriving DecidableEq, Repr

/-- The value `new Error(msg)`. -/
def JsError.ofMessage (msg : String) : JsError :=
  { name := "Error", message := msg, status := none }

/-- The text `String(err)` of an `Error` instance (`Error.prototype.toString`). -/
def JsError.toText (e : JsError) : String :=
  if e.name = "" then e.message
  else if e.message = "" then e.name
  else e.name ++ ": " ++ e.message

/-- One entry of `Promise.allSettled`. -/
inductive Settled (β : Type) where
  | fulfilled (value : β)
  | rejected (reason : JsError)

/-- The call `Promise.allSettled(slice.map(worker))`: every worker of the slice is started,
in order, on the state left by the previous start, and every outcome is kept. -/
def allSettled {α β σ : Type} (worker : α → σ → Settled β × σ) : List α → σ → List (Settled β) × σ
  | [], s => ([], s)
  | x :: xs, s =>
    let r := worker x s
    let rest := allSettled worker xs r.2
    (r.1 :: rest.1, rest.2)

/-- The loop of `runInBatches` (lines 70-74) with loop counter `i` and accumulator `results`.
The first argument bounds the number of iterations; `none` means that the bound was reached
with the loop condition still true. -/
def runInBatchesLoop {α β σ : Type} (items : List α) (worker : α → σ → Settled β × σ)
    (batchSize : Nat) : Nat → Nat → List (Settled β) → σ → Option (List (Settled β) × σ)
  | 0, i, results, s => if i < items.length then none else some (results, s)
  | fuel + 1, i, results, s =>
    if i < items.length then
      let slice := (items.drop i).take batchSize
      let chunk := allSettled worker slice s
      runInBatchesLoop items worker batchSize fuel (i + batchSize) (results ++ chunk.1) chunk.2
    else some (results, s)

/-- The function `runInBatches(items, worker, batchSize)` (lines 68-76).  With a window of at
least one item the loop runs at most `items.length` times, which is the bound used here; a
window of zero never advances and gives `none`. -/
def runInBatches {α β σ : Type} (items : List α) (worker : α → σ → Settled β × σ)
    (batchSize : Nat) (s : σ) : Option (List (Settled β) × σ) :=
  runInBatchesLoop items worker batchSize items.length 0 [] s

/-- What an observer of the windowed runner sees of a task: its start, when
`slice.map(worker)` calls the worker on the item, and its settlement, by success or by
failure. -/
inductive TaskEvent (α : Type) where
  | started (item : α)
  | settled (item : α)

/-- The events of one iteration of the loop of `runInBatches` (lines 71-72):
`slice.map(worker)` starts the tasks of the slice in order, and `await Promise.allSettled`
returns when each of them has settled; `resolveOrder` is the order in which they do. -/
def windowEvents {α : Type} (resolveOrder : List α → List α) (slice : List α) :
    List (TaskEvent α) :=
  slice.map TaskEvent.started ++ (resolveOrder slice).map TaskEvent.settled

/-- The loop of `runInBatches` (lines 70-74) as the slices it takes, with loop counter `i`;
the first argument bounds the number of iterations as in `runInBatchesLoop`. -/
def slicesLoop {α : Type} (items : List α) (batchSize : Nat) :
    Nat → Nat → List (List α) → Option (List (List α))
  | 0, i, slices => if i < items.length then none else some slices
  | fuel + 1, i, slices =>
    if i < items.length then
      slicesLoop items batchSize fuel (i + batchSize)
        (slices ++ [(items.drop i).take batchSize])
    else some slices

/-- The slices that `runInBatches(items, worker, batchSize)` dispatches, in order. -/
def slicesOf {α : Type} (items : List α) (batchSize : Nat) : Option (List (List α)) :=
  slicesLoop items batchSize items.length 0 []

/-- The sequence of task starts and settlements of `runInBatches(items, worker, batchSize)`:
the events of its iterations, one iteration after the other. -/
def dispatchTrace {α : Type} (items : List α) (resolveOrder : List α → List α)
    (batchSize : Nat) : Option (List (TaskEvent α)) :=
  (slicesOf items batchSize).map (fun slices => slices.flatMap (windowEvents resolveOrder))

/-- The number of tasks started in a sequence of events. -/
def startedCount {α : Type} : List (TaskEvent α) → Nat
  | [] => 0
  | TaskEvent.started _ :: es => startedCount es + 1
  | TaskEvent.settled _ :: es => startedCount es

/-- The number of tasks settled in a sequence of events. -/
def settledCount {α : Type} : List (TaskEvent α) → Nat
  | [] => 0
  | TaskEvent.started _ :: es => settledCount es
  | TaskEvent.settled _ :: es => settledCount es + 1

/-! ## Persisted state and collaborators -/

/-- A document of the `User` collection (`models/User.js`), reduced to the fields the
ledger reads and writes. -/
structure User where
  id : String
  email : String
  credits : Int
  deriving DecidableEq, Repr

/-- A document handed to `Generation.insertMany` or `Generation.create`. -/
structure GenerationDoc where
  userId : String
  heroKey : String
  gender : String
  imageUrl : JsVal

/-- A stored generation record: the document and the `createdAt` stamp set by the store
(`timestamps: true` in `models/Generation.js`). -/
structure Generation where
  doc : GenerationDoc
  createdAt : Nat

/-- The order payload built by `handleBookOrder` (webhook.js, lines 19-41); `createdAt` is
the time at which the handler builds it. -/
structure Order where
  userId : String
  userEmail : String
  material : String
  quantity : JsNum
  paymentMethod : String
  fullName : String
  phone : String
  country : String
  city : String
  zip : String
  line1 : String
  line2 : String
  notes : String
  amount_total : Option Int
  currency : Option String
  stripeSessionId : String
  createdAt : Nat
  deriving DecidableEq, Repr

/-- The state the routes act on: the two collections, and the trace of what was handed to
the collaborators (provider calls by hero key, insert calls by document list, order mails). -/
structure World where
  users : List User
  generations : List Generation
  providerCalls : List String
  storeCalls : List (List GenerationDoc)
  orderMails : List Order

/-- The query `User.findById(userId)`: the first document with that id. -/
def findById (users : List User) (userId : String) : Option User :=
  users.find? (fun u => u.id == userId)

/-- The credits of a user, when the user exists. -/
def balance (w : World) (userId : String) : Option Int :=
  (findById w.users userId).map (fun u => u.credits)

/-- The update `User.updateOne({ _id: userId }, { $inc: { credits: delta } })` on the
collection: the first matching document is changed, update validators do not run. -/
def incCredits (userId : String) (delta : Int) : List User → List User
  | [] => []
  | u :: us =>
    if u.id == userId then { u with credits := u.credits + delta } :: us
    else u :: incCredits userId delta us

/-- The function `ensureAndChargeCredits(userId, amountToCharge)` (lines 93-107): a check
only, it writes nothing. -/
def ensureAndChargeCredits (w : World) (userId : String) (amountToCharge : Int) :
    Except JsError User :=
  match findById w.users userId with
  | none => Except.error (JsError.ofMessage "User not found")
  | some user =>
    if user.credits < amountToCharge then
      let needed := amountToCharge - user.credits
      let msg :=
        if amountToCharge = 1 then
          "Not enough credits. Need 1 credit. You have " ++ toString user.credits ++ "."
        else
          "Not enough credits. Need " ++ toString amountToCharge ++ " credits. You have "
            ++ toString user.credits ++ ". Missing " ++ toString needed ++ "."
      Except.error { name := "Error", message := msg, status := some 402 }
    else Except.ok user

/-- The function `decrementCredits(userId, by)` (lines 109-112). -/
def decrementCredits (w : World) (userId : String) (by_ : Int) : World :=
  if by_ ≤ 0 then w
  else { w with users := incCredits userId (-by_) w.users }

/-- What the generation routes read from the process environment and their collaborators.
`provider key` is the outcome of `replicate.run` for the prompt of `key`; the record store
writes the documents it accepts and may reject the call (`storeError`). -/
structure Env where
  replicateToken : Bool
  heroPrompts : List (String × String)
  provider : String → Except JsError JsVal
  storeAccepts : GenerationDoc → Bool
  storeError : List GenerationDoc → Option JsError
  now : Nat

/-- An insert into the `Generation` collection (`insertMany` with `ordered: false`, or
`create`): the call is recorded, the accepted documents are appended with their time
stamp, and the call throws when the store reports an error. -/
def insertGenerations (env : Env) (docs : List GenerationDoc) (w : World) :
    Except JsError Unit × World :=
  let stored := (docs.filter env.storeAccepts).map (fun d => { doc := d, createdAt := env.now })
  let w1 := { w with generations := w.generations ++ stored, storeCalls := w.storeCalls ++ [docs] }
  match env.storeError docs with
  | some e => (Except.error e, w1)
  | none => (Except.ok (), w1)

/-- The values that the schema of the `Generation` collection admits for the `gender` path
(`enum: ['boy', 'girl']`, models/Generation.js, line 7). -/
def GENDER_ENUM : List String :=
  ["boy", "girl"]

/-- The validation of the `gender` path of a document by that schema. -/
def genderValid (d : GenerationDoc) : Bool :=
  GENDER_ENUM.contains d.gender

/-! ## The generation routes -/

/-- The constant `BOY_KEYS` (lines 24-27). -/
def BOY_KEYS : List String :=
  ["deadpool", "wolverine", "spider-man", "miles-morales", "iron-man", "captain-america",
   "thor", "venom", "doctor-strange", "black-panther", "hulk", "loki"]

/-- The constant `GIRL_KEYS` (lines 28-31). -/
def GIRL_KEYS : List String :=
  ["elsa", "moana", "rapunzel", "wonderwoman", "ariel", "belle",
   "cinderella", "barbie", "snow-white", "aurora", "strawberry", "anna"]

/-- One entry of the `results` array of a batch response: `{ key, image_url }` for a
fulfilled task, `{ key, error }` for a rejected one.  `none` is an absent property. -/
structure ResultEntry where
  key : String
  image_url : Option JsVal
  error : Option String

/-- The filter predicate `r => r.image_url` (line 169). -/
def ResultEntry.hasImage (r : ResultEntry) : Bool :=
  match r.image_url with
  | some v => v.truthy
  | none => false

/-- The closure `worker` of the batch route (lines 153-160): one provider call, then the
artifact is extracted; a reply without one is thrown as an error. -/
def worker (env : Env) (key : String) (w : World) : Settled ResultEntry × World :=
  let w1 := { w with providerCalls := w.providerCalls ++ [key] }
  match env.provider key with
  | Except.error e => (Settled.rejected e, w1)
  | Except.ok out =>
    let url := normalizeReplicateOutput out
    if !url.truthy then (Settled.rejected (JsError.ofMessage "No URL in Replicate output"), w1)
    else (Settled.fulfilled { key := key, image_url := some url, error := none }, w1)

/-- The text `String(r.reason?.message || r.reason || "Generation failed")` (line 166) for
a thrown `Error` instance, which is itself truthy. -/
def rejectionText (reason : JsError) : String :=
  if reason.message ≠ "" then reason.message else reason.toText

/-- The callback of `settled.map((r, i) => ...)` (lines 163-167); an index outside `keys`
reads as the empty key. -/
def resultOf (keys : List String) (i : Nat) (r : Settled ResultEntry) : ResultEntry :=
  match r with
  | Settled.fulfilled value => value
  | Settled.rejected reason =>
    { key := keys.getD i "", image_url := none, error := some (rejectionText reason) }

/-- The array `settled.map((r, i) => ...)`, from index `i` on. -/
def resultsFrom (keys : List String) : Nat → List (Settled ResultEntry) → List ResultEntry
  | _, [] => []
  | i, r :: rs => resultOf keys i r :: resultsFrom keys (i + 1) rs

/-- The documents built by `saveGenerations` (lines 81-86). -/
def generationDocs (userId gender : String) (entries : List ResultEntry) : List GenerationDoc :=
  entries.map (fun e =>
    { userId := userId, heroKey := e.key, gender := gender,
      imageUrl := e.image_url.getD JsVal.undefined })

/-- The function `saveGenerations(userId, gender, entries)` (lines 79-88). -/
def saveGenerations (env : Env) (userId gender : String) (entries : List ResultEntry)
    (w : World) : Except JsError Unit × World :=
  if entries.length = 0 then (Except.ok (), w)
  else insertGenerations env (generationDocs userId gender entries) w

/-- The JSON bodies the handlers send. -/
inductive Body where
  | error (error : String)
  | missingPrompts (error : String) (missing : List String) (hint : String)
  | batch (gender : String) (requested success charged_credits : Nat)
      (results : List ResultEntry)
  | single (hero gender : String) (charged_credits : Nat) (result : ResultEntry)
  | text (body : String)
  | received
  | generations (total : Nat) (limit offset : Int) (items : List Generation)
  | errorDetail (error : String) (detail : String)

/-- An HTTP response: status code and body. -/
structure Response where
  status : Nat
  body : Body

/-- The response of the `catch` blocks (lines 185-189 and 247-251):
`res.status(err.status || 500).json({ error: err.message || fallback })`. -/
def errorResponse (err : JsError) (fallback : String) : Response :=
  { status := match err.status with
      | some code => if code = 0 then 500 else code
      | none => 500,
    body := Body.error (if err.message = "" then fallback else err.message) }

/-- What the generation routes read from the request; `userId` is `req.user.id`, set by the
authentication middleware. -/
structure GenRequest where
  userId : String
  hasFile : Bool
  queryGender : Option String
  bodyGender : Option String
  queryHero : Option String
  bodyHero : Option String

/-- The expression `a || b` for an optional string `a`. -/
def orElse (a : Option String) (b : String) : String :=
  match a with
  | some s => if s = "" then b else s
  | none => b

/-- The method `toLowerCase()` on the letters `A` to `Z`; every other character is kept as
it is.  The case mapping of letters outside ASCII is not part of this model: the routes
compare the result with `"girl"` and with the pack names `c10`, `c30`, `c100`, and no
character outside ASCII is mapped to a letter of these. -/
def toLowerCase (s : String) : String :=
  String.mk (s.data.map Char.toLower)

/-- The characters that `trim()`, `parseInt` and `Number` skip: the white space and the line
terminators of ECMAScript, which are tab, line feed, vertical tab, form feed, carriage return,
space, no-break space (U+00A0), the other space separators of Unicode (U+1680, U+2000 to
U+200A, U+202F, U+205F, U+3000), the line and paragraph separators (U+2028, U+2029) and the
byte order mark (U+FEFF). -/
def jsWhiteSpace (c : Char) : Bool :=
  (9 ≤ c.toNat && c.toNat ≤ 13) || c.toNat == 32 || c.toNat == 160 || c.toNat == 5760 ||
  (8192 ≤ c.toNat && c.toNat ≤ 8202) || c.toNat == 8232 || c.toNat == 8233 ||
  c.toNat == 8239 || c.toNat == 8287 || c.toNat == 12288 || c.toNat == 65279

/-- The method `trim()`, on the characters of the string. -/
def trim (s : String) : String :=
  String.mk ((s.data.dropWhile jsWhiteSpace).reverse.dropWhile jsWhiteSpace).reverse

/-- The gender of a request (lines 135 and 222). -/
def genderOf (req : GenRequest) : String :=
  toLowerCase (orElse req.queryGender (orElse req.bodyGender "boy"))

/-- The property names that an object literal inherits from `Object.prototype`; the value
of each is a function or, for `__proto__`, the prototype object, and so is truthy. -/
def OBJECT_PROTOTYPE_KEYS : List String :=
  ["constructor", "__defineGetter__", "__defineSetter__", "hasOwnProperty",
   "__lookupGetter__", "__lookupSetter__", "isPrototypeOf", "propertyIsEnumerable",
   "toString", "valueOf", "__proto__", "toLocaleString"]

/-- The test `HERO_PROMPTS[k]` for a truthy value (lines 138 and 208-209): the prompt of an
own key, which is truthy when it is not the empty string, and otherwise the property that
the map inherits under that name, if there is one. -/
def hasPrompt (env : Env) (k : String) : Bool :=
  match env.heroPrompts.lookup k with
  | some prompt => prompt != ""
  | none => OBJECT_PROTOTYPE_KEYS.contains k

/-- Lines 143-189 of `POST /kids/generate` for a list of task keys: credit check,
windowed dispatch, tabulation, charge for the successes, persistence, response. -/
def executeBatch (env : Env) (userId gender : String) (keys : List String) (w : World) :
    Option (Response × World) :=
  match ensureAndChargeCredits w userId keys.length with
  | Except.error err => some (errorResponse err "Failed to generate images.", w)
  | Except.ok _ =>
    match runInBatches keys (worker env) 3 w with
    | none => none
    | some (settled, w1) =>
      let results := resultsFrom keys 0 settled
      let success := results.filter ResultEntry.hasImage
      let successCount := success.length
      let w2 := decrementCredits w1 userId successCount
      match saveGenerations env userId gender success w2 with
      | (Except.error err, w3) => some (errorResponse err "Failed to generate images.", w3)
      | (Except.ok _, w3) =>
        some ({ status := 200,
                body := Body.batch gender keys.length successCount successCount results }, w3)

/-- The handler of `POST /kids/generate` (lines 120-190).  The test `!MODEL` of line 125 is
never true, `MODEL` having a non-empty default. -/
def kidsGenerate (env : Env) (req : GenRequest) (w : World) : Option (Response × World) :=
  if !env.replicateToken then
    some ({ status := 500, body := Body.error "Missing REPLICATE_API_TOKEN env." }, w)
  else if !req.hasFile then
    some ({ status := 400, body := Body.error "Missing image file under field 'image'." }, w)
  else if env.heroPrompts.isEmpty then
    some ({ status := 500,
            body := Body.error
              "HERO_PROMPTS map not loaded. Ensure ../utils/hero-prompts exports \x7b key: prompt \x7d." },
          w)
  else
    let gender := genderOf req
    let keys := if gender = "girl" then GIRL_KEYS else BOY_KEYS
    let missing := keys.filter (fun k => !hasPrompt env k)
    if missing.length ≠ 0 then
      some ({ status := 400,
              body := Body.missingPrompts "Missing prompts for some heroes." missing
                "Add these keys to ../utils/hero-prompts" }, w)
    else executeBatch env req.userId gender keys w

/-- The handler of `POST /kids/generate-one` (lines 198-252). -/
def kidsGenerateOne (env : Env) (req : GenRequest) (w : World) : Response × World :=
  if !env.replicateToken then
    ({ status := 500, body := Body.error "Missing REPLICATE_API_TOKEN env." }, w)
  else
    let hero := trim (orElse req.queryHero (orElse req.bodyHero ""))
    if hero = "" then ({ status := 400, body := Body.error "Missing ?hero=<key>." }, w)
    else if !hasPrompt env hero then
      ({ status := 400, body := Body.error ("Unknown hero key '" ++ hero ++ "'.") }, w)
    else if !req.hasFile then
      ({ status := 400, body := Body.error "Missing image file under field 'image'." }, w)
    else
      match ensureAndChargeCredits w req.userId 1 with
      | Except.error err => (errorResponse err "Failed to generate image.", w)
      | Except.ok _ =>
        let gender := genderOf req
        let w1 := { w with providerCalls := w.providerCalls ++ [hero] }
        match env.provider hero with
        | Except.error err => (errorResponse err "Failed to generate image.", w1)
        | Except.ok out =>
          let url := normalizeReplicateOutput out
          if !url.truthy then
            (errorResponse (JsError.ofMessage "No URL in Replicate output")
              "Failed to generate image.", w1)
          else
            let w2 := decrementCredits w1 req.userId 1
            match insertGenerations env
                [{ userId := req.userId, heroKey := hero, gender := gender, imageUrl := url }] w2 with
            | (Except.error err, w3) => (errorResponse err "Failed to generate image.", w3)
            | (Except.ok _, w3) =>
              ({ status := 200,
                 body := Body.single hero gender 1
                   { key := hero, image_url := some url, error := none } }, w3)

/-! ## The prompt catalogue -/

/-- The map `HERO_PROMPTS` of `utils/constants.js` (lines 5-284), in source order: its
fourteen keys, each with the first two sentences of its prompt.  The routes only test a
prompt for being non-empty and hand it to the provider. -/
def HERO_PROMPTS : List (String × String) :=
  [("deadpool",
    "Use the input photo as identity. Transform the child into an age-appropriate red-and-black trickster hero inspired by Deadpool, while keeping it wholesome and brand-neutral."),
   ("wolverine",
    "Use the input photo as identity. Transform the child into an age-appropriate claw-themed hero inspired by Wolverine, but strictly child-safe and brand-neutral."),
   ("spider-man",
    "Use the input photo as identity. Transform the child into an age-appropriate spider-themed hero (red-and-blue suit with black web-line pattern), brand-neutral."),
   ("venom",
    "Use the input photo as identity. Transform the child into a child-safe symbiote-inspired hero (black suit with bold white patches and eye shapes), brand-neutral."),
   ("black-panther",
    "Use the input photo as identity. Transform the child into an age-appropriate panther-themed hero in a sleek black suit with silver accents, brand-neutral."),
   ("thor",
    "Use the input photo as identity. Transform the child into an age-appropriate thunder-themed hero inspired by Thor, brand-neutral."),
   ("star-lord",
    "Use the input photo as identity. Transform the child into an age-appropriate space adventurer inspired by Star‑Lord, brand-neutral."),
   ("doctor-strange",
    "Use the input photo as identity. Transform the child into an age-appropriate mystic hero inspired by Doctor Strange, brand-neutral."),
   ("iron-man",
    "Use the input photo as identity. Transform the child into an age-appropriate tech-armored hero inspired by Iron Man, brand-neutral."),
   ("miles-morales",
    "Use the input photo as identity. Transform the child into an age-appropriate spider-hero inspired by Miles Morales."),
   ("captain-america",
    "Use the input photo as identity. Transform the child into an age-appropriate patriotic hero inspired by Captain America, brand-neutral."),
   ("hulk",
    "Use the input photo as identity. Transform the child into an age-appropriate strong green hero inspired by Hulk, brand-neutral."),
   ("loki",
    "Use the input photo as identity. Transform the child into an age-appropriate mischief-themed hero inspired by Loki, brand-neutral."),
   ("ant-man",
    "Use the input photo as identity. Transform the child into an age-appropriate size-shifting hero inspired by Ant‑Man, brand-neutral.")]

/-! ## The listing route -/

/-- What `GET /kids/generations` reads from the request. -/
structure ListRequest where
  userId : String
  limit : Option String
  offset : Option String

/-- The longest run of decimal digits at the head of a character list, as a number, and
whether the run is non-empty. -/
def digitsHead : List Char → Nat → Bool → Nat × Bool
  | [], acc, seen => (acc, seen)
  | c :: cs, acc, seen =>
    if c.isDigit then digitsHead cs (acc * 10 + (c.toNat - 48)) true else (acc, seen)

/-- The call `parseInt(s, 10)`: leading white space is skipped, a sign is read, then the
longest run of decimal digits; `NaN` when that run is empty.  The result is the exact
integer of the run: it is the number JavaScript returns up to 2^53, above which JavaScript
rounds to the nearest double. -/
def parseInt (s : String) : JsNum :=
  match s.data.dropWhile jsWhiteSpace with
  | '-' :: rest =>
    match digitsHead rest 0 false with
    | (n, true) => JsNum.int (-(n : Int))
    | (_, false) => JsNum.nan
  | '+' :: rest =>
    match digitsHead rest 0 false with
    | (n, true) => JsNum.int n
    | (_, false) => JsNum.nan
  | cs =>
    match digitsHead cs 0 false with
    | (n, true) => JsNum.int n
    | (_, false) => JsNum.nan

/-- The call `Math.min(a, b)` for an integer `b`. -/
def jsMin (a : JsNum) (b : Int) : JsNum :=
  match a with
  | JsNum.int n => JsNum.int (min n b)
  | JsNum.nan => JsNum.nan

/-- The call `Math.max(a, b)` for an integer `b`. -/
def jsMax (a : JsNum) (b : Int) : JsNum :=
  match a with
  | JsNum.int n => JsNum.int (max n b)
  | JsNum.nan => JsNum.nan

/-- The limit of the listing route (line 260). -/
def limitOf (req : ListRequest) : JsNum :=
  jsMin (parseInt (orElse req.limit "20")) 100

/-- The offset of the listing route (line 261). -/
def offsetOf (req : ListRequest) : JsNum :=
  jsMax (parseInt (orElse req.offset "0")) 0

/-- The filter `{ userId }` on the `Generation` collection. -/
def ownedBy (userId : String) (g : Generation) : Bool :=
  g.doc.userId == userId

/-- The sort `{ createdAt: -1 }`: newest first, records of equal time in store order. -/
def sortNewestFirst (gens : List Generation) : List Generation :=
  gens.insertionSort (fun a b => b.createdAt ≤ a.createdAt)

/-- The cursor option `limit(n)` of the store: 0 is no limit, and a negative number limits
to its absolute value. -/
def applyLimit (limit : Int) (gens : List Generation) : List Generation :=
  if limit = 0 then gens else gens.take limit.natAbs

/-- The query `Generation.find({ userId }).sort({ createdAt: -1 }).skip(offset).limit(limit)`
(lines 264-268). -/
def findGenerations (gens : List Generation) (userId : String) (offset limit : Int) :
    List Generation :=
  applyLimit limit ((sortNewestFirst (gens.filter (ownedBy userId))).drop offset.toNat)

/-- The query `Generation.countDocuments({ userId })` (line 269). -/
def countGenerations (gens : List Generation) (userId : String) : Nat :=
  (gens.filter (ownedBy userId)).length

/-- The handler of `GET /kids/generations` (lines 258-282).  `queryError` is the error with
which the store rejects the two queries, if it does; a `NaN` limit or offset is rejected by
the store as well.  The handler writes nothing. -/
def kidsGenerations (queryError : Option JsError) (req : ListRequest) (w : World) : Response :=
  match limitOf req, offsetOf req, queryError with
  | JsNum.int limit, JsNum.int offset, none =>
    { status := 200,
      body := Body.generations (countGenerations w.generations req.userId) limit offset
        (findGenerations w.generations req.userId offset limit) }
  | _, _, _ => { status := 500, body := Body.error "Failed to load your generations." }

/-! ## The payment webhook -/

/-- The checkout session carried by an event (`event.data.object`), with the fields the
handler reads; `metadata` is a string-to-string map and may be absent. -/
structure Session where
  id : String
  mode : String
  payment_status : String
  metadata : Option (List (String × String))
  amount_total : Option Int
  currency : Option String

/-- A verified event, as returned by `stripe.webhooks.constructEvent`. -/
structure StripeEvent where
  id : String
  type : String
  session : Session

/-- What the webhook handler reads from the request. -/
structure WebhookRequest where
  bodyIsBuffer : Bool
  payload : String
  signature : Option String

/-- The collaborators of the webhook: the signature check, which throws or returns the
event, the mailer, which may throw, and the clock. -/
structure WebhookEnv where
  constructEvent : String → Option String → Except JsError StripeEvent
  sendPurchaseEmail : Order → Option JsError
  now : Nat

/-- The value of a run of decimal digits; `none` when the run is empty or holds another
character. -/
def parseDigits (cs : List Char) : Option Nat :=
  if cs.isEmpty then none
  else cs.foldl (fun acc c =>
    match acc with
    | some n => if c.isDigit then some (n * 10 + (c.toNat - 48)) else none
    | none => none) (some 0)

/-- The conversion `Number(s)` of a string, for the integer model of numbers: surrounding
white space is dropped, the empty string is 0, and an optionally signed run of decimal
digits is that integer.  These are the texts the checkout writes (`String(cfg.credits)`,
`String(quantity)`).  The other notations of `Number` (a fraction part, an exponent, a
prefix `0x`, `0o` or `0b`, `Infinity`) are not read by this model: such a text is `NaN`
here, as is every text that `Number` rejects. -/
def jsNumber (s : String) : JsNum :=
  match (trim s).data with
  | [] => JsNum.int 0
  | '-' :: rest =>
    match parseDigits rest with
    | some n => JsNum.int (-(n : Int))
    | none => JsNum.nan
  | '+' :: rest =>
    match parseDigits rest with
    | some n => JsNum.int n
    | none => JsNum.nan
  | c :: rest =>
    match parseDigits (c :: rest) with
    | some n => JsNum.int n
    | none => JsNum.nan

/-- The read `session.metadata?.name`. -/
def Session.metaField (session : Session) (name : String) : Option String :=
  match session.metadata with
  | some md => md.lookup name
  | none => none

/-- The expression `Number(v || d)` for an optional metadata string `v` and a numeric
default `d`. -/
def numberOr (v : Option String) (d : Int) : JsNum :=
  match v with
  | some s => if s = "" then JsNum.int d else jsNumber s
  | none => JsNum.int d

/-- The assignment `user.credits = ...` followed by `user.save()`: the first document with
that id gets the new value. -/
def setCredits (userId : String) (credits : Int) : List User → List User
  | [] => []
  | u :: us =>
    if u.id == userId then { u with credits := credits } :: us
    else u :: setCredits userId credits us

/-- The function `addCredits(userId, amount)` (webhook.js, lines 8-14).  `save()` runs the
schema validators, so a value below the `min: 0` of `credits` is thrown as a validation
error and not written. -/
def addCredits (w : World) (userId : Option String) (amount : JsNum) :
    Except JsError Unit × World :=
  match userId.bind (findById w.users) with
  | none => (Except.ok (), w)
  | some user =>
    let n : Int :=
      match amount with
      | JsNum.int a => a
      | JsNum.nan => 0
    let credits := user.credits + max 0 n
    if credits < 0 then
      (Except.error { name := "ValidationError", message := "User validation failed",
                      status := none }, w)
    else (Except.ok (), { w with users := setCredits user.id credits w.users })

/-- The order payload of `handleBookOrder` (lines 18-41). -/
def orderOf (now : Nat) (session : Session) : Order :=
  { userId := orElse (session.metaField "userId") "",
    userEmail := orElse (session.metaField "userEmail") "",
    material := orElse (session.metaField "material") "",
    quantity := numberOr (session.metaField "quantity") 1,
    paymentMethod := orElse (session.metaField "payment_method") "card",
    fullName := orElse (session.metaField "addr_fullName") "",
    phone := orElse (session.metaField "addr_phone") "",
    country := orElse (session.metaField "addr_country") "",
    city := orElse (session.metaField "addr_city") "",
    zip := orElse (session.metaField "addr_zip") "",
    line1 := orElse (session.metaField "addr_line1") "",
    line2 := orElse (session.metaField "addr_line2") "",
    notes := orElse (session.metaField "addr_notes") "",
    amount_total :=
      match session.amount_total with
      | some n => if n = 0 then none else some n
      | none => none,
    currency :=
      match session.currency with
      | some c => if c = "" then none else some c
      | none => none,
    stripeSessionId := session.id,
    createdAt := now }

/-- The function `handleBookOrder` (lines 16-54): the order is handed to the mailer once,
and an error of the mailer is caught and logged. -/
def handleBookOrder (env : WebhookEnv) (session : Session) (w : World) : World :=
  let order := orderOf env.now session
  let w1 := { w with orderMails := w.orderMails ++ [order] }
  match env.sendPurchaseEmail order with
  | some _ => w1
  | none => w1

/-- The `try` block of the handler (lines 79-99) on a verified event, as the state it
leaves; an exception inside it is caught by lines 100-103. -/
def processEvent (env : WebhookEnv) (event : StripeEvent) (w : World) : World :=
  if event.type = "checkout.session.completed" then
    let session := event.session
    if session.mode = "payment" ∧ session.payment_status = "paid" then
      let intent := session.metaField "intent"
      if intent = some "credits" then
        (addCredits w (session.metaField "userId") (numberOr (session.metaField "creditsPurchased") 0)).2
      else if intent = some "book" then handleBookOrder env session w
      else w
    else w
  else w

/-- The exported handler of `webhook.js` (lines 56-104). -/
def webhook (env : WebhookEnv) (req : WebhookRequest) (w : World) : Response × World :=
  if !req.bodyIsBuffer then
    ({ status := 400, body := Body.text "Webhook Error: raw body required" }, w)
  else
    match env.constructEvent req.payload req.signature with
    | Except.error err => ({ status := 400, body := Body.text ("Webhook Error: " ++ err.message) }, w)
    | Except.ok event => ({ status := 200, body := Body.received }, processEvent env event w)

/-- Delivering the same webhook request `n` times in a row. -/
def deliver (env : WebhookEnv) (req : WebhookRequest) : Nat → World → World
  | 0, w => w
  | n + 1, w => deliver env req n (webhook env req w).2

/-! ## Interleaved requests of one user -/

/-- A step of one user's traffic.  A generation request is two steps, its credit check
(`ensureAndChargeCredits` with the maximal charge) and, after the provider calls, its charge
(`decrementCredits` with the number of successes); a payment event is one grant step. -/
inductive LedgerOp where
  | check (request : Nat) (amountToCharge : Nat)
  | charge (request : Nat) (successes : Nat)
  | grant (amount : JsNum)

/-- The state of one user's traffic: the persisted world, and the requests that have passed
their credit check and not yet charged, with the amount they checked for. -/
structure LedgerState where
  world : World
  inflight : List (Nat × Nat)

/-- One step for the user `userId`; `none` when the step cannot occur in this state (a
charge of a request that is not in flight or for more successes than tasks, a second check
of a request in flight).  A failed check ends its request without any write. -/
def stepOp (userId : String) (op : LedgerOp) (s : LedgerState) : Option LedgerState :=
  match op with
  | LedgerOp.check request amountToCharge =>
    if (s.inflight.lookup request).isSome then none
    else
      match ensureAndChargeCredits s.world userId amountToCharge with
      | Except.error _ => some s
      | Except.ok _ => some { s with inflight := (request, amountToCharge) :: s.inflight }
  | LedgerOp.charge request successes =>
    match s.inflight.lookup request with
    | none => none
    | some amountToCharge =>
      if successes ≤ amountToCharge then
        some { world := decrementCredits s.world userId successes,
               inflight := s.inflight.filter (fun p => p.1 != request) }
      else none
  | LedgerOp.grant amount =>
    some { s with world := (addCredits s.world (some userId) amount).2 }

/-- A schedule of steps, run from a state. -/
def runSchedule (userId : String) : List LedgerOp → LedgerState → Option LedgerState
  | [], s => some s
  | op :: ops, s =>
    match stepOp userId op s with
    | some s1 => runSchedule userId ops s1
    | none => none

/-- A world with one user and nothing else. -/
def singleUser (userId : String) (credits : Int) : World :=
  { users := [{ id := userId, email := userId ++ "@example.com", credits := credits }],
    generations := [], providerCalls := [], storeCalls := [], orderMails := [] }

/-! ## The grant as a read and a write -/

/-- The read of `addCredits` (line 9): `User.findById(userId)`. -/
def addCreditsRead (w : World) (userId : Option String) : Option User :=
  userId.bind (findById w.users)

/-- The rest of `addCredits` (lines 11-12) on the document `user` read before: the new
value is computed from the credits that were read, validated and saved. -/
def addCreditsWrite (w : World) (user : User) (amount : JsNum) : Except JsError Unit × World :=
  let n : Int :=
    match amount with
    | JsNum.int a => a
    | JsNum.nan => 0
  let credits := user.credits + max 0 n
  if credits < 0 then
    (Except.error { name := "ValidationError", message := "User validation failed",
                    status := none }, w)
  else (Except.ok (), { w with users := setCredits user.id credits w.users })

/-- A step of one user's traffic in which a grant is two steps: the read of `addCredits`
and, later, its write; a charge is the atomic `decrementCredits`. -/
inductive GrantOp where
  | grantRead (grant : Nat) (amount : JsNum)
  | grantWrite (grant : Nat)
  | charge (by_ : Nat)

/-- The state of that traffic: the persisted world, the grants that have read and not yet
written (with the document they read and their amount), and the sums of the grants and of
the charges applied so far. -/
structure GrantState where
  world : World
  reads : List (Nat × (User × JsNum))
  granted : Int
  charged : Int

/-- The amount `Math.max(0, Number(amount || 0))` that a grant adds. -/
def grantAmount (amount : JsNum) : Int :=
  match amount with
  | JsNum.int a => max 0 a
  | JsNum.nan => 0

/-- One step for the user `userId`; `none` when the step cannot occur (a write of a grant
that has not read, a second read of a grant).  A grant that finds no user ends at once, and
a write refused by the validation applies nothing. -/
def stepGrant (userId : String) (op : GrantOp) (s : GrantState) : Option GrantState :=
  match op with
  | GrantOp.grantRead grant amount =>
    if (s.reads.lookup grant).isSome then none
    else
      match addCreditsRead s.world (some userId) with
      | none => some s
      | some user => some { s with reads := (grant, (user, amount)) :: s.reads }
  | GrantOp.grantWrite grant =>
    match s.reads.lookup grant with
    | none => none
    | some (user, amount) =>
      match addCreditsWrite s.world user amount with
      | (Except.ok _, w1) =>
        some { world := w1, reads := s.reads.filter (fun p => p.1 != grant),
               granted := s.granted + grantAmount amount, charged := s.charged }
      | (Except.error _, w1) =>
        some { s with world := w1, reads := s.reads.filter (fun p => p.1 != grant) }
  | GrantOp.charge by_ =>
    some { s with world := decrementCredits s.world userId by_,
                  charged := s.charged + by_ }

/-- A schedule of such steps, run from a state. -/
def runGrants (userId : String) : List GrantOp → GrantState → Option GrantState
  | [], s => some s
  | op :: ops, s =>
    match stepGrant userId op s with
    | some s1 => runGrants userId ops s1
    | none => none

/-! ## Buying a credit pack -/

/-- An entry of `CREDIT_PACKS` (stripe.js, lines 12-16). -/
structure CreditPack where
  label : String
  priceId : Option String
  credits : Int

/-- What the checkout routes read from the process environment and from the payment
processor: the two configured price ids, and the error with which a call to the processor
(price lookup, customer lookup or creation, session creation) fails, if one does. -/
structure StripeEnv where
  priceCredits10 : Option String
  priceCredits100 : Option String
  processorError : Option JsError

/-- The table `CREDIT_PACKS` (stripe.js, lines 12-16). -/
def CREDIT_PACKS (env : StripeEnv) : List (String × CreditPack) :=
  [("c10", { label := "Credit Pack 10", priceId := env.priceCredits10, credits := 10 }),
   ("c30", { label := "Credit Pack 30", priceId := some "price_1SDrxzPsPa3YnSeqCdzuXAJF",
             credits := 30 }),
   ("c100", { label := "Credit Pack 100", priceId := env.priceCredits100, credits := 100 })]

/-- What `POST /stripe/buy-credits` reads from the request: the authenticated user, the
`pack` field of the body, and the other fields of the body. -/
structure BuyCreditsRequest where
  userId : String
  pack : Option String
  otherFields : List (String × String)

/-- The number of UTF-16 code units of a character: two for a character above U+FFFF. -/
def utf16Units (c : Char) : Nat :=
  if c.toNat < 65536 then 1 else 2

/-- The property `length` of a string: the number of its UTF-16 code units. -/
def jsLength (s : String) : Nat :=
  (s.data.map utf16Units).sum

/-- The characters that lie within the first `n` UTF-16 code units of a text, as
`slice(0, n)` takes them.  When the cut falls inside a character above U+FFFF, `slice` keeps
the first code unit of that character, which is no character; it is left out here. -/
def takeUnits : Nat → List Char → List Char
  | _, [] => []
  | n, c :: cs => if utf16Units c ≤ n then c :: takeUnits (n - utf16Units c) cs else []

/-- The helper `meta` (stripe.js, lines 62-65): trimmed and cut to 480 UTF-16 code units. -/
def metaValue (v : String) : String :=
  if jsLength (trim v) > 480 then String.mk (takeUnits 480 (trim v).data) else trim v

/-- The handler of `POST /stripe/buy-credits` (lines 68-100): an error response, or the
metadata of the checkout session that it asks the processor to create; the response of
that case carries the id and the url of the session, which the processor chooses. -/
def buyCredits (env : StripeEnv) (req : BuyCreditsRequest) (w : World) :
    Except Response (List (String × String)) :=
  let packKey := toLowerCase (orElse req.pack "")
  match (CREDIT_PACKS env).lookup packKey with
  | none => Except.error { status := 400, body := Body.error "Invalid credit pack" }
  | some cfg =>
    if orElse cfg.priceId "" = "" then
      Except.error { status := 400, body := Body.error "Invalid credit pack" }
    else
      match findById w.users req.userId with
      | none => Except.error { status := 404, body := Body.error "User not found" }
      | some user =>
        match env.processorError with
        | some err =>
          Except.error { status := 500,
                         body := Body.errorDetail "Failed to start checkout" err.message }
        | none =>
          Except.ok [("intent", "credits"), ("userId", user.id),
                     ("userEmail", metaValue user.email),
                     ("creditsPurchased", toString cfg.credits), ("pack", packKey)]

/-- The event that the processor delivers when a one-time-payment checkout session created
with `metadata` has been paid. -/
def paidSessionEvent (eventId sessionId : String) (metadata : List (String × String)) :
    StripeEvent :=
  { id := eventId,
    type := "checkout.session.completed",
    session := { id := sessionId, mode := "payment", payment_status := "paid",
                 metadata := some metadata, amount_total := none, currency := none } }

/-! ## Escaping of the order mail -/

/-- A call `s.replace(/c/g, by_)` for a one-character pattern, on the characters of the
string. -/
def replaceChar (c : Char) (by_ : String) (cs : List Char) : List Char :=
  cs.flatMap (fun x => if x = c then by_.data else [x])

/-- The double quote, by code point. -/
def doubleQuote : Char := Char.ofNat 34

/-- The single quote, by code point. -/
def singleQuote : Char := Char.ofNat 39

/-- The function `escapeHtml` of `services/mailer.js` (lines 118-124) on a string: five
replacements, one after the other, the ampersand first. -/
def escapeHtml (v : String) : String :=
  String.mk
    (replaceChar singleQuote "&#39;"
      (replaceChar doubleQuote "&quot;"
        (replaceChar '>' "&gt;"
          (replaceChar '<' "&lt;"
            (replaceChar '&' "&amp;" v.data)))))

/-! ## Notions used in the statements -/

/-- Whether the task of `key` succeeds: the provider call returns and an artifact can be
extracted from its reply. -/
def succeeds (env : Env) (key : String) : Bool :=
  match env.provider key with
  | Except.ok out => (normalizeReplicateOutput out).truthy
  | Except.error _ => false

/-- The settled outcome of the task of `key`, without the trace. -/
def settledOf (env : Env) (key : String) : Settled ResultEntry :=
  match env.provider key with
  | Except.error e => Settled.rejected e
  | Except.ok out =>
    if !(normalizeReplicateOutput out).truthy then
      Settled.rejected (JsError.ofMessage "No URL in Replicate output")
    else
      Settled.fulfilled
        { key := key, image_url := some (normalizeReplicateOutput out), error := none }

/-- The response entry of the task of `key`. -/
def entryOf (env : Env) (key : String) : ResultEntry :=
  resultOf [key] 0 (settledOf env key)

/-- The world after the provider was called for `keys`, in that order. -/
def withCalls (w : World) (keys : List String) : World :=
  { w with providerCalls := w.providerCalls ++ keys }

/-- The artifact extracted for `key`, `undefined` when the provider call throws. -/
def artifactOf (env : Env) (key : String) : JsVal :=
  match env.provider key with
  | Except.ok out => normalizeReplicateOutput out
  | Except.error _ => JsVal.undefined

/-- The generation document of a successful task: the requesting user, the task key, the
gender of the request and the artifact of that task. -/
def docFor (env : Env) (userId gender key : String) : GenerationDoc :=
  { userId := userId, heroKey := key, gender := gender, imageUrl := artifactOf env key }

/-- The stored record of a document inserted at the time of `env`. -/
def stamp (env : Env) (d : GenerationDoc) : Generation :=
  { doc := d, createdAt := env.now }

/-- A monitor for the window discipline with window size `b`, run over a sequence of events
with `st` tasks started and `se` tasks settled before it.  A task may start only when the
settled tasks are exactly those of the earlier full windows (`se = b * (st / b)`) and fewer
than `b` tasks are in flight; a task may settle only when one is in flight. -/
def obeysWindow {α : Type} (b : Nat) : Nat → Nat → List (TaskEvent α) → Bool
  | _, _, [] => true
  | st, se, TaskEvent.started _ :: es =>
    decide (se = b * (st / b)) && decide (st - se < b) && obeysWindow b (st + 1) se es
  | st, se, TaskEvent.settled _ :: es =>
    decide (se < st) && obeysWindow b st (se + 1) es

/-- Settling every task on its own, in the words of the specification: each item is mapped
to the outcome of the worker on it (fulfilled with its value or rejected with its reason),
one item after the other, each on the state left by the items before it. -/
def settleEach {α β σ : Type} (worker : α → σ → Settled β × σ) (items : List α) (s : σ) :
    List (Settled β) × σ :=
  items.foldl (fun acc x => (acc.1 ++ [(worker x acc.2).1], (worker x acc.2).2)) ([], s)

/-- The replacement of one character by `escapeHtml`: the entity of an HTML-significant
character, the character itself otherwise. -/
def escapeChar (c : Char) : List Char :=
  if c = '&' then "&amp;".data
  else if c = '<' then "&lt;".data
  else if c = '>' then "&gt;".data
  else if c = doubleQuote then "&quot;".data
  else if c = singleQuote then "&#39;".data
  else [c]

/-- The five entities that `escapeHtml` writes, without their leading ampersand. -/
def entityTails : List (List Char) :=
  ["amp;".data, "lt;".data, "gt;".data, "quot;".data, "#39;".data]

/-- Whether every ampersand of a text begins one of the five entities. -/
def ampersandsBeginEntities : List Char → Bool
  | [] => true
  | c :: rest =>
    (if c = '&' then entityTails.any (fun t => t.isPrefixOf rest) else true)
      && ampersandsBeginEntities rest

/-! ## Concrete collaborators and requests -/

/-- A provider that fails for the hero keys in `failing` and returns a URL string for every
other key, with a record store that accepts every document. -/
def envFailing (failing : List String) : Env :=
  { replicateToken := true,
    heroPrompts := (BOY_KEYS ++ GIRL_KEYS).map (fun k => (k, "prompt for " ++ k)),
    provider := fun k =>
      if failing.contains k then Except.error (JsError.ofMessage "provider failed")
      else Except.ok (JsVal.str ("https://img.example/" ++ k ++ ".jpg")),
    storeAccepts := fun _ => true,
    storeError := fun _ => none,
    now := 1 }

/-- The collaborators of `envFailing`, with a record store that writes nothing and rejects
every insert. -/
def envStoreDown (failing : List String) : Env :=
  { envFailing failing with
    storeAccepts := fun _ => false,
    storeError := fun _ => some (JsError.ofMessage "insert failed") }

/-- A provider whose reply for every key is an empty array, from which no artifact can be
extracted. -/
def envNoArtifact : Env :=
  { envFailing [] with provider := fun _ => Except.ok (JsVal.arr []) }

/-- A request of user `u1` with an image, for the boy pack or the hero `hulk`. -/
def demoRequest : GenRequest :=
  { userId := "u1", hasFile := true, queryGender := none, bodyGender := none,
    queryHero := some "hulk", bodyHero := none }

/-- A verified `checkout.session.completed` event of a paid one-time payment that carries
the credit-grant intent for `userId` and the amount text `credits`. -/
def creditsEvent (eventId userId credits : String) : StripeEvent :=
  { id := eventId,
    type := "checkout.session.completed",
    session :=
      { id := "cs_test_1", mode := "payment", payment_status := "paid",
        metadata := some [("intent", "credits"), ("userId", userId),
                          ("creditsPurchased", credits)],
        amount_total := some 999, currency := some "eur" } }

/-- Webhook collaborators whose signature check accepts every request as `event`. -/
def envVerified (event : StripeEvent) : WebhookEnv :=
  { constructEvent := fun _ _ => Except.ok event,
    sendPurchaseEmail := fun _ => none,
    now := 1 }

/-- A webhook request with a raw body and a signature header. -/
def signedRequest : WebhookRequest :=
  { bodyIsBuffer := true, payload := "raw-event-bytes", signature := some "t=1,v1=abc" }

/-- Webhook collaborators whose signature check rejects every request. -/
def envUnverified : WebhookEnv :=
  { constructEvent := fun _ _ =>
      Except.error { name := "StripeSignatureVerificationError",
                     message := "No signatures found matching the expected signature",
                     status := none },
    sendPurchaseEmail := fun _ => none,
    now := 1 }

/-- A generation record of `userId` created at time `t`. -/
def recordAt (userId : String) (t : Nat) : Generation :=
  { doc := { userId := userId, heroKey := "hulk", gender := "boy",
             imageUrl := JsVal.str "https://img.example/hulk.jpg" },
    createdAt := t }

/-- A store with 25 records of `u1`, created at times 0 to 24, and two records of `u2`. -/
def storeOf25 : World :=
  { users := [], providerCalls := [], storeCalls := [], orderMails := [],
    generations :=
      recordAt "u2" 30 :: ((List.range 25).map (recordAt "u1") ++ [recordAt "u2" 3]) }

/-- A webhook request whose body was parsed before it reached the handler, so it is not a
raw buffer. -/
def parsedRequest : WebhookRequest :=
  { bodyIsBuffer := false, payload := "raw-event-bytes", signature := some "t=1,v1=abc" }

/-- A verified `checkout.session.completed` event of a paid one-time payment with the
metadata intent `intent`, for `userId`. -/
def intentEvent (intent userId : String) : StripeEvent :=
  { id := "evt_2",
    type := "checkout.session.completed",
    session :=
      { id := "cs_test_2", mode := "payment", payment_status := "paid",
        metadata := some [("intent", intent), ("userId", userId), ("userEmail", "u1@example.com"),
                          ("material", "hardcover"), ("quantity", "2"),
                          ("addr_city", "Sofia")],
        amount_total := some 4900, currency := some "eur" } }

/-- Webhook collaborators that accept every request as `event` and whose mailer throws. -/
def envMailerDown (event : StripeEvent) : WebhookEnv :=
  { constructEvent := fun _ _ => Except.ok event,
    sendPurchaseEmail := fun _ => some (JsError.ofMessage "smtp down"),
    now := 1 }

/-- A world with the two users `u1` (5 credits) and `u2` (7 credits). -/
def twoUsers : World :=
  { users := [{ id := "u1", email := "u1@example.com", credits := 5 },
              { id := "u2", email := "u2@example.com", credits := 7 }],
    generations := [], providerCalls := [], storeCalls := [], orderMails := [] }

/-- The listing request of `u1` with `limit=20` and `offset=0`. -/
def firstPage : ListRequest :=
  { userId := "u1", limit := some "20", offset := some "0" }

/-- The collaborators of `envFailing []` with the prompt catalogue of the repository. -/
def envRepo : Env :=
  { envFailing [] with heroPrompts := HERO_PROMPTS }

/-- A batch request of `u1` with the gender parameter `gender`. -/
def genderRequest (gender : String) : GenRequest :=
  { userId := "u1", hasFile := true, queryGender := some gender, bodyGender := none,
    queryHero := some "hulk", bodyHero := none }

/-- Checkout collaborators with both price ids configured and a working processor. -/
def stripeEnvOk : StripeEnv :=
  { priceCredits10 := some "price_10", priceCredits100 := some "price_100",
    processorError := none }

/-- A purchase request of `u1` for the pack `pack`, whose body also carries an amount. -/
def packRequest (pack : String) : BuyCreditsRequest :=
  { userId := "u1", pack := some pack, otherFields := [("credits", "100000")] }

/-- The error with which `Generation.create` rejects a document whose gender is not in the
enum of the schema: the validation error of Mongoose, which has no `status`. -/
def genderValidationError (d : GenerationDoc) : JsError :=
  { name := "ValidationError",
    message := "Generation validation failed: gender: `" ++ d.gender ++
      "` is not a valid enum value for path `gender`.",
    status := none }

/-- A provider that returns a URL string for every key, with the record store as the call
`Generation.create(doc)` of the single route finds it when the database takes every write:
the schema decides, a document with a gender of the enum is written, and a document with
another gender is not written and the call throws its validation error. -/
def envSchema : Env :=
  { envFailing [] with
    storeAccepts := genderValid,
    storeError := fun docs => (docs.find? (fun d => !genderValid d)).map genderValidationError }

/-- A provider that fails for the hero `thor` with an `Error` whose name and message are both
the empty string, and returns a URL string for every other key; the record store accepts
every document. -/
def envBlankError : Env :=
  { envFailing [] with
    provider := fun k =>
      if k == "thor" then Except.error { name := "", message := "", status := none }
      else Except.ok (JsVal.str ("https://img.example/" ++ k ++ ".jpg")) }

/-- A request of user `u1` with an image for one hero, with no gender parameter. -/
def heroRequest (hero : String) : GenRequest :=
  { userId := "u1", hasFile := true, queryGender := none, bodyGender := none,
    queryHero := some hero, bodyHero := none }

/-! ## Lemmas on the windowed runner -/

theorem allSettled_append {α β σ : Type} (worker : α → σ → Settled β × σ) (xs ys : List α)
    (s : σ) :
    allSettled worker (xs ++ ys) s =
      ((allSettled worker xs s).1 ++ (allSettled worker ys (allSettled worker xs s).2).1,
        (allSettled worker ys (allSettled worker xs s).2).2) := by
  induction xs generalizing s with
  | nil => simp [allSettled]
  | cons x xs ih => simp [allSettled, ih]

theorem runInBatchesLoop_eq {α β σ : Type} (items : List α) (worker : α → σ → Settled β × σ)
    (batchSize : Nat) (hb : 0 < batchSize) (fuel i : Nat) (results : List (Settled β)) (s : σ)
    (hfuel : items.length ≤ i + fuel) :
    runInBatchesLoop items worker batchSize fuel i results s =
      some (results ++ (allSettled worker (items.drop i) s).1,
        (allSettled worker (items.drop i) s).2) := by
  induction fuel generalizing i results s with
  | zero =>
    have hi : ¬ i < items.length := by omega
    have hd : items.drop i = [] := List.drop_eq_nil_of_le (by omega)
    simp [runInBatchesLoop, hi, hd, allSettled]
  | succ fuel ih =>
    by_cases hi : i < items.length
    · have hsplit : items.drop i =
          (items.drop i).take batchSize ++ items.drop (i + batchSize) := by
        rw [← List.drop_drop, List.take_append_drop]
      simp only [runInBatchesLoop, hi, if_true]
      rw [ih (i + batchSize) _ _ (by omega)]
      conv_rhs => rw [hsplit, allSettled_append]
      simp [List.append_assoc]
    · have hd : items.drop i = [] := List.drop_eq_nil_of_le (by omega)
      simp [runInBatchesLoop, hi, hd, allSettled]

theorem runInBatches_eq {α β σ : Type} (items : List α) (worker : α → σ → Settled β × σ)
    (batchSize : Nat) (hb : 0 < batchSize) (s : σ) :
    runInBatches items worker batchSize s = some (allSettled worker items s) := by
  unfold runInBatches
  rw [runInBatchesLoop_eq items worker batchSize hb items.length 0 [] s (by omega)]
  simp
theorem worker_eq (env : Env) (key : String) (w : World) :
    worker env key w = (settledOf env key, withCalls w [key]) := by
  unfold worker settledOf withCalls
  cases env.provider key with
  | error e => rfl
  | ok out =>
    by_cases h : (normalizeReplicateOutput out).truthy <;> simp [h]

theorem withCalls_nil (w : World) : withCalls w [] = w := by
  simp [withCalls]

theorem withCalls_withCalls (w : World) (xs ys : List String) :
    withCalls (withCalls w xs) ys = withCalls w (xs ++ ys) := by
  simp [withCalls]

theorem allSettled_worker (env : Env) (keys : List String) (w : World) :
    allSettled (worker env) keys w = (keys.map (settledOf env), withCalls w keys) := by
  induction keys generalizing w with
  | nil => simp [allSettled, withCalls_nil]
  | cons k ks ih => simp [allSettled, ih, worker_eq, withCalls_withCalls]

theorem resultOf_settledOf (env : Env) (keys : List String) (i : Nat) (k : String)
    (hk : keys.getD i "" = k) : resultOf keys i (settledOf env k) = entryOf env k := by
  have hk1 : keys[i]?.getD "" = k := by simpa using hk
  unfold entryOf settledOf
  cases env.provider k with
  | error e => simp [resultOf, hk1]
  | ok out =>
    by_cases h : (normalizeReplicateOutput out).truthy <;> simp [resultOf, h, hk1]

theorem resultsFrom_settled (env : Env) (keys l : List String) (i : Nat)
    (hl : keys.drop i = l) :
    resultsFrom keys i (l.map (settledOf env)) = l.map (entryOf env) := by
  induction l generalizing i with
  | nil => simp [resultsFrom]
  | cons k l ih =>
    have hlt : i < keys.length := by
      by_contra hge
      rw [List.drop_eq_nil_of_le (by omega)] at hl
      cases hl
    have hk : keys.getD i "" = k := by
      have := List.drop_eq_getElem_cons hlt
      rw [this] at hl
      simp [List.getD, List.getElem?_eq_getElem hlt]
      exact (List.cons.inj hl).1
    have hrest : keys.drop (i + 1) = l := by
      have := List.drop_eq_getElem_cons hlt
      rw [this] at hl
      exact (List.cons.inj hl).2
    simp [resultsFrom, resultOf_settledOf env keys i k hk, ih (i + 1) hrest]

theorem entryOf_key (env : Env) (k : String) : (entryOf env k).key = k := by
  unfold entryOf settledOf
  cases env.provider k with
  | error e => simp [resultOf]
  | ok out =>
    by_cases h : (normalizeReplicateOutput out).truthy <;> simp [resultOf, h]

theorem entryOf_hasImage (env : Env) (k : String) :
    (entryOf env k).hasImage = succeeds env k := by
  unfold entryOf settledOf succeeds
  cases env.provider k with
  | error e => simp [resultOf, ResultEntry.hasImage]
  | ok out =>
    by_cases h : (normalizeReplicateOutput out).truthy <;> simp [resultOf, ResultEntry.hasImage, h]
/-! ## Lemmas on the ledger -/

theorem findById_incCredits (us : List User) (userId : String) (delta : Int) :
    findById (incCredits userId delta us) userId =
      (findById us userId).map (fun u => { u with credits := u.credits + delta }) := by
  induction us with
  | nil => simp [findById, incCredits]
  | cons u us ih =>
    unfold findById at ih ⊢
    by_cases h : u.id = userId
    · simp [incCredits, h, List.find?]
    · have hb : (u.id == userId) = false := by simpa using h
      simp [incCredits, hb, List.find?, ih]

theorem balance_decrementCredits (w : World) (userId : String) (n : Nat) :
    balance (decrementCredits w userId n) userId = (balance w userId).map (fun (c : Int) => c - n) := by
  unfold decrementCredits balance
  by_cases h : (n : Int) ≤ 0
  · have h0 : n = 0 := by omega
    subst h0
    simp only [Nat.cast_zero, le_refl, if_true]
    cases findById w.users userId <;> simp
  · simp only [h, if_false, findById_incCredits]
    cases findById w.users userId <;> simp [Int.sub_eq_add_neg]

theorem balance_withCalls (w : World) (keys : List String) (userId : String) :
    balance (withCalls w keys) userId = balance w userId := rfl

theorem insertGenerations_users (env : Env) (docs : List GenerationDoc) (w : World) :
    (insertGenerations env docs w).2.users = w.users := by
  unfold insertGenerations
  cases env.storeError docs <;> rfl

theorem saveGenerations_users (env : Env) (userId gender : String)
    (entries : List ResultEntry) (w : World) :
    (saveGenerations env userId gender entries w).2.users = w.users := by
  unfold saveGenerations
  split
  · rfl
  · exact insertGenerations_users env _ w

theorem balance_saveGenerations (env : Env) (userId gender : String)
    (entries : List ResultEntry) (w : World) (uid : String) :
    balance (saveGenerations env userId gender entries w).2 uid = balance w uid := by
  unfold balance
  rw [saveGenerations_users]

theorem success_eq (env : Env) (keys : List String) :
    (keys.map (entryOf env)).filter ResultEntry.hasImage =
      (keys.filter (succeeds env)).map (entryOf env) := by
  rw [List.filter_map]
  congr 1
  apply List.filter_congr
  intro k _
  simp [entryOf_hasImage]

theorem success_length (env : Env) (keys : List String) :
    ((keys.map (entryOf env)).filter ResultEntry.hasImage).length =
      (keys.filter (succeeds env)).length := by
  rw [success_eq, List.length_map]

/-- The batch after a passed credit check, in closed form. -/
theorem executeBatch_eq (env : Env) (userId gender : String) (keys : List String) (w : World)
    (u : User) (hu : findById w.users userId = some u) (hc : ¬ u.credits < keys.length) :
    executeBatch env userId gender keys w =
      some (
        match saveGenerations env userId gender
            ((keys.filter (succeeds env)).map (entryOf env))
            (decrementCredits (withCalls w keys) userId
              ((keys.filter (succeeds env)).length : Nat)) with
        | (Except.error err, w3) => (errorResponse err "Failed to generate images.", w3)
        | (Except.ok _, w3) =>
          ({ status := 200,
             body := Body.batch gender keys.length (keys.filter (succeeds env)).length
               (keys.filter (succeeds env)).length (keys.map (entryOf env)) }, w3)) := by
  unfold executeBatch
  simp only [ensureAndChargeCredits, hu, hc, if_false]
  rw [runInBatches_eq keys (worker env) 3 (by decide) w, allSettled_worker]
  simp only [resultsFrom_settled env keys keys 0 (by simp), success_eq, List.length_map]
  split <;> rfl

theorem append_ne_empty (a t : String) (ha : a ≠ "") : a ++ t ≠ "" := by
  intro h
  apply ha
  have h1 := congrArg String.data h
  rw [String.data_append] at h1
  exact String.ext (List.append_eq_nil.mp h1).1

theorem ensure_message_ne_empty (need have_ : Int) :
    (if need = 1 then
        "Not enough credits. Need 1 credit. You have " ++ toString have_ ++ "."
      else
        "Not enough credits. Need " ++ toString need ++ " credits. You have "
          ++ toString have_ ++ ". Missing " ++ toString (need - have_) ++ ".") ≠ "" := by
  split
  · rw [String.append_assoc]
    exact append_ne_empty _ _ (by decide)
  · simp only [String.append_assoc]
    exact append_ne_empty _ _ (by decide)

theorem executeBatch_insufficient (env : Env) (userId gender : String) (keys : List String)
    (w : World) (u : User) (hu : findById w.users userId = some u)
    (hc : u.credits < keys.length) :
    ∃ e, ensureAndChargeCredits w userId keys.length = Except.error e ∧ e.status = some 402 ∧
      executeBatch env userId gender keys w =
        some ({ status := 402, body := Body.error e.message }, w) := by
  unfold executeBatch
  simp only [ensureAndChargeCredits, hu, hc, if_true]
  refine ⟨_, rfl, rfl, ?_⟩
  simp only [errorResponse]
  rw [if_neg (ensure_message_ne_empty _ _)]
  rfl

theorem filter_length_all_but_one {α : Type} (p : α → Bool) (l : List α) (i : Nat)
    (hi : i < l.length) (hfail : p (l.get ⟨i, hi⟩) = false)
    (hothers : ∀ j (hj : j < l.length), j ≠ i → p (l.get ⟨j, hj⟩) = true) :
    (l.filter p).length + 1 = l.length := by
  induction l generalizing i with
  | nil => simp at hi
  | cons x xs ih =>
    cases i with
    | zero =>
      have hx : p x = false := by simpa using hfail
      have hall : ∀ a ∈ xs, p a = true := by
        intro a ha
        obtain ⟨n, hn, rfl⟩ := List.getElem_of_mem ha
        have := hothers (n + 1) (by simp; omega) (by omega)
        simpa using this
      simp [List.filter_cons, hx, List.filter_eq_self.mpr hall]
    | succ i =>
      have hx : p x = true := by
        have := hothers 0 (by simp) (by omega)
        simpa using this
      have hi1 : i < xs.length := by simpa using hi
      have := ih i hi1 (by simpa using hfail) (by
        intro j hj hne
        have := hothers (j + 1) (by simp; omega) (by omega)
        simpa using this)
      simp [List.filter_cons, hx, this]

theorem entryOf_error (env : Env) (k : String) :
    (entryOf env k).error.isSome = !succeeds env k := by
  unfold entryOf settledOf succeeds
  cases env.provider k with
  | error e => simp [resultOf]
  | ok out =>
    by_cases h : (normalizeReplicateOutput out).truthy <;> simp [resultOf, h]

theorem error_count (env : Env) (keys : List String) :
    ((keys.map (entryOf env)).filter (fun r => r.error.isSome)).length +
      (keys.filter (succeeds env)).length = keys.length := by
  rw [List.filter_map, List.length_map, keys.length_eq_length_filter_add (succeeds env)]
  have : (fun r => r.error.isSome) ∘ entryOf env = fun k => !succeeds env k := by
    funext k
    simp [entryOf_error]
  rw [this]
  omega

theorem saveGenerations_ok (env : Env) (userId gender : String) (entries : List ResultEntry)
    (w : World) (hstore : ∀ docs, env.storeError docs = none) :
    (saveGenerations env userId gender entries w).1 = Except.ok () := by
  unfold saveGenerations insertGenerations
  split
  · rfl
  · simp [hstore]

/-- The batch after a passed credit check when the record store reports no error. -/
theorem executeBatch_stored (env : Env) (userId gender : String) (keys : List String)
    (w : World) (u : User) (hu : findById w.users userId = some u)
    (hc : ¬ u.credits < keys.length) (hstore : ∀ docs, env.storeError docs = none) :
    executeBatch env userId gender keys w =
      some ({ status := 200,
              body := Body.batch gender keys.length (keys.filter (succeeds env)).length
                (keys.filter (succeeds env)).length (keys.map (entryOf env)) },
            (saveGenerations env userId gender ((keys.filter (succeeds env)).map (entryOf env))
              (decrementCredits (withCalls w keys) userId
                ((keys.filter (succeeds env)).length : Nat))).2) := by
  rw [executeBatch_eq env userId gender keys w u hu hc]
  have h := saveGenerations_ok env userId gender ((keys.filter (succeeds env)).map (entryOf env))
    (decrementCredits (withCalls w keys) userId ((keys.filter (succeeds env)).length : Nat))
    hstore
  revert h
  generalize saveGenerations env userId gender ((keys.filter (succeeds env)).map (entryOf env))
    (decrementCredits (withCalls w keys) userId ((keys.filter (succeeds env)).length : Nat)) = sg
  intro h
  rcases sg with ⟨r, w3⟩
  simp only at h
  subst h
  rfl

theorem balance_after_batch (env : Env) (userId gender : String) (keys : List String)
    (w : World) (b : Int) (hb : balance w userId = some b) :
    balance (saveGenerations env userId gender ((keys.filter (succeeds env)).map (entryOf env))
        (decrementCredits (withCalls w keys) userId
          ((keys.filter (succeeds env)).length : Nat))).2 userId =
      some (b - ((keys.filter (succeeds env)).length : Int)) := by
  rw [balance_saveGenerations, balance_decrementCredits, balance_withCalls, hb]
  simp

theorem generationDocs_winners (env : Env) (userId gender : String) (keys : List String) :
    generationDocs userId gender ((keys.filter (succeeds env)).map (entryOf env)) =
      (keys.filter (succeeds env)).map (docFor env userId gender) := by
  unfold generationDocs
  rw [List.map_map]
  apply List.map_congr_left
  intro k hk
  have hs : succeeds env k = true := (List.mem_filter.mp hk).2
  unfold succeeds at hs
  simp only [Function.comp, docFor, artifactOf, entryOf, settledOf]
  cases hp : env.provider k with
  | error e => simp [hp] at hs
  | ok out =>
    simp only [hp] at hs
    simp [hs, resultOf]

/-- The state a dispatched batch leaves, field by field. -/
theorem batch_world (env : Env) (userId gender : String) (keys : List String) (w : World) :
    (saveGenerations env userId gender ((keys.filter (succeeds env)).map (entryOf env))
      (decrementCredits (withCalls w keys) userId
        ((keys.filter (succeeds env)).length : Nat))).2.providerCalls
      = w.providerCalls ++ keys ∧
    (saveGenerations env userId gender ((keys.filter (succeeds env)).map (entryOf env))
      (decrementCredits (withCalls w keys) userId
        ((keys.filter (succeeds env)).length : Nat))).2.storeCalls
      = w.storeCalls ++
          (if keys.filter (succeeds env) = [] then []
           else [(keys.filter (succeeds env)).map (docFor env userId gender)]) ∧
    (saveGenerations env userId gender ((keys.filter (succeeds env)).map (entryOf env))
      (decrementCredits (withCalls w keys) userId
        ((keys.filter (succeeds env)).length : Nat))).2.generations
      = w.generations ++
          ((((keys.filter (succeeds env)).map (docFor env userId gender)).filter
            env.storeAccepts).map (stamp env)) := by
  unfold saveGenerations
  rw [generationDocs_winners]
  by_cases hw : keys.filter (succeeds env) = []
  · simp [hw, decrementCredits, withCalls]
  · have hlen : ¬ ((keys.filter (succeeds env)).map (entryOf env)).length = 0 := by
      simpa using hw
    simp only [hlen, hw, if_false]
    unfold insertGenerations decrementCredits withCalls stamp
    refine ⟨?_, ?_, ?_⟩ <;> (split <;> split <;> rfl)

/-- A dispatched batch returns, and leaves the state described by `batch_world`. -/
theorem executeBatch_returns (env : Env) (userId gender : String) (keys : List String)
    (w : World) (u : User) (hu : findById w.users userId = some u)
    (hc : ¬ u.credits < keys.length) :
    ∃ resp, executeBatch env userId gender keys w =
      some (resp,
        (saveGenerations env userId gender ((keys.filter (succeeds env)).map (entryOf env))
          (decrementCredits (withCalls w keys) userId
            ((keys.filter (succeeds env)).length : Nat))).2) ∧
      ((∀ docs, env.storeError docs = none) →
        resp = { status := 200,
                 body := Body.batch gender keys.length (keys.filter (succeeds env)).length
                   (keys.filter (succeeds env)).length (keys.map (entryOf env)) }) := by
  rw [executeBatch_eq env userId gender keys w u hu hc]
  have h := saveGenerations_ok env userId gender ((keys.filter (succeeds env)).map (entryOf env))
    (decrementCredits (withCalls w keys) userId ((keys.filter (succeeds env)).length : Nat))
  revert h
  generalize saveGenerations env userId gender ((keys.filter (succeeds env)).map (entryOf env))
    (decrementCredits (withCalls w keys) userId ((keys.filter (succeeds env)).length : Nat)) = sg
  intro h
  rcases sg with ⟨r | r, w3⟩
  · refine ⟨_, rfl, fun hstore => ?_⟩
    have := h hstore
    simp at this
  · exact ⟨_, rfl, fun _ => rfl⟩

theorem balance_eq_some (w : World) (userId : String) (b : Int)
    (hb : balance w userId = some b) :
    ∃ u, findById w.users userId = some u ∧ u.credits = b := by
  unfold balance at hb
  cases hf : findById w.users userId with
  | none => simp [hf] at hb
  | some u => exact ⟨u, rfl, by simpa [hf] using hb⟩

theorem pack_length (gender : String) :
    (if gender = "girl" then GIRL_KEYS else BOY_KEYS).length = 12 := by
  split <;> rfl

theorem errorResponse_body (err : JsError) (fallback : String) (hf : fallback ≠ "") :
    ∃ msg, (errorResponse err fallback).body = Body.error msg ∧ msg ≠ "" := by
  unfold errorResponse
  by_cases h : err.message = ""
  · exact ⟨fallback, by simp [h], hf⟩
  · exact ⟨err.message, by simp [h], h⟩

theorem balance_insertGenerations (env : Env) (docs : List GenerationDoc) (w : World)
    (uid : String) : balance (insertGenerations env docs w).2 uid = balance w uid := by
  unfold balance
  rw [insertGenerations_users]

theorem findById_id (us : List User) (userId : String) (u : User)
    (hu : findById us userId = some u) : u.id = userId := by
  unfold findById at hu
  have := List.find?_some hu
  simpa using this

theorem findById_setCredits (us : List User) (userId : String) (credits : Int) :
    findById (setCredits userId credits us) userId =
      (findById us userId).map (fun u => { u with credits := credits }) := by
  induction us with
  | nil => simp [findById, setCredits]
  | cons u us ih =>
    unfold findById at ih ⊢
    by_cases h : u.id = userId
    · simp [setCredits, h, List.find?]
    · have hb : (u.id == userId) = false := by simpa using h
      simp [setCredits, hb, List.find?, ih]

theorem balance_addCredits (w : World) (userId : String) (amount b : Int)
    (hb : balance w userId = some b) (hnonneg : 0 ≤ b + max 0 amount) :
    balance (addCredits w (some userId) (JsNum.int amount)).2 userId =
      some (b + max 0 amount) := by
  obtain ⟨u, hu, hcred⟩ := balance_eq_some w userId b hb
  have hid := findById_id w.users userId u hu
  have hlt : ¬ u.credits + max 0 amount < 0 := by rw [hcred]; omega
  unfold addCredits
  simp only [Option.bind, hu, hlt, if_false]
  unfold balance
  simp only [hid, findById_setCredits, hu, hcred, Option.map_some']

/-- One delivery of a verified paid credits event to an existing user. -/
theorem balance_webhook_credits (env : WebhookEnv) (req : WebhookRequest) (w : World)
    (event : StripeEvent) (userId : String) (amount b : Int)
    (hbuf : req.bodyIsBuffer = true)
    (hverified : env.constructEvent req.payload req.signature = Except.ok event)
    (htype : event.type = "checkout.session.completed")
    (hmode : event.session.mode = "payment")
    (hpaid : event.session.payment_status = "paid")
    (hintent : event.session.metaField "intent" = some "credits")
    (huser : event.session.metaField "userId" = some userId)
    (hamount : numberOr (event.session.metaField "creditsPurchased") 0 = JsNum.int amount)
    (hnonneg : 0 ≤ amount) (hb : balance w userId = some b) (hb0 : 0 ≤ b) :
    balance (webhook env req w).2 userId = some (b + amount) := by
  unfold webhook
  simp only [hbuf, hverified, Bool.not_true, Bool.false_eq_true, if_false]
  unfold processEvent
  simp only [htype, hmode, hpaid, hintent, huser, hamount, and_self, if_true]
  rw [balance_addCredits w userId amount b hb (by omega), max_eq_right hnonneg]

/-- The batch route, once its request checks pass, is `executeBatch` on the pack of the
request's gender. -/
theorem kidsGenerate_eq_executeBatch (env : Env) (req : GenRequest) (w : World)
    (htoken : env.replicateToken = true) (hfile : req.hasFile = true)
    (hprompts : ∀ k ∈ BOY_KEYS ++ GIRL_KEYS, hasPrompt env k = true) :
    kidsGenerate env req w =
      executeBatch env req.userId (genderOf req)
        (if genderOf req = "girl" then GIRL_KEYS else BOY_KEYS) w := by
  have hne : env.heroPrompts.isEmpty = false := by
    cases hp : env.heroPrompts with
    | nil =>
      have := hprompts "hulk" (by decide)
      simp [hasPrompt, hp] at this
      exact absurd this (by decide)
    | cons _ _ => rfl
  have hmissing : ((if genderOf req = "girl" then GIRL_KEYS else BOY_KEYS).filter
      (fun k => !hasPrompt env k)).length = 0 := by
    rw [List.length_eq_zero, List.filter_eq_nil_iff]
    intro k hk
    have hmem : k ∈ BOY_KEYS ++ GIRL_KEYS := by
      split at hk
      · exact List.mem_append_right _ hk
      · exact List.mem_append_left _ hk
    simp [hprompts k hmem]
  unfold kidsGenerate
  simp only [htoken, hfile, hne, Bool.not_true, Bool.false_eq_true, if_false]
  rw [if_neg (by simpa using hmissing)]

/-! ## Lemmas on the webhook -/

theorem webhook_verified (env : WebhookEnv) (req : WebhookRequest) (w : World)
    (event : StripeEvent) (hbuf : req.bodyIsBuffer = true)
    (hverified : env.constructEvent req.payload req.signature = Except.ok event) :
    webhook env req w = ({ status := 200, body := Body.received }, processEvent env event w) := by
  unfold webhook
  simp only [hbuf, hverified, Bool.not_true, Bool.false_eq_true, if_false]

theorem webhook_rejected (env : WebhookEnv) (req : WebhookRequest) (w : World)
    (h : req.bodyIsBuffer = false ∨
      ∃ e, env.constructEvent req.payload req.signature = Except.error e) :
    (webhook env req w).1.status = 400 ∧ (webhook env req w).2 = w := by
  unfold webhook
  by_cases hbuf : req.bodyIsBuffer = true
  · rcases h with h | ⟨e, he⟩
    · rw [hbuf] at h; cases h
    · simp [hbuf, he]
  · have hf : req.bodyIsBuffer = false := by simpa using hbuf
    simp [hf]

theorem findById_setCredits_ne (us : List User) (userId other : String) (credits : Int)
    (hne : other ≠ userId) :
    findById (setCredits userId credits us) other = findById us other := by
  induction us with
  | nil => simp [findById, setCredits]
  | cons u us ih =>
    unfold findById at ih ⊢
    by_cases h : u.id = userId
    · subst h
      have ho : (u.id == other) = false := by
        simp only [beq_eq_false_iff_ne, ne_eq]
        intro hu; exact hne hu.symm
      simp [setCredits, List.find?, ho]
    · have hb : (u.id == userId) = false := by simpa using h
      by_cases ho : u.id = other
      · have hob : (u.id == other) = true := by simpa using ho
        simp [setCredits, hb, List.find?, hob]
      · have hob : (u.id == other) = false := by simpa using ho
        simp [setCredits, hb, List.find?, hob, ih]

theorem balance_addCredits_ne (w : World) (userId : Option String) (amount : JsNum)
    (other : String) (hne : userId ≠ some other) :
    balance (addCredits w userId amount).2 other = balance w other := by
  unfold addCredits
  cases hfind : userId.bind (findById w.users) with
  | none => rfl
  | some user =>
    simp only
    split
    · rfl
    · cases userId with
      | none => simp at hfind
      | some uid =>
        have hid : user.id = uid := findById_id w.users uid user (by simpa using hfind)
        unfold balance
        simp only [hid]
        rw [findById_setCredits_ne]
        intro h
        exact hne (by rw [h])

theorem handleBookOrder_eq (env : WebhookEnv) (session : Session) (w : World) :
    handleBookOrder env session w =
      { w with orderMails := w.orderMails ++ [orderOf env.now session] } := by
  unfold handleBookOrder
  simp only
  split <;> rfl

theorem addCredits_frame (w : World) (userId : Option String) (amount : JsNum) :
    (addCredits w userId amount).2.orderMails = w.orderMails ∧
    (addCredits w userId amount).2.generations = w.generations ∧
    (addCredits w userId amount).2.providerCalls = w.providerCalls ∧
    (addCredits w userId amount).2.storeCalls = w.storeCalls := by
  unfold addCredits
  cases userId.bind (findById w.users) with
  | none => exact ⟨rfl, rfl, rfl, rfl⟩
  | some user =>
    simp only
    split <;> exact ⟨rfl, rfl, rfl, rfl⟩

/-- The state left by a verified event that is not a paid one-time-payment credits event
has the same users. -/
theorem processEvent_users_of_not_credits (env : WebhookEnv) (event : StripeEvent) (w : World)
    (h : ¬ (event.type = "checkout.session.completed" ∧ event.session.mode = "payment" ∧
      event.session.payment_status = "paid" ∧
      event.session.metaField "intent" = some "credits")) :
    (processEvent env event w).users = w.users := by
  unfold processEvent
  by_cases h1 : event.type = "checkout.session.completed"
  · by_cases h2 : event.session.mode = "payment" ∧ event.session.payment_status = "paid"
    · by_cases h3 : event.session.metaField "intent" = some "credits"
      · exact absurd ⟨h1, h2.1, h2.2, h3⟩ h
      · simp only [h1, h2, h3, and_self, if_true, if_false]
        split
        · rw [handleBookOrder_eq]
        · rfl
    · simp only [h1, h2, if_true, if_false]
  · simp only [h1, if_false]

/-! ## Lemmas on the listing route -/

theorem sortNewestFirst_perm (gens : List Generation) :
    (sortNewestFirst gens).Perm gens :=
  List.perm_insertionSort _ gens

theorem sortNewestFirst_sorted (gens : List Generation) :
    (sortNewestFirst gens).Sorted (fun a b => b.createdAt ≤ a.createdAt) := by
  haveI : IsTotal Generation (fun a b => b.createdAt ≤ a.createdAt) :=
    ⟨fun a b => Nat.le_total b.createdAt a.createdAt⟩
  haveI : IsTrans Generation (fun a b => b.createdAt ≤ a.createdAt) :=
    ⟨fun _ _ _ hab hbc => Nat.le_trans hbc hab⟩
  exact List.sorted_insertionSort _ gens

theorem mem_applyLimit (limit : Int) (gens : List Generation) (g : Generation)
    (hg : g ∈ applyLimit limit gens) : g ∈ gens := by
  unfold applyLimit at hg
  split at hg
  · exact hg
  · exact List.mem_of_mem_take hg

theorem mem_findGenerations (gens : List Generation) (userId : String) (offset limit : Int)
    (g : Generation) (hg : g ∈ findGenerations gens userId offset limit) :
    g ∈ gens ∧ g.doc.userId = userId := by
  unfold findGenerations at hg
  have h1 := List.mem_of_mem_drop (mem_applyLimit _ _ _ hg)
  have h2 := (sortNewestFirst_perm _).mem_iff.mp h1
  obtain ⟨hmem, howned⟩ := List.mem_filter.mp h2
  exact ⟨hmem, by simpa [ownedBy] using howned⟩

theorem kidsGenerations_ok (req : ListRequest) (w : World) (limit offset : Int)
    (hl : limitOf req = JsNum.int limit) (ho : offsetOf req = JsNum.int offset) :
    kidsGenerations none req w =
      { status := 200,
        body := Body.generations (countGenerations w.generations req.userId) limit offset
          (findGenerations w.generations req.userId offset limit) } := by
  unfold kidsGenerations
  rw [hl, ho]

theorem kidsGenerations_body (queryError : Option JsError) (req : ListRequest) (w : World)
    (total : Nat) (limit offset : Int) (items : List Generation)
    (h : (kidsGenerations queryError req w).body = Body.generations total limit offset items) :
    total = countGenerations w.generations req.userId ∧
    items = findGenerations w.generations req.userId offset limit := by
  unfold kidsGenerations at h
  split at h
  · simp only [Body.generations.injEq] at h
    obtain ⟨h1, h2, h3, h4⟩ := h
    subst h1 h2 h3 h4
    exact ⟨rfl, rfl⟩
  · cases h

/-! ## Lemmas on the record store and on the order of outcomes -/

theorem executeBatch_generations (env : Env) (userId gender : String) (keys : List String)
    (w : World) (resp : Response) (w1 : World)
    (h : executeBatch env userId gender keys w = some (resp, w1)) :
    ∃ added, w1.generations = w.generations ++ added ∧
      ∀ g ∈ added, g.doc.userId = userId ∧ g.doc.gender = gender ∧
        g.createdAt = env.now := by
  cases hf : findById w.users userId with
  | none =>
    unfold executeBatch at h
    simp only [ensureAndChargeCredits, hf, Option.some.injEq, Prod.mk.injEq] at h
    exact ⟨[], by rw [← h.2]; simp, by simp⟩
  | some u =>
    by_cases hc : u.credits < keys.length
    · obtain ⟨e, _, _, hex⟩ := executeBatch_insufficient env userId gender keys w u hf hc
      rw [hex] at h
      simp only [Option.some.injEq, Prod.mk.injEq] at h
      exact ⟨[], by rw [← h.2]; simp, by simp⟩
    · obtain ⟨resp1, hex, _⟩ := executeBatch_returns env userId gender keys w u hf hc
      obtain ⟨_, _, hgens⟩ := batch_world env userId gender keys w
      rw [hex] at h
      simp only [Option.some.injEq, Prod.mk.injEq] at h
      refine ⟨_, by rw [← h.2]; exact hgens, ?_⟩
      intro g hg
      obtain ⟨d, hd, rfl⟩ := List.mem_map.mp hg
      obtain ⟨k, _, rfl⟩ := List.mem_map.mp (List.mem_filter.mp hd).1
      exact ⟨rfl, rfl, rfl⟩

theorem kidsGenerate_cases (env : Env) (req : GenRequest) (w : World) (resp : Response)
    (w1 : World) (h : kidsGenerate env req w = some (resp, w1)) :
    w1 = w ∨
      executeBatch env req.userId (genderOf req)
        (if genderOf req = "girl" then GIRL_KEYS else BOY_KEYS) w = some (resp, w1) := by
  unfold kidsGenerate at h
  by_cases h1 : (!env.replicateToken) = true
  · rw [if_pos h1] at h
    simp only [Option.some.injEq, Prod.mk.injEq] at h
    exact Or.inl h.2.symm
  · rw [if_neg h1] at h
    by_cases h2 : (!req.hasFile) = true
    · rw [if_pos h2] at h
      simp only [Option.some.injEq, Prod.mk.injEq] at h
      exact Or.inl h.2.symm
    · rw [if_neg h2] at h
      by_cases h3 : env.heroPrompts.isEmpty = true
      · rw [if_pos h3] at h
        simp only [Option.some.injEq, Prod.mk.injEq] at h
        exact Or.inl h.2.symm
      · rw [if_neg h3] at h
        simp only at h
        by_cases h4 : ((if genderOf req = "girl" then GIRL_KEYS else BOY_KEYS).filter
            (fun k => !hasPrompt env k)).length ≠ 0
        · rw [if_pos h4] at h
          simp only [Option.some.injEq, Prod.mk.injEq] at h
          exact Or.inl h.2.symm
        · rw [if_neg h4] at h
          exact Or.inr h

/-- The state left by the single-generation route: the state before, or that state with one
provider call recorded, or the latter after the charge and the insert of one document. -/
theorem kidsGenerateOne_world (env : Env) (req : GenRequest) (w : World) :
    (kidsGenerateOne env req w).2 = w ∨
    (kidsGenerateOne env req w).2
      = withCalls w [trim (orElse req.queryHero (orElse req.bodyHero ""))] ∨
    ∃ doc : GenerationDoc, doc.userId = req.userId ∧
      (kidsGenerateOne env req w).2 =
        (insertGenerations env [doc]
          (decrementCredits (withCalls w [trim (orElse req.queryHero (orElse req.bodyHero ""))])
            req.userId 1)).2 := by
  unfold kidsGenerateOne
  by_cases h1 : (!env.replicateToken) = true
  · rw [if_pos h1]; exact Or.inl rfl
  · rw [if_neg h1]
    simp only
    by_cases h2 : trim (orElse req.queryHero (orElse req.bodyHero "")) = ""
    · rw [if_pos h2]; exact Or.inl rfl
    · rw [if_neg h2]
      by_cases h3 : (!hasPrompt env (trim (orElse req.queryHero (orElse req.bodyHero "")))) = true
      · rw [if_pos h3]; exact Or.inl rfl
      · rw [if_neg h3]
        by_cases h4 : (!req.hasFile) = true
        · rw [if_pos h4]; exact Or.inl rfl
        · rw [if_neg h4]
          cases hcheck : ensureAndChargeCredits w req.userId 1 with
          | error err => exact Or.inl rfl
          | ok u =>
            simp only
            cases hp : env.provider (trim (orElse req.queryHero (orElse req.bodyHero ""))) with
            | error err => exact Or.inr (Or.inl rfl)
            | ok out =>
              simp only
              by_cases h5 : (!(normalizeReplicateOutput out).truthy) = true
              · rw [if_pos h5]; exact Or.inr (Or.inl rfl)
              · rw [if_neg h5]
                refine Or.inr (Or.inr ⟨GenerationDoc.mk req.userId
                  (trim (orElse req.queryHero (orElse req.bodyHero "")))
                  (genderOf req) (normalizeReplicateOutput out), rfl, ?_⟩)
                unfold withCalls
                generalize insertGenerations env _ _ = ig
                rcases ig with ⟨_ | _, w3⟩ <;> rfl

theorem insertGenerations_generations (env : Env) (docs : List GenerationDoc) (w : World) :
    (insertGenerations env docs w).2.generations =
      w.generations ++ (docs.filter env.storeAccepts).map (stamp env) := by
  unfold insertGenerations stamp
  split <;> rfl

theorem decrementCredits_generations (w : World) (userId : String) (n : Int) :
    (decrementCredits w userId n).generations = w.generations := by
  unfold decrementCredits
  split <;> rfl

theorem kidsGenerateOne_generations (env : Env) (req : GenRequest) (w : World) :
    ∃ added, (kidsGenerateOne env req w).2.generations = w.generations ++ added ∧
      added.length ≤ 1 ∧
      ∀ g ∈ added, g.doc.userId = req.userId ∧ g.createdAt = env.now := by
  rcases kidsGenerateOne_world env req w with h | h | ⟨doc, hdoc, h⟩
  · exact ⟨[], by rw [h]; simp, by simp, by simp⟩
  · exact ⟨[], by rw [h]; simp [withCalls], by simp, by simp⟩
  · refine ⟨([doc].filter env.storeAccepts).map (stamp env), ?_, ?_, ?_⟩
    · rw [h, insertGenerations_generations, decrementCredits_generations]
      rfl
    · rw [List.length_map]
      exact le_trans (List.length_filter_le _ _) (by simp)
    · intro g hg
      obtain ⟨d, hd, rfl⟩ := List.mem_map.mp hg
      have := (List.mem_filter.mp hd).1
      rw [List.mem_singleton] at this
      subst this
      exact ⟨hdoc, rfl⟩

theorem allSettled_outcome {α β σ : Type} (worker : α → σ → Settled β × σ)
    (outcome : α → Settled β) (houtcome : ∀ x s, (worker x s).1 = outcome x)
    (items : List α) (s : σ) : (allSettled worker items s).1 = items.map outcome := by
  induction items generalizing s with
  | nil => rfl
  | cons x xs ih => simp [allSettled, houtcome, ih]

theorem allSettled_length {α β σ : Type} (worker : α → σ → Settled β × σ)
    (items : List α) (s : σ) : (allSettled worker items s).1.length = items.length := by
  induction items generalizing s with
  | nil => rfl
  | cons x xs ih => simp [allSettled, ih]

/-! ## Lemmas on the dispatch windows -/

theorem startedCount_append {α : Type} (xs ys : List (TaskEvent α)) :
    startedCount (xs ++ ys) = startedCount xs + startedCount ys := by
  induction xs with
  | nil => simp [startedCount]
  | cons e es ih =>
    cases e <;> simp [startedCount, ih]
    omega

theorem settledCount_append {α : Type} (xs ys : List (TaskEvent α)) :
    settledCount (xs ++ ys) = settledCount xs + settledCount ys := by
  induction xs with
  | nil => simp [settledCount]
  | cons e es ih =>
    cases e <;> simp [settledCount, ih]
    omega

theorem counts_map_started {α : Type} (l : List α) :
    startedCount (l.map TaskEvent.started) = l.length ∧
    settledCount (l.map TaskEvent.started) = 0 := by
  induction l with
  | nil => exact ⟨rfl, rfl⟩
  | cons x xs ih => simp [startedCount, settledCount, ih]

theorem counts_map_settled {α : Type} (l : List α) :
    startedCount (l.map TaskEvent.settled) = 0 ∧
    settledCount (l.map TaskEvent.settled) = l.length := by
  induction l with
  | nil => exact ⟨rfl, rfl⟩
  | cons x xs ih => simp [startedCount, settledCount, ih]

theorem slicesLoop_spec {α : Type} (items : List α) (b : Nat) (hb : 0 < b) (fuel i : Nat)
    (acc : List (List α)) (hfuel : items.length ≤ i + fuel) :
    ∃ rest, slicesLoop items b fuel i acc = some (acc ++ rest) ∧
      rest.flatten = items.drop i ∧
      (∀ sl ∈ rest, 1 ≤ sl.length ∧ sl.length ≤ b) ∧
      (∀ sl ∈ rest.dropLast, sl.length = b) := by
  induction fuel generalizing i acc with
  | zero =>
    have hi : ¬ i < items.length := by omega
    refine ⟨[], by simp [slicesLoop, hi], ?_, by simp, by simp⟩
    simp [List.drop_eq_nil_of_le (show items.length ≤ i by omega)]
  | succ fuel ih =>
    by_cases hi : i < items.length
    · obtain ⟨rest, hrun, hflat, hlen, hfull⟩ :=
        ih (i + b) (acc ++ [(items.drop i).take b]) (by omega)
      have hslice : ((items.drop i).take b).length = min b (items.length - i) := by
        simp [List.length_take, List.length_drop]
      refine ⟨(items.drop i).take b :: rest, ?_, ?_, ?_, ?_⟩
      · simp only [slicesLoop, hi, if_true, hrun]
        simp
      · simp only [List.flatten_cons, hflat]
        rw [← List.drop_drop, List.take_append_drop]
      · intro sl hsl
        rcases List.mem_cons.mp hsl with rfl | hmem
        · rw [hslice]
          omega
        · exact hlen sl hmem
      · intro sl hsl
        cases rest with
        | nil => simp at hsl
        | cons r rs =>
          rw [List.dropLast_cons₂] at hsl
          rcases List.mem_cons.mp hsl with rfl | hmem
          · have hr := (hlen r (List.mem_cons_self _ _)).1
            have hdrop : (items.drop (i + b)).length ≠ 0 := by
              rw [← hflat]
              simp only [List.flatten_cons, List.length_append]
              omega
            rw [List.length_drop] at hdrop
            rw [hslice]
            omega
          · exact hfull sl hmem
    · refine ⟨[], by simp [slicesLoop, hi], ?_, by simp, by simp⟩
      simp [List.drop_eq_nil_of_le (show items.length ≤ i by omega)]

theorem obeysWindow_starts {α : Type} (b n : Nat) (l : List α) (k : Nat)
    (rest : List (TaskEvent α)) (hdiv : b ∣ n) (hk : k + l.length ≤ b) :
    obeysWindow b (n + k) n (l.map TaskEvent.started ++ rest) =
      obeysWindow b (n + k + l.length) n rest := by
  induction l generalizing k with
  | nil => rfl
  | cons x xs ih =>
    have hlen : k + 1 + xs.length ≤ b := by simp only [List.length_cons] at hk; omega
    have hkb : k < b := by omega
    have hb0 : 0 < b := by omega
    obtain ⟨c, rfl⟩ := hdiv
    have hquot : (b * c + k) / b = c := by
      rw [Nat.mul_add_div hb0, Nat.div_eq_of_lt hkb]
      rfl
    have hd1 : decide (b * c = b * ((b * c + k) / b)) = true := by
      rw [hquot]; exact decide_eq_true rfl
    have hd2 : decide (b * c + k - b * c < b) = true := decide_eq_true (by omega)
    rw [List.map_cons, List.cons_append, obeysWindow, hd1, hd2]
    have := ih (k + 1) hlen
    rw [show b * c + (k + 1) = b * c + k + 1 by omega] at this
    simp only [Bool.and_self, Bool.true_and]
    rw [this]
    congr 1
    simp only [List.length_cons]
    omega

theorem obeysWindow_settles {α : Type} (b st : Nat) (l : List α) (se : Nat)
    (rest : List (TaskEvent α)) (hse : se + l.length ≤ st) :
    obeysWindow b st se (l.map TaskEvent.settled ++ rest) =
      obeysWindow b st (se + l.length) rest := by
  induction l generalizing se with
  | nil => rfl
  | cons x xs ih =>
    have hlen : se + 1 + xs.length ≤ st := by simp only [List.length_cons] at hse; omega
    have h1 : se < st := by omega
    rw [List.map_cons, List.cons_append, obeysWindow, decide_eq_true h1, Bool.true_and,
      ih (se + 1) hlen]
    congr 1
    simp only [List.length_cons]
    omega

theorem obeysWindow_window {α : Type} (b n : Nat) (resolveOrder : List α → List α)
    (slice : List α) (rest : List (TaskEvent α)) (hdiv : b ∣ n) (hlen : slice.length ≤ b)
    (hperm : (resolveOrder slice).Perm slice) :
    obeysWindow b n n (windowEvents resolveOrder slice ++ rest) =
      obeysWindow b (n + slice.length) (n + slice.length) rest := by
  unfold windowEvents
  rw [List.append_assoc]
  have h1 := obeysWindow_starts b n slice 0 ((resolveOrder slice).map TaskEvent.settled ++ rest)
    hdiv (by omega)
  simp only [Nat.add_zero] at h1
  rw [h1, obeysWindow_settles b (n + slice.length) (resolveOrder slice) n rest
    (by rw [hperm.length_eq]), hperm.length_eq]

theorem obeysWindow_slices {α : Type} (b : Nat) (resolveOrder : List α → List α)
    (hperm : ∀ sl, (resolveOrder sl).Perm sl) (slices : List (List α)) (n : Nat)
    (hdiv : b ∣ n) (hlen : ∀ sl ∈ slices, sl.length ≤ b)
    (hfull : ∀ sl ∈ slices.dropLast, sl.length = b) :
    obeysWindow b n n (slices.flatMap (windowEvents resolveOrder)) = true := by
  induction slices generalizing n with
  | nil => rfl
  | cons sl rest ih =>
    rw [List.flatMap_cons, obeysWindow_window b n resolveOrder sl _ hdiv
      (hlen sl (List.mem_cons_self _ _)) (hperm sl)]
    cases rest with
    | nil => rfl
    | cons r rs =>
      have hsl : sl.length = b := hfull sl (by rw [List.dropLast_cons₂]; exact List.mem_cons_self _ _)
      apply ih
      · rw [hsl]
        exact Nat.dvd_add hdiv (Nat.dvd_refl b)
      · intro s hs
        exact hlen s (List.mem_cons_of_mem _ hs)
      · intro s hs
        exact hfull s (by rw [List.dropLast_cons₂]; exact List.mem_cons_of_mem _ hs)

theorem obeysWindow_sound {α : Type} (b : Nat) (trace : List (TaskEvent α)) (st se : Nat)
    (hobeys : obeysWindow b st se trace = true) (hle : se ≤ st) (hbound : st - se ≤ b) :
    (∀ p q, trace = p ++ q →
      se + settledCount p ≤ st + startedCount p ∧
      (st + startedCount p) - (se + settledCount p) ≤ b) ∧
    (∀ p x rest, trace = p ++ TaskEvent.started x :: rest →
      se + settledCount p = b * ((st + startedCount p) / b) ∧
      (st + startedCount p) - (se + settledCount p) < b) := by
  induction trace generalizing st se with
  | nil =>
    constructor
    · intro p q h
      have hp : p = [] := (List.append_eq_nil.mp h.symm).1
      subst hp
      simp only [startedCount, settledCount]
      omega
    · intro p x rest h
      have := congrArg List.length h
      simp only [List.length_nil, List.length_append, List.length_cons] at this
      omega
  | cons e es ih =>
    cases e with
    | started y =>
      simp only [obeysWindow, Bool.and_eq_true, decide_eq_true_eq] at hobeys
      obtain ⟨⟨h1, h2⟩, h3⟩ := hobeys
      obtain ⟨ihA, ihB⟩ := ih (st + 1) se h3 (by omega) (by omega)
      constructor
      · intro p q h
        cases p with
        | nil => simp only [startedCount, settledCount]; omega
        | cons e1 p1 =>
          simp only [List.cons_append, List.cons.injEq] at h
          obtain ⟨he, hrest⟩ := h
          subst he
          have := ihA p1 q hrest
          simp only [startedCount, settledCount]
          omega
      · intro p x rest h
        cases p with
        | nil =>
          simp only [startedCount, settledCount, Nat.add_zero]
          exact ⟨h1, h2⟩
        | cons e1 p1 =>
          simp only [List.cons_append, List.cons.injEq] at h
          obtain ⟨he, hrest⟩ := h
          subst he
          have := ihB p1 x rest hrest
          simp only [startedCount, settledCount]
          rw [show st + (startedCount p1 + 1) = st + 1 + startedCount p1 by omega]
          exact this
    | settled y =>
      simp only [obeysWindow, Bool.and_eq_true, decide_eq_true_eq] at hobeys
      obtain ⟨h1, h3⟩ := hobeys
      obtain ⟨ihA, ihB⟩ := ih st (se + 1) h3 (by omega) (by omega)
      constructor
      · intro p q h
        cases p with
        | nil => simp only [startedCount, settledCount]; omega
        | cons e1 p1 =>
          simp only [List.cons_append, List.cons.injEq] at h
          obtain ⟨he, hrest⟩ := h
          subst he
          have := ihA p1 q hrest
          simp only [startedCount, settledCount]
          omega
      · intro p x rest h
        cases p with
        | nil =>
          simp only [List.nil_append, List.cons.injEq] at h
          cases h.1
        | cons e1 p1 =>
          simp only [List.cons_append, List.cons.injEq] at h
          obtain ⟨he, hrest⟩ := h
          subst he
          have := ihB p1 x rest hrest
          simp only [startedCount, settledCount]
          rw [show se + (settledCount p1 + 1) = se + 1 + settledCount p1 by omega]
          exact this

theorem counts_windows {α : Type} (resolveOrder : List α → List α)
    (hperm : ∀ sl, (resolveOrder sl).Perm sl) (slices : List (List α)) :
    startedCount (slices.flatMap (windowEvents resolveOrder)) = slices.flatten.length ∧
    settledCount (slices.flatMap (windowEvents resolveOrder)) = slices.flatten.length := by
  induction slices with
  | nil => exact ⟨rfl, rfl⟩
  | cons sl rest ih =>
    simp only [List.flatMap_cons, List.flatten_cons, List.length_append, startedCount_append,
      settledCount_append, windowEvents, (counts_map_started sl).1, (counts_map_started sl).2,
      (counts_map_settled (resolveOrder sl)).1, (counts_map_settled (resolveOrder sl)).2,
      (hperm sl).length_eq, ih.1, ih.2]
    omega

/-! ## Lemmas on the split grant, the checkout and the runner as a refinement -/

theorem addCredits_eq_read_write (w : World) (userId : Option String) (amount : JsNum) :
    addCredits w userId amount =
      match addCreditsRead w userId with
      | none => (Except.ok (), w)
      | some user => addCreditsWrite w user amount := by
  unfold addCredits addCreditsRead addCreditsWrite
  cases userId.bind (findById w.users) <;> rfl

theorem settleEach_from {α β σ : Type} (worker : α → σ → Settled β × σ) (items : List α)
    (acc : List (Settled β)) (s : σ) :
    items.foldl (fun acc x => (acc.1 ++ [(worker x acc.2).1], (worker x acc.2).2)) (acc, s) =
      (acc ++ (allSettled worker items s).1, (allSettled worker items s).2) := by
  induction items generalizing acc s with
  | nil => simp [allSettled]
  | cons x xs ih =>
    rw [List.foldl_cons, ih]
    simp [allSettled]

theorem allSettled_eq_settleEach {α β σ : Type} (worker : α → σ → Settled β × σ)
    (items : List α) (s : σ) : allSettled worker items s = settleEach worker items s := by
  unfold settleEach
  rw [settleEach_from]
  simp

theorem pack_amount_round_trip (c : Int) (hc : c = 10 ∨ c = 30 ∨ c = 100) :
    numberOr (some (toString c)) 0 = JsNum.int c := by
  rcases hc with rfl | rfl | rfl <;> decide

theorem credit_pack_lookup (env : StripeEnv) (key : String) (cfg : CreditPack)
    (h : (CREDIT_PACKS env).lookup key = some cfg) :
    cfg.credits = 10 ∨ cfg.credits = 30 ∨ cfg.credits = 100 := by
  unfold CREDIT_PACKS at h
  simp only [List.lookup] at h
  split at h
  · cases h; exact Or.inl rfl
  · split at h
    · cases h; exact Or.inr (Or.inl rfl)
    · split at h
      · cases h; exact Or.inr (Or.inr rfl)
      · cases h

theorem buyCredits_ok (env : StripeEnv) (req : BuyCreditsRequest) (w : World)
    (metadata : List (String × String)) (hbuy : buyCredits env req w = Except.ok metadata) :
    ∃ cfg, (CREDIT_PACKS env).lookup (toLowerCase (orElse req.pack "")) = some cfg ∧
      metadata = [("intent", "credits"), ("userId", req.userId),
                  ("userEmail", metaValue
                    (match findById w.users req.userId with
                     | some user => user.email
                     | none => "")),
                  ("creditsPurchased", toString cfg.credits),
                  ("pack", toLowerCase (orElse req.pack ""))] := by
  unfold buyCredits at hbuy
  simp only at hbuy
  cases hl : (CREDIT_PACKS env).lookup (toLowerCase (orElse req.pack "")) with
  | none => rw [hl] at hbuy; cases hbuy
  | some cfg =>
    rw [hl] at hbuy
    simp only at hbuy
    split at hbuy
    · cases hbuy
    · cases hf : findById w.users req.userId with
      | none => rw [hf] at hbuy; cases hbuy
      | some user =>
        rw [hf] at hbuy
        simp only at hbuy
        cases hp : env.processorError with
        | some err => rw [hp] at hbuy; cases hbuy
        | none =>
          rw [hp] at hbuy
          simp only [Except.ok.injEq] at hbuy
          have hid := findById_id w.users req.userId user hf
          exact ⟨cfg, rfl, by rw [← hbuy, hid]⟩

/-! ## Lemmas on the entries of a batch response -/

theorem rejectionText_ne_empty (reason : JsError)
    (h : reason.name ≠ "" ∨ reason.message ≠ "") : rejectionText reason ≠ "" := by
  unfold rejectionText JsError.toText
  by_cases hm : reason.message = ""
  · have hn : reason.name ≠ "" := by
      rcases h with h | h
      · exact h
      · exact absurd hm h
    simp [hm, hn]
  · simp [hm]

theorem entryOf_success (env : Env) (k : String) (hs : succeeds env k = true) :
    entryOf env k = { key := k, image_url := some (artifactOf env k), error := none } ∧
    (artifactOf env k).truthy = true := by
  unfold succeeds at hs
  unfold entryOf settledOf artifactOf
  cases hp : env.provider k with
  | error e => simp [hp] at hs
  | ok out =>
    simp only [hp] at hs
    simp [hs, resultOf]

theorem entryOf_failure (env : Env) (k : String) (hs : succeeds env k = false) :
    ∃ msg, entryOf env k = { key := k, image_url := none, error := some msg } ∧
      ((∀ e, env.provider k = Except.error e → e.name ≠ "" ∨ e.message ≠ "") → msg ≠ "") := by
  unfold succeeds at hs
  unfold entryOf settledOf
  cases hp : env.provider k with
  | error e =>
    exact ⟨rejectionText e, by simp [resultOf], fun h => rejectionText_ne_empty e (h e rfl)⟩
  | ok out =>
    simp only [hp] at hs
    refine ⟨"No URL in Replicate output", by simp [hs, resultOf, rejectionText,
      JsError.ofMessage], fun _ => by decide⟩

/-! ## Lemmas on the grant and on the paging parameters -/

theorem balance_addCredits_any (w : World) (userId : Option String) (amount : JsNum)
    (uid : String) (b : Int) (hb : balance w uid = some b) :
    (balance (addCredits w userId amount).2 uid = some b ∨
      (userId = some uid ∧ 0 ≤ b + grantAmount amount ∧
        balance (addCredits w userId amount).2 uid = some (b + grantAmount amount))) := by
  by_cases hu : userId = some uid
  · subst hu
    obtain ⟨u, hfind, hcred⟩ := balance_eq_some w uid b hb
    have hid := findById_id w.users uid u hfind
    have key : ∀ n : Int, grantAmount amount = max 0 n →
        (if u.credits + max 0 n < 0 then
            ((Except.error { name := "ValidationError", message := "User validation failed",
                             status := none }, w) : Except JsError Unit × World)
          else (Except.ok (), { w with users := setCredits u.id (u.credits + max 0 n) w.users }))
          = addCredits w (some uid) amount →
        (balance (addCredits w (some uid) amount).2 uid = some b ∨
          (some uid = some uid ∧ 0 ≤ b + grantAmount amount ∧
            balance (addCredits w (some uid) amount).2 uid = some (b + grantAmount amount))) := by
      intro n hn heq
      rw [← heq, hn]
      by_cases hneg : u.credits + max 0 n < 0
      · rw [if_pos hneg]
        exact Or.inl hb
      · rw [if_neg hneg]
        refine Or.inr ⟨rfl, by omega, ?_⟩
        unfold balance
        simp only [hid, findById_setCredits, hfind, Option.map_some', hcred]
    cases amount with
    | int a =>
      exact key a rfl (by unfold addCredits; simp only [Option.bind, hfind])
    | nan =>
      exact key 0 (by simp [grantAmount]) (by unfold addCredits; simp only [Option.bind, hfind])
  · exact Or.inl (by rw [balance_addCredits_ne w userId amount uid hu, hb])

theorem grantAmount_nonneg (amount : JsNum) : 0 ≤ grantAmount amount := by
  cases amount <;> simp [grantAmount]

/-! ## Lemmas on `escapeHtml` -/

theorem replaceChar_append (c : Char) (r : String) (xs ys : List Char) :
    replaceChar c r (xs ++ ys) = replaceChar c r xs ++ replaceChar c r ys := by
  unfold replaceChar
  exact List.flatMap_append _ _ _

theorem replaceChar_cons (c : Char) (r : String) (x : Char) (xs : List Char) :
    replaceChar c r (x :: xs) = replaceChar c r [x] ++ replaceChar c r xs :=
  replaceChar_append c r [x] xs

theorem replaceChar_single_ne (c : Char) (r : String) (x : Char) (h : x ≠ c) :
    replaceChar c r [x] = [x] := by
  simp [replaceChar, h]

theorem escape_one (c : Char) :
    replaceChar singleQuote "&#39;"
      (replaceChar doubleQuote "&quot;"
        (replaceChar '>' "&gt;"
          (replaceChar '<' "&lt;"
            (replaceChar '&' "&amp;" [c])))) = escapeChar c := by
  unfold escapeChar
  by_cases h1 : c = '&'
  · subst h1; decide
  · rw [replaceChar_single_ne _ _ _ h1, if_neg h1]
    by_cases h2 : c = '<'
    · subst h2; decide
    · rw [replaceChar_single_ne _ _ _ h2, if_neg h2]
      by_cases h3 : c = '>'
      · subst h3; decide
      · rw [replaceChar_single_ne _ _ _ h3, if_neg h3]
        by_cases h4 : c = doubleQuote
        · subst h4; decide
        · rw [replaceChar_single_ne _ _ _ h4, if_neg h4]
          by_cases h5 : c = singleQuote
          · subst h5; decide
          · rw [replaceChar_single_ne _ _ _ h5, if_neg h5]

theorem escape_chars (cs : List Char) :
    replaceChar singleQuote "&#39;"
      (replaceChar doubleQuote "&quot;"
        (replaceChar '>' "&gt;"
          (replaceChar '<' "&lt;"
            (replaceChar '&' "&amp;" cs)))) = cs.flatMap escapeChar := by
  induction cs with
  | nil => rfl
  | cons c cs ih =>
    rw [replaceChar_cons '&', replaceChar_append '<', replaceChar_append '>',
      replaceChar_append doubleQuote, replaceChar_append singleQuote, escape_one, ih,
      List.flatMap_cons]

theorem escapeHtml_data (v : String) : (escapeHtml v).data = v.data.flatMap escapeChar := by
  unfold escapeHtml
  rw [escape_chars]

theorem escapeChar_clean (c x : Char) (hx : x ∈ escapeChar c) :
    x ≠ '<' ∧ x ≠ '>' ∧ x ≠ doubleQuote ∧ x ≠ singleQuote := by
  unfold escapeChar at hx
  split at hx
  · revert x; decide
  · split at hx
    · revert x; decide
    · split at hx
      · revert x; decide
      · split at hx
        · revert x; decide
        · split at hx
          · revert x; decide
          · rw [List.mem_singleton] at hx
            subst hx
            exact ⟨by assumption, by assumption, by assumption, by assumption⟩

theorem ampersands_sound (l : List Char) (h : ampersandsBeginEntities l = true)
    (before after : List Char) (hl : l = before ++ '&' :: after) :
    ∃ t ∈ entityTails, t <+: after := by
  induction before generalizing l with
  | nil =>
    subst hl
    simp only [List.nil_append, ampersandsBeginEntities, if_true, Bool.and_eq_true,
      List.any_eq_true] at h
    obtain ⟨⟨t, ht, hpre⟩, _⟩ := h
    exact ⟨t, ht, List.isPrefixOf_iff_prefix.mp hpre⟩
  | cons b bs ih =>
    subst hl
    simp only [List.cons_append, ampersandsBeginEntities, Bool.and_eq_true] at h
    exact ih _ h.2 rfl

theorem ampersands_skip (l rest : List Char) (hl : ∀ c ∈ l, c ≠ '&') :
    ampersandsBeginEntities (l ++ rest) = ampersandsBeginEntities rest := by
  induction l with
  | nil => rfl
  | cons c cs ih =>
    have hc : c ≠ '&' := hl c (List.mem_cons_self _ _)
    rw [List.cons_append, ampersandsBeginEntities, if_neg hc, Bool.true_and]
    exact ih (fun x hx => hl x (List.mem_cons_of_mem _ hx))

theorem ampersands_entity (tail rest : List Char) (htail : tail ∈ entityTails)
    (hclean : ∀ c ∈ tail, c ≠ '&') :
    ampersandsBeginEntities ('&' :: tail ++ rest) = ampersandsBeginEntities rest := by
  rw [List.cons_append, ampersandsBeginEntities, if_pos rfl, ampersands_skip tail rest hclean]
  have hany : entityTails.any (fun t => t.isPrefixOf (tail ++ rest)) = true := by
    rw [List.any_eq_true]
    exact ⟨tail, htail, List.isPrefixOf_iff_prefix.mpr (List.prefix_append tail rest)⟩
  rw [hany, Bool.true_and]

theorem ampersands_escapeChar (c : Char) (rest : List Char) :
    ampersandsBeginEntities (escapeChar c ++ rest) = ampersandsBeginEntities rest := by
  unfold escapeChar
  split
  · exact ampersands_entity "amp;".data rest (by decide) (by decide)
  · split
    · exact ampersands_entity "lt;".data rest (by decide) (by decide)
    · split
      · exact ampersands_entity "gt;".data rest (by decide) (by decide)
      · split
        · exact ampersands_entity "quot;".data rest (by decide) (by decide)
        · split
          · exact ampersands_entity "#39;".data rest (by decide) (by decide)
          · rename_i h _ _ _ _
            exact ampersands_skip [c] rest (fun x hx => by
              rw [List.mem_singleton] at hx
              subst hx
              exact h)

theorem ampersands_escaped (cs : List Char) :
    ampersandsBeginEntities (cs.flatMap escapeChar) = true := by
  induction cs with
  | nil => rfl
  | cons c cs ih => rw [List.flatMap_cons, ampersands_escapeChar, ih]

theorem escape_identity (cs : List Char)
    (h : ∀ c ∈ cs, c ≠ '&' ∧ c ≠ '<' ∧ c ≠ '>' ∧ c ≠ doubleQuote ∧ c ≠ singleQuote) :
    cs.flatMap escapeChar = cs := by
  induction cs with
  | nil => rfl
  | cons c cs ih =>
    obtain ⟨h1, h2, h3, h4, h5⟩ := h c (List.mem_cons_self _ _)
    rw [List.flatMap_cons, ih (fun x hx => h x (List.mem_cons_of_mem _ hx))]
    simp [escapeChar, h1, h2, h3, h4, h5]

theorem escapeChar_ne_nil (c : Char) : escapeChar c ≠ [] := by
  unfold escapeChar
  split_ifs <;> simp

theorem escape_head_injective (c d : Char) (xs ys : List Char)
    (h : escapeChar c ++ xs = escapeChar d ++ ys) : c = d ∧ xs = ys := by
  unfold escapeChar at h
  split_ifs at h <;> simp_all [doubleQuote, singleQuote] <;>
    exact absurd h.1.symm (by assumption)

theorem escape_injective (xs ys : List Char)
    (h : xs.flatMap escapeChar = ys.flatMap escapeChar) : xs = ys := by
  induction xs generalizing ys with
  | nil =>
    cases ys with
    | nil => rfl
    | cons d ds =>
      rw [List.flatMap_nil, List.flatMap_cons] at h
      have := congrArg List.length h
      have hne := escapeChar_ne_nil d
      cases hd : escapeChar d with
      | nil => exact absurd hd hne
      | cons _ _ => rw [hd] at this; simp at this
  | cons c cs ih =>
    cases ys with
    | nil =>
      rw [List.flatMap_nil, List.flatMap_cons] at h
      have := congrArg List.length h
      have hne := escapeChar_ne_nil c
      cases hc : escapeChar c with
      | nil => exact absurd hc hne
      | cons _ _ => rw [hc] at this; simp at this
    | cons d ds =>
      rw [List.flatMap_cons, List.flatMap_cons] at h
      obtain ⟨hcd, hrest⟩ := escape_head_injective c d _ _ h
      rw [hcd, ih ds hrest]
/-! ## The claims -/

/-- C1 fails: a verified paid 30-credit event delivered a second time adds its amount a
second time, and a third delivery a third time, so the balance after the repeats differs
from the balance after the first delivery. -/
theorem grant_idempotent_counterexample :
    balance (deliver (envVerified (creditsEvent "evt_1" "u1" "30")) signedRequest 1
      (singleUser "u1" 0)) "u1" = some 30 ∧
    balance (deliver (envVerified (creditsEvent "evt_1" "u1" "30")) signedRequest 2
      (singleUser "u1" 0)) "u1" = some 60 ∧
    balance (deliver (envVerified (creditsEvent "evt_1" "u1" "30")) signedRequest 3
      (singleUser "u1" 0)) "u1" = some 90 ∧
    balance (deliver (envVerified (creditsEvent "evt_1" "u1" "30")) signedRequest 2
      (singleUser "u1" 0)) "u1" ≠
    balance (deliver (envVerified (creditsEvent "evt_1" "u1" "30")) signedRequest 1
      (singleUser "u1" 0)) "u1" := by
  decide

/-- C1, amended: the handler does not look at the event id; every delivery of a verified
paid credits event for an existing user with a non-negative balance adds the event's
non-negative amount again, so after `n` deliveries the balance has grown by `n` times the
amount. -/
theorem grant_applied_per_delivery (env : WebhookEnv) (req : WebhookRequest) (w : World)
    (event : StripeEvent) (userId : String) (amount b : Int) (n : Nat)
    (hbuf : req.bodyIsBuffer = true)
    (hverified : env.constructEvent req.payload req.signature = Except.ok event)
    (htype : event.type = "checkout.session.completed")
    (hmode : event.session.mode = "payment")
    (hpaid : event.session.payment_status = "paid")
    (hintent : event.session.metaField "intent" = some "credits")
    (huser : event.session.metaField "userId" = some userId)
    (hamount : numberOr (event.session.metaField "creditsPurchased") 0 = JsNum.int amount)
    (hnonneg : 0 ≤ amount) (hb : balance w userId = some b) (hb0 : 0 ≤ b) :
    balance (deliver env req n w) userId = some (b + n * amount) := by
  induction n generalizing w b with
  | zero => simpa [deliver] using hb
  | succ n ih =>
    have hstep := balance_webhook_credits env req w event userId amount b hbuf hverified
      htype hmode hpaid hintent huser hamount hnonneg hb hb0
    rw [deliver, ih (webhook env req w).2 (b + amount) hstep (by omega)]
    congr 1
    push_cast
    ring

/-- C1 amended, at the scenario of the specification: a 30-credit event delivered three
times to a user with balance 0. -/
theorem grant_applied_per_delivery_witness :
    balance (singleUser "u1" 0) "u1" = some 0 ∧
    balance (deliver (envVerified (creditsEvent "evt_1" "u1" "30")) signedRequest 3
      (singleUser "u1" 0)) "u1" = some (0 + (3 : Nat) * 30) :=
  ⟨by decide,
    grant_applied_per_delivery (envVerified (creditsEvent "evt_1" "u1" "30")) signedRequest
      (singleUser "u1" 0) (creditsEvent "evt_1" "u1" "30") "u1" 30 0 3 rfl rfl rfl rfl rfl
      (by decide) (by decide) (by decide) (by decide) (by decide) (by decide)⟩

/-- C2 fails on the code: two batch requests of one user that both pass the credit check on
a balance of 12 before either charges, and then each charge 12 successes, leave the balance
at -12. -/
theorem interleaved_batches_overdraw :
    ∃ s, runSchedule "u1"
        [LedgerOp.check 1 12, LedgerOp.check 2 12, LedgerOp.charge 1 12, LedgerOp.charge 2 12]
        { world := singleUser "u1" 12, inflight := [] } = some s ∧
      balance (singleUser "u1" 12) "u1" = some 12 ∧
      balance s.world "u1" = some (-12) :=
  ⟨_, rfl, by decide, by decide⟩


/-- C3: a batch of K tasks on a user whose balance covers K credits ends with the balance
reduced by exactly the number S of successful tasks (one credit each), for every provider
behaviour and every storage outcome; S is at most K, and the result equals reserving K and
releasing K - S. -/
theorem batch_charges_successes (env : Env) (userId gender : String) (keys : List String)
    (w : World) (b : Int) (hb : balance w userId = some b)
    (hK : (keys.length : Int) * 1 ≤ b) :
    ∃ r, executeBatch env userId gender keys w = some r ∧
      balance r.2 userId = some (b - ((keys.filter (succeeds env)).length : Int) * 1) ∧
      (keys.filter (succeeds env)).length ≤ keys.length ∧
      b - ((keys.filter (succeeds env)).length : Int) * 1 =
        (b - (keys.length : Int) * 1) +
          ((keys.length : Int) - ((keys.filter (succeeds env)).length : Int)) * 1 := by
  obtain ⟨u, hu, hcred⟩ : ∃ u, findById w.users userId = some u ∧ u.credits = b := by
    unfold balance at hb
    cases hf : findById w.users userId with
    | none => simp [hf] at hb
    | some u => exact ⟨u, rfl, by simpa [hf] using hb⟩
  have hc : ¬ u.credits < keys.length := by omega
  refine ⟨_, executeBatch_eq env userId gender keys w u hu hc, ?_, List.length_filter_le _ _,
    by ring⟩
  have hbal : balance
      (saveGenerations env userId gender ((keys.filter (succeeds env)).map (entryOf env))
        (decrementCredits (withCalls w keys) userId
          ((keys.filter (succeeds env)).length : Nat))).2 userId =
      some (b - ((keys.filter (succeeds env)).length : Int) * 1) := by
    rw [balance_saveGenerations, balance_decrementCredits, balance_withCalls, hb]
    simp
  revert hbal
  generalize saveGenerations env userId gender ((keys.filter (succeeds env)).map (entryOf env))
    (decrementCredits (withCalls w keys) userId ((keys.filter (succeeds env)).length : Nat)) = sg
  intro hbal
  rcases sg with ⟨_ | _, w3⟩ <;> exact hbal

/-- C3, at a concrete input: twelve tasks, two of which fail, on a balance of 12. -/
theorem batch_charges_successes_witness :
    balance (singleUser "u1" 12) "u1" = some 12 ∧
    ∃ r, executeBatch (envFailing ["thor", "hulk"]) "u1" "boy" BOY_KEYS (singleUser "u1" 12)
        = some r ∧
      balance r.2 "u1" =
        some (12 - ((BOY_KEYS.filter (succeeds (envFailing ["thor", "hulk"]))).length : Int) * 1) ∧
      (BOY_KEYS.filter (succeeds (envFailing ["thor", "hulk"]))).length ≤ BOY_KEYS.length ∧
      (12 : Int) - ((BOY_KEYS.filter (succeeds (envFailing ["thor", "hulk"]))).length : Int) * 1 =
        (12 - (BOY_KEYS.length : Int) * 1) +
          ((BOY_KEYS.length : Int) -
            ((BOY_KEYS.filter (succeeds (envFailing ["thor", "hulk"]))).length : Int)) * 1 :=
  ⟨by decide,
    batch_charges_successes (envFailing ["thor", "hulk"]) "u1" "boy" BOY_KEYS
      (singleUser "u1" 12) 12 (by decide) (by decide)⟩

/-- C4: a batch requested by a user whose balance is below K (K = 12 for the route, one
credit per task) fails before dispatch: the handler answers with an error status and leaves
the whole state as it was, so no provider call is made, no generation record is appended and
the balance is unchanged; once the request passes the earlier checks the status is 402.  The
same holds for `executeBatch` on any list of K keys. -/
theorem insufficient_batch_no_effect (env : Env) (req : GenRequest) (userId gender : String)
    (keys : List String) (w : World) (b : Int) :
    (balance w req.userId = some b → b < 12 * 1 →
      ∃ resp, kidsGenerate env req w = some (resp, w) ∧ 400 ≤ resp.status ∧
        (env.replicateToken = true → req.hasFile = true →
          (∀ k ∈ BOY_KEYS ++ GIRL_KEYS, hasPrompt env k = true) → resp.status = 402)) ∧
    (balance w userId = some b → b < (keys.length : Int) * 1 →
      ∃ resp, executeBatch env userId gender keys w = some (resp, w) ∧ resp.status = 402) := by
  constructor
  · intro hb hlt
    obtain ⟨u, hu, hcred⟩ := balance_eq_some w req.userId b hb
    have hlen := pack_length (genderOf req)
    have hc : u.credits <
        ((if genderOf req = "girl" then GIRL_KEYS else BOY_KEYS).length : Int) := by
      rw [hlen]; omega
    obtain ⟨e, _, _, hex⟩ := executeBatch_insufficient env req.userId (genderOf req)
      (if genderOf req = "girl" then GIRL_KEYS else BOY_KEYS) w u hu hc
    unfold kidsGenerate
    by_cases h1 : env.replicateToken = true
    · by_cases h2 : req.hasFile = true
      · by_cases h3 : env.heroPrompts.isEmpty = true
        · simp only [h1, h2, h3, Bool.not_true, Bool.false_eq_true, if_false, if_true]
          refine ⟨_, rfl, by decide, ?_⟩
          intro _ _ hall
          have := hall "hulk" (by decide)
          unfold hasPrompt at this
          have hnil : env.heroPrompts = [] := by simpa using h3
          simp [hnil] at this
          exact absurd this (by decide)
        · by_cases h4 : ((if genderOf req = "girl" then GIRL_KEYS else BOY_KEYS).filter
              (fun k => !hasPrompt env k)).length ≠ 0
          · simp only [h1, h2, h3, Bool.not_true, Bool.false_eq_true, if_false]
            rw [if_pos h4]
            refine ⟨_, rfl, Nat.le_refl 400, ?_⟩
            intro _ _ hall
            exfalso
            apply h4
            rw [List.length_eq_zero, List.filter_eq_nil_iff]
            intro k hk
            have hmem : k ∈ BOY_KEYS ++ GIRL_KEYS := by
              split at hk
              · exact List.mem_append_right _ hk
              · exact List.mem_append_left _ hk
            simp [hall k hmem]
          · simp only [h1, h2, h3, Bool.not_true, Bool.false_eq_true, if_false]
            rw [if_neg h4, hex]
            exact ⟨_, rfl, by show 400 ≤ 402; decide, fun _ _ _ => rfl⟩
      · simp only [h1, h2, Bool.not_true, Bool.false_eq_true, if_false, if_true, Bool.not_false]
        exact ⟨_, rfl, by decide, fun _ hf _ => by simp at hf⟩
    · have h1f : env.replicateToken = false := by simpa using h1
      simp only [h1f, Bool.not_false, if_true]
      exact ⟨_, rfl, by decide, fun ht _ _ => by simp at ht⟩
  · intro hb hlt
    obtain ⟨u, hu, hcred⟩ := balance_eq_some w userId b hb
    have hc : u.credits < (keys.length : Int) := by omega
    obtain ⟨e, _, _, hex⟩ := executeBatch_insufficient env userId gender keys w u hu hc
    exact ⟨_, hex, rfl⟩

/-- C4, at a concrete input: the boy pack on a balance of 5. -/
theorem insufficient_batch_no_effect_witness :
    (balance (singleUser "u1" 5) demoRequest.userId = some 5 ∧ (5 : Int) < 12 * 1 ∧
      ∃ resp, kidsGenerate (envFailing []) demoRequest (singleUser "u1" 5)
          = some (resp, singleUser "u1" 5) ∧ 400 ≤ resp.status) ∧
    (balance (singleUser "u1" 5) "u1" = some 5 ∧ (5 : Int) < (BOY_KEYS.length : Int) * 1 ∧
      ∃ resp, executeBatch (envFailing []) "u1" "boy" BOY_KEYS (singleUser "u1" 5)
          = some (resp, singleUser "u1" 5) ∧ resp.status = 402) :=
  ⟨⟨by decide, by decide,
    ((insufficient_batch_no_effect (envFailing []) demoRequest "u1" "boy" BOY_KEYS
      (singleUser "u1" 5) 5).1 (by decide) (by decide)).imp
      (fun _ h => ⟨h.1, h.2.1⟩)⟩,
   ⟨by decide, by decide,
    (insufficient_batch_no_effect (envFailing []) demoRequest "u1" "boy" BOY_KEYS
      (singleUser "u1" 5) 5).2 (by decide) (by decide)⟩⟩

/-- C5: for a user with balance `have_`, the credit check for `need` credits throws exactly
when `have_ < need`; the error then has status 402 and its message contains the decimal
text of `need` followed by that of `have_`, and a batch of `need` tasks answers 402 with
that message and leaves the state unchanged.  When `need ≤ have_` the check returns the
user and throws nothing. -/
theorem credit_check_reports_shortfall (w : World) (userId : String) (u : User)
    (have_ need : Int) (hu : findById w.users userId = some u) (hh : u.credits = have_) :
    (have_ < need →
      ∃ e, ensureAndChargeCredits w userId need = Except.error e ∧ e.status = some 402 ∧
        ∃ pre mid post,
          e.message = pre ++ toString need ++ mid ++ toString have_ ++ post) ∧
    (¬ have_ < need → ensureAndChargeCredits w userId need = Except.ok u) ∧
    ((∃ e, ensureAndChargeCredits w userId need = Except.error e) ↔ have_ < need) ∧
    (have_ < need → ∀ (env : Env) (gender : String) (keys : List String),
      (keys.length : Int) = need →
      ∃ e, ensureAndChargeCredits w userId need = Except.error e ∧
        executeBatch env userId gender keys w =
          some ({ status := 402, body := Body.error e.message }, w)) := by
  subst hh
  refine ⟨?_, ?_, ?_, ?_⟩
  · intro hlt
    simp only [ensureAndChargeCredits, hu, hlt, if_true]
    refine ⟨_, rfl, rfl, ?_⟩
    by_cases h1 : need = 1
    · subst h1
      exact ⟨"Not enough credits. Need ", " credit. You have ", ".", by simp; rfl⟩
    · exact ⟨"Not enough credits. Need ", " credits. You have ",
        ". Missing " ++ toString (need - u.credits) ++ ".", by
          simp only [h1, if_false, String.append_assoc]⟩
  · intro hge
    simp only [ensureAndChargeCredits, hu, hge, if_false]
  · constructor
    · rintro ⟨e, he⟩
      by_contra hge
      simp only [ensureAndChargeCredits, hu, hge, if_false] at he
      cases he
    · intro hlt
      simp only [ensureAndChargeCredits, hu, hlt, if_true]
      exact ⟨_, rfl⟩
  · intro hlt env gender keys hlen
    subst hlen
    obtain ⟨e, he, _, hex⟩ := executeBatch_insufficient env userId gender keys w u hu hlt
    exact ⟨e, he, hex⟩

/-- C5, at the scenario of the specification: balance 5 and a 12-task batch. -/
theorem credit_check_reports_shortfall_witness :
    findById (singleUser "u1" 5).users "u1" =
      some { id := "u1", email := "u1@example.com", credits := 5 } ∧
    ((5 : Int) < 12 ∧
      ∃ e, ensureAndChargeCredits (singleUser "u1" 5) "u1" 12 = Except.error e ∧
        e.status = some 402 ∧
        ∃ pre mid post,
          e.message = pre ++ toString (12 : Int) ++ mid ++ toString (5 : Int) ++ post) ∧
    ensureAndChargeCredits (singleUser "u1" 5) "u1" 12 =
      Except.error { name := "Error",
                     message := "Not enough credits. Need 12 credits. You have 5. Missing 7.",
                     status := some 402 } ∧
    executeBatch (envFailing []) "u1" "boy" BOY_KEYS (singleUser "u1" 5) =
      some ({ status := 402,
              body := Body.error "Not enough credits. Need 12 credits. You have 5. Missing 7." },
            singleUser "u1" 5) :=
  ⟨by decide,
   ⟨by decide,
    (credit_check_reports_shortfall (singleUser "u1" 5) "u1"
      { id := "u1", email := "u1@example.com", credits := 5 } 5 12 (by decide) rfl).1
      (by decide)⟩,
   rfl, rfl⟩

/-- C6: in a batch of K tasks on a sufficient balance in which the task at index `i` fails
and every other task succeeds (and the record store reports no error), the response is the
batch body with K entries in task order, each carrying its key; the entry at `i` carries an
error and no artifact, every other entry carries an artifact and no error, so K - 1 entries
have an artifact and exactly one has an error; K - 1 credits are reported and charged. -/
theorem one_failure_spares_siblings (env : Env) (userId gender : String)
    (keys : List String) (w : World) (b : Int) (hb : balance w userId = some b)
    (hK : (keys.length : Int) ≤ b) (i : Nat) (hi : i < keys.length)
    (hfail : succeeds env (keys.get ⟨i, hi⟩) = false)
    (hothers : ∀ j (hj : j < keys.length), j ≠ i → succeeds env (keys.get ⟨j, hj⟩) = true)
    (hstore : ∀ docs, env.storeError docs = none) :
    ∃ results w1,
      executeBatch env userId gender keys w =
        some ({ status := 200,
                body := Body.batch gender keys.length (keys.length - 1) (keys.length - 1)
                  results }, w1) ∧
      results.length = keys.length ∧
      (results.filter ResultEntry.hasImage).length = keys.length - 1 ∧
      (results.filter (fun r => r.error.isSome)).length = 1 ∧
      (∀ j (hj : j < keys.length), ∃ r, results[j]? = some r ∧ r.key = keys.get ⟨j, hj⟩ ∧
        r.error.isSome = decide (j = i) ∧ r.hasImage = !decide (j = i)) ∧
      balance w1 userId = some (b - ((keys.length : Int) - 1)) := by
  obtain ⟨u, hu, hcred⟩ := balance_eq_some w userId b hb
  have hc : ¬ u.credits < keys.length := by omega
  have hcount := filter_length_all_but_one (succeeds env) keys i hi hfail hothers
  have hS : (keys.filter (succeeds env)).length = keys.length - 1 := by omega
  refine ⟨keys.map (entryOf env),
    (saveGenerations env userId gender ((keys.filter (succeeds env)).map (entryOf env))
      (decrementCredits (withCalls w keys) userId
        ((keys.filter (succeeds env)).length : Nat))).2, ?_, by simp, ?_, ?_, ?_, ?_⟩
  · rw [executeBatch_stored env userId gender keys w u hu hc hstore, hS]
  · rw [success_length, hS]
  · have := error_count env keys
    omega
  · intro j hj
    refine ⟨entryOf env (keys.get ⟨j, hj⟩), by simp [List.getElem?_eq_getElem hj],
      entryOf_key _ _, ?_, ?_⟩
    · rw [entryOf_error]
      by_cases hji : j = i
      · subst hji; simpa using hfail
      · simpa [hji] using hothers j hj hji
    · rw [entryOf_hasImage]
      by_cases hji : j = i
      · subst hji; simpa using hfail
      · simpa [hji] using hothers j hj hji
  · rw [balance_after_batch env userId gender keys w b hb, hS]
    congr 1
    omega

/-- C6, at the scenario of the specification: task 7 of 12 (`thor`) fails, balance 12. -/
theorem one_failure_spares_siblings_witness :
    balance (singleUser "u1" 12) "u1" = some 12 ∧
    succeeds (envFailing ["thor"]) (BOY_KEYS.get ⟨6, by decide⟩) = false ∧
    ∃ results w1,
      executeBatch (envFailing ["thor"]) "u1" "boy" BOY_KEYS (singleUser "u1" 12) =
        some ({ status := 200, body := Body.batch "boy" 12 11 11 results }, w1) ∧
      results.length = 12 ∧
      (results.filter ResultEntry.hasImage).length = 11 ∧
      (results.filter (fun r => r.error.isSome)).length = 1 ∧
      balance w1 "u1" = some 1 :=
  ⟨by decide, by decide,
    (one_failure_spares_siblings (envFailing ["thor"]) "u1" "boy" BOY_KEYS
      (singleUser "u1" 12) 12 (by decide) (by decide) 6 (by decide) (by decide)
      (by decide) (fun _ => rfl)).imp
      (fun _ h => h.imp (fun _ h1 => ⟨h1.1, h1.2.1, h1.2.2.1, h1.2.2.2.1, h1.2.2.2.2.2⟩))⟩

/-- C7 fails on the code: a single generation for the hero `hulk` with the gender parameter
`XyZ`, by a user with balance 12, with a provider that yields an artifact and a record store
that applies the schema of `models/Generation.js`.  The gender is taken as `xyz`, the credit
is charged (balance 11), the document handed to `Generation.create` is refused by the enum of
the schema, no record is persisted, and the response is 500 with the validation error.  The
same request with the gender `boy` is charged one credit, persists exactly one record (user,
hero key, gender) and is answered with 200. -/
theorem single_charged_without_record :
    balance (singleUser "u1" 12) "u1" = some 12 ∧
    succeeds envSchema "hulk" = true ∧
    genderOf (genderRequest "XyZ") = "xyz" ∧
    (kidsGenerateOne envSchema (genderRequest "XyZ") (singleUser "u1" 12)).1.status = 500 ∧
    (kidsGenerateOne envSchema (genderRequest "XyZ") (singleUser "u1" 12)).1.body =
      Body.error
        "Generation validation failed: gender: `xyz` is not a valid enum value for path `gender`." ∧
    balance (kidsGenerateOne envSchema (genderRequest "XyZ") (singleUser "u1" 12)).2 "u1" =
      some 11 ∧
    (kidsGenerateOne envSchema (genderRequest "XyZ") (singleUser "u1" 12)).2.generations.length
      = 0 ∧
    (kidsGenerateOne envSchema (genderRequest "XyZ") (singleUser "u1" 12)).2.storeCalls.map
        (fun docs => docs.map (fun d => (d.userId, d.heroKey, d.gender))) =
      [[("u1", "hulk", "xyz")]] ∧
    (kidsGenerateOne envSchema (genderRequest "boy") (singleUser "u1" 12)).1.status = 200 ∧
    balance (kidsGenerateOne envSchema (genderRequest "boy") (singleUser "u1" 12)).2 "u1" =
      some 11 ∧
    (kidsGenerateOne envSchema (genderRequest "boy") (singleUser "u1" 12)).2.generations.map
        (fun g => (g.doc.userId, g.doc.heroKey, g.doc.gender)) =
      [("u1", "hulk", "boy")] :=
  ⟨by decide, by decide, by decide, by decide, rfl, by decide, by decide, by decide,
   by decide, by decide, by decide⟩

/-- C8: when, in a dispatched batch, the provider reply for the task at index `i` is one on
which `normalizeReplicateOutput` returns `null`, that task is a failure: it is not among the
successes that are charged (the balance drops by the number of succeeding tasks only), the
provider is called once per task of the batch in order and not again, no document with that
key is handed to the record store and no record with that key is added, and the entry at `i`
of a delivered batch response carries the key, the error "No URL in Replicate output" and no
artifact. -/
theorem missing_artifact_is_failure (env : Env) (userId gender : String)
    (keys : List String) (w : World) (b : Int) (hb : balance w userId = some b)
    (hK : (keys.length : Int) ≤ b) (i : Nat) (hi : i < keys.length) (out : JsVal)
    (hout : env.provider (keys.get ⟨i, hi⟩) = Except.ok out)
    (hnull : normalizeReplicateOutput out = JsVal.null) :
    ∃ resp w1, executeBatch env userId gender keys w = some (resp, w1) ∧
      succeeds env (keys.get ⟨i, hi⟩) = false ∧
      balance w1 userId = some (b - ((keys.filter (succeeds env)).length : Int)) ∧
      w1.providerCalls = w.providerCalls ++ keys ∧
      (∃ calls, w1.storeCalls = w.storeCalls ++ calls ∧
        ∀ docs ∈ calls, ∀ d ∈ docs, d.heroKey ≠ keys.get ⟨i, hi⟩) ∧
      (∃ added, w1.generations = w.generations ++ added ∧
        ∀ g ∈ added, g.doc.heroKey ≠ keys.get ⟨i, hi⟩) ∧
      ((∀ docs, env.storeError docs = none) →
        ∃ results,
          resp = { status := 200,
                   body := Body.batch gender keys.length (keys.filter (succeeds env)).length
                     (keys.filter (succeeds env)).length results } ∧
          results[i]? = some { key := keys.get ⟨i, hi⟩, image_url := none,
                               error := some "No URL in Replicate output" }) := by
  obtain ⟨u, hu, hcred⟩ := balance_eq_some w userId b hb
  have hc : ¬ u.credits < keys.length := by omega
  obtain ⟨resp, hex, hresp⟩ := executeBatch_returns env userId gender keys w u hu hc
  obtain ⟨hcalls, hstore, hgens⟩ := batch_world env userId gender keys w
  have hfail : succeeds env (keys.get ⟨i, hi⟩) = false := by
    unfold succeeds
    rw [hout]
    simp only [hnull]
    rfl
  have hkey : ∀ k ∈ keys.filter (succeeds env), k ≠ keys.get ⟨i, hi⟩ := by
    intro k hk heq
    have := (List.mem_filter.mp hk).2
    rw [heq, hfail] at this
    cases this
  refine ⟨resp, _, hex, hfail, balance_after_batch env userId gender keys w b hb, hcalls,
    ⟨_, hstore, ?_⟩, ⟨_, hgens, ?_⟩, ?_⟩
  · intro docs hdocs d hd
    split at hdocs
    · cases hdocs
    · rw [List.mem_singleton] at hdocs
      subst hdocs
      obtain ⟨k, hk, rfl⟩ := List.mem_map.mp hd
      exact hkey k hk
  · intro g hg
    obtain ⟨d, hd, rfl⟩ := List.mem_map.mp hg
    obtain ⟨k, hk, rfl⟩ := List.mem_map.mp (List.mem_filter.mp hd).1
    exact hkey k hk
  · intro hs
    refine ⟨_, hresp hs, ?_⟩
    rw [List.getElem?_map, List.getElem?_eq_getElem hi]
    simp only [Option.map_some', entryOf, settledOf]
    have hout1 : env.provider keys[i] = Except.ok out := hout
    rw [hout1]
    simp [hnull, JsVal.truthy, resultOf, rejectionText, JsError.ofMessage]

/-- C8, at a concrete input: a provider that answers every task with an empty array. -/
theorem missing_artifact_is_failure_witness :
    balance (singleUser "u1" 12) "u1" = some 12 ∧
    envNoArtifact.provider (BOY_KEYS.get ⟨6, by decide⟩) = Except.ok (JsVal.arr []) ∧
    normalizeReplicateOutput (JsVal.arr []) = JsVal.null ∧
    ∃ resp w1, executeBatch envNoArtifact "u1" "boy" BOY_KEYS (singleUser "u1" 12)
        = some (resp, w1) ∧
      balance w1 "u1" = some (12 - ((BOY_KEYS.filter (succeeds envNoArtifact)).length : Int)) ∧
      w1.providerCalls = (singleUser "u1" 12).providerCalls ++ BOY_KEYS :=
  ⟨by decide, rfl, rfl,
    (missing_artifact_is_failure envNoArtifact "u1" "boy" BOY_KEYS (singleUser "u1" 12) 12
      (by decide) (by decide) 6 (by decide) (JsVal.arr []) rfl rfl).imp
      (fun _ h => h.imp (fun _ h1 => ⟨h1.1, h1.2.2.1, h1.2.2.2.1⟩))⟩

/-- C9: a dispatched batch hands to the record store exactly the documents of its
successful tasks, in task order: with no success the store is not called and no record is
added; otherwise there is one insert call whose documents are, one per successful task, the
requesting user's id, the task's key, the gender and that task's artifact.  The records
added are those of these documents that the store accepts, all of them when it accepts
every document, and a delivered batch response reports as many successes as there are
documents. -/
theorem one_record_per_success (env : Env) (userId gender : String) (keys : List String)
    (w : World) (b : Int) (hb : balance w userId = some b) (hK : (keys.length : Int) ≤ b) :
    ∃ resp w1, executeBatch env userId gender keys w = some (resp, w1) ∧
      (keys.filter (succeeds env) = [] →
        w1.storeCalls = w.storeCalls ∧ w1.generations = w.generations) ∧
      (keys.filter (succeeds env) ≠ [] →
        w1.storeCalls =
          w.storeCalls ++ [(keys.filter (succeeds env)).map (docFor env userId gender)]) ∧
      w1.generations = w.generations ++
        ((((keys.filter (succeeds env)).map (docFor env userId gender)).filter
          env.storeAccepts).map (stamp env)) ∧
      ((∀ d, env.storeAccepts d = true) →
        w1.generations = w.generations ++
          ((keys.filter (succeeds env)).map (docFor env userId gender)).map (stamp env)) ∧
      (∀ k ∈ keys.filter (succeeds env), (artifactOf env k).truthy = true) ∧
      ((∀ docs, env.storeError docs = none) →
        ∃ results,
          resp = { status := 200,
                   body := Body.batch gender keys.length (keys.filter (succeeds env)).length
                     (keys.filter (succeeds env)).length results } ∧
          (results.filter ResultEntry.hasImage).length =
            ((keys.filter (succeeds env)).map (docFor env userId gender)).length ∧
          generationDocs userId gender (results.filter ResultEntry.hasImage) =
            (keys.filter (succeeds env)).map (docFor env userId gender)) := by
  obtain ⟨u, hu, hcred⟩ := balance_eq_some w userId b hb
  have hc : ¬ u.credits < keys.length := by omega
  obtain ⟨resp, hex, hresp⟩ := executeBatch_returns env userId gender keys w u hu hc
  obtain ⟨_, hstore, hgens⟩ := batch_world env userId gender keys w
  refine ⟨resp, _, hex, ?_, ?_, hgens, ?_, ?_, ?_⟩
  · intro hnil
    rw [hstore, hgens, hnil]
    simp
  · intro hne
    rw [hstore, if_neg hne]
  · intro hall
    rw [hgens, List.filter_eq_self.mpr (fun d _ => hall d)]
  · intro k hk
    have hs := (List.mem_filter.mp hk).2
    unfold succeeds at hs
    unfold artifactOf
    cases hp : env.provider k with
    | error e => simp [hp] at hs
    | ok out => simpa [hp] using hs
  · intro hs
    refine ⟨_, hresp hs, ?_, ?_⟩
    · rw [success_length, List.length_map]
    · rw [success_eq, generationDocs_winners]

/-- C9, at a concrete input: twelve tasks of which two fail, so ten documents. -/
theorem one_record_per_success_witness :
    balance (singleUser "u1" 12) "u1" = some 12 ∧
    (BOY_KEYS.filter (succeeds (envFailing ["thor", "hulk"]))).length = 10 ∧
    ∃ resp w1, executeBatch (envFailing ["thor", "hulk"]) "u1" "boy" BOY_KEYS
        (singleUser "u1" 12) = some (resp, w1) ∧
      w1.generations = (singleUser "u1" 12).generations ++
        ((((BOY_KEYS.filter (succeeds (envFailing ["thor", "hulk"]))).map
          (docFor (envFailing ["thor", "hulk"]) "u1" "boy")).filter
            (envFailing ["thor", "hulk"]).storeAccepts).map
              (stamp (envFailing ["thor", "hulk"]))) :=
  ⟨by decide, by decide,
    (one_record_per_success (envFailing ["thor", "hulk"]) "u1" "boy" BOY_KEYS
      (singleUser "u1" 12) 12 (by decide) (by decide)).imp
      (fun _ h => h.imp (fun _ h1 => ⟨h1.1, h1.2.2.2.1⟩))⟩

/-- C10 fails: with twelve successes and a record store that rejects the insert, the
handler answers 500 with only the store's error message; the response is not the batch body,
so it lists no task and states no charge, while the balance has dropped from 12 to 0. -/
theorem storage_failure_response_counterexample :
    ∃ resp w1,
      executeBatch (envStoreDown []) "u1" "boy" BOY_KEYS (singleUser "u1" 12)
        = some (resp, w1) ∧
      (BOY_KEYS.filter (succeeds (envStoreDown []))).length = 12 ∧
      balance w1 "u1" = some 0 ∧
      resp.status = 500 ∧
      resp.body = Body.error "insert failed" ∧
      ¬ ∃ gender requested success charged results,
          resp.body = Body.batch gender requested success charged results :=
  ⟨_, _, rfl, by decide, by decide, rfl, rfl, by
    rintro ⟨_, _, _, _, _, h⟩
    cases h⟩

/-- C10, amended: when the insert of a batch with at least one success is rejected by the
record store, the charge stays (the balance is reduced by the number S of successes) and
the handler answers with the error response built from the store's error, whose body is an
error message only. -/
theorem storage_failure_keeps_charge (env : Env) (userId gender : String)
    (keys : List String) (w : World) (b : Int) (e : JsError)
    (hb : balance w userId = some b) (hK : (keys.length : Int) ≤ b)
    (hS : 1 ≤ (keys.filter (succeeds env)).length)
    (hfail : env.storeError ((keys.filter (succeeds env)).map (docFor env userId gender))
      = some e) :
    ∃ w1, executeBatch env userId gender keys w =
        some (errorResponse e "Failed to generate images.", w1) ∧
      balance w1 userId = some (b - ((keys.filter (succeeds env)).length : Int)) ∧
      ∃ msg, (errorResponse e "Failed to generate images.").body = Body.error msg ∧
        msg ≠ "" := by
  obtain ⟨u, hu, hcred⟩ := balance_eq_some w userId b hb
  have hc : ¬ u.credits < keys.length := by omega
  refine ⟨(saveGenerations env userId gender ((keys.filter (succeeds env)).map (entryOf env))
      (decrementCredits (withCalls w keys) userId
        ((keys.filter (succeeds env)).length : Nat))).2, ?_,
    balance_after_batch env userId gender keys w b hb, errorResponse_body _ _ (by decide)⟩
  rw [executeBatch_eq env userId gender keys w u hu hc]
  have hlen : ¬ ((keys.filter (succeeds env)).map (entryOf env)).length = 0 := by
    rw [List.length_map]; omega
  unfold saveGenerations
  simp only [hlen, if_false]
  unfold insertGenerations
  rw [generationDocs_winners, hfail]

/-- C10 amended, at a concrete input: twelve successes and a store that rejects. -/
theorem storage_failure_keeps_charge_witness :
    balance (singleUser "u1" 12) "u1" = some 12 ∧
    ∃ w1, executeBatch (envStoreDown []) "u1" "boy" BOY_KEYS (singleUser "u1" 12) =
        some (errorResponse (JsError.ofMessage "insert failed") "Failed to generate images.",
          w1) ∧
      balance w1 "u1" =
        some (12 - ((BOY_KEYS.filter (succeeds (envStoreDown []))).length : Int)) :=
  ⟨by decide,
    (storage_failure_keeps_charge (envStoreDown []) "u1" "boy" BOY_KEYS (singleUser "u1" 12)
      12 (JsError.ofMessage "insert failed") (by decide) (by decide) (by decide) rfl).imp
      (fun _ h => ⟨h.1, h.2.1⟩)⟩

/-- C11: a request whose body is not a raw buffer, or whose payload and signature header
fail the signature check, is answered with status 400 and leaves the whole state as it was:
no user's balance changes and no order notification is sent. -/
theorem unverified_event_rejected (env : WebhookEnv) (req : WebhookRequest) (w : World)
    (h : req.bodyIsBuffer = false ∨
      ∃ e, env.constructEvent req.payload req.signature = Except.error e) :
    (webhook env req w).1.status = 400 ∧
    (webhook env req w).2 = w ∧
    (∀ userId, balance (webhook env req w).2 userId = balance w userId) ∧
    (webhook env req w).2.orderMails = w.orderMails := by
  obtain ⟨hstatus, hworld⟩ := webhook_rejected env req w h
  exact ⟨hstatus, hworld, fun userId => by rw [hworld], by rw [hworld]⟩

/-- C11, at concrete inputs: a signed request that fails verification, and a request whose
body is not raw. -/
theorem unverified_event_rejected_witness :
    ((∃ e, envUnverified.constructEvent signedRequest.payload signedRequest.signature
        = Except.error e) ∧
      (webhook envUnverified signedRequest twoUsers).1.status = 400 ∧
      balance (webhook envUnverified signedRequest twoUsers).2 "u1" = some 5) ∧
    (parsedRequest.bodyIsBuffer = false ∧
      (webhook (envVerified (creditsEvent "evt_1" "u1" "30")) parsedRequest twoUsers).1.status
        = 400 ∧
      balance (webhook (envVerified (creditsEvent "evt_1" "u1" "30")) parsedRequest twoUsers).2
        "u1" = some 5) :=
  ⟨⟨⟨_, rfl⟩,
    (unverified_event_rejected envUnverified signedRequest twoUsers (Or.inr ⟨_, rfl⟩)).1,
    by decide⟩,
   ⟨rfl,
    (unverified_event_rejected (envVerified (creditsEvent "evt_1" "u1" "30")) parsedRequest
      twoUsers (Or.inl rfl)).1,
    by decide⟩⟩

/-- C12 fails: a request whose payload and signature header pass the signature check is
still rejected with status 400 when its body did not reach the handler as a raw buffer; the
guard of lines 66-69 answers before verification is attempted. -/
theorem rejection_without_signature_failure_counterexample :
    (∃ event, (envVerified (creditsEvent "evt_1" "u1" "30")).constructEvent
        parsedRequest.payload parsedRequest.signature = Except.ok event) ∧
    (webhook (envVerified (creditsEvent "evt_1" "u1" "30")) parsedRequest twoUsers).1.status
      = 400 :=
  ⟨⟨_, rfl⟩, rfl⟩

/-- C12, amended: the handler rejects (status 400) exactly when the body is not a raw buffer
or the signature check throws; otherwise, for every verified event, whatever its type, mode,
payment status or intent and whatever the credit grant or the mailer do, the response is
status 200 with the body `received`. -/
theorem rejects_iff_unverified_or_not_raw (env : WebhookEnv) (req : WebhookRequest)
    (w : World) :
    ((webhook env req w).1.status = 400 ↔
      (req.bodyIsBuffer = false ∨
        ∃ e, env.constructEvent req.payload req.signature = Except.error e)) ∧
    (∀ event, req.bodyIsBuffer = true →
      env.constructEvent req.payload req.signature = Except.ok event →
      (webhook env req w).1.status = 200 ∧ (webhook env req w).1.body = Body.received) ∧
    ((webhook env req w).1.status = 400 ∨
      ((webhook env req w).1.status = 200 ∧ (webhook env req w).1.body = Body.received)) := by
  have hack : ∀ event, req.bodyIsBuffer = true →
      env.constructEvent req.payload req.signature = Except.ok event →
      (webhook env req w).1.status = 200 ∧ (webhook env req w).1.body = Body.received := by
    intro event hbuf hverified
    rw [webhook_verified env req w event hbuf hverified]
    exact ⟨rfl, rfl⟩
  refine ⟨⟨?_, fun h => (webhook_rejected env req w h).1⟩, hack, ?_⟩
  · intro hstatus
    by_contra hno
    have hbuf : req.bodyIsBuffer = true := by
      by_contra hb
      exact hno (Or.inl (by simpa using hb))
    cases hv : env.constructEvent req.payload req.signature with
    | error e => exact hno (Or.inr ⟨e, hv⟩)
    | ok event =>
      have := (hack event hbuf hv).1
      rw [this] at hstatus
      cases hstatus
  · by_cases hbuf : req.bodyIsBuffer = true
    · cases hv : env.constructEvent req.payload req.signature with
      | error e => exact Or.inl (webhook_rejected env req w (Or.inr ⟨e, hv⟩)).1
      | ok event => exact Or.inr (hack event hbuf hv)
    · exact Or.inl (webhook_rejected env req w (Or.inl (by simpa using hbuf))).1

/-- C12 amended, at concrete inputs: a verified credits event whose grant is refused by the
validation of `save()` (balance -5, 3 credits) and a verified book event whose mailer throws
are both acknowledged. -/
theorem rejects_iff_unverified_or_not_raw_witness :
    (addCredits (singleUser "u1" (-5)) (some "u1") (JsNum.int 3)).1 ≠ Except.ok () ∧
    ((webhook (envVerified (creditsEvent "evt_1" "u1" "3")) signedRequest
        (singleUser "u1" (-5))).1.status = 200 ∧
      (webhook (envVerified (creditsEvent "evt_1" "u1" "3")) signedRequest
        (singleUser "u1" (-5))).1.body = Body.received) ∧
    ((webhook (envMailerDown (intentEvent "book" "u1")) signedRequest twoUsers).1.status = 200 ∧
      (webhook (envMailerDown (intentEvent "book" "u1")) signedRequest twoUsers).1.body
        = Body.received) :=
  ⟨(fun h => by cases h),
   (rejects_iff_unverified_or_not_raw (envVerified (creditsEvent "evt_1" "u1" "3"))
      signedRequest (singleUser "u1" (-5))).2.1 _ rfl rfl,
   (rejects_iff_unverified_or_not_raw (envMailerDown (intentEvent "book" "u1"))
      signedRequest twoUsers).2.1 _ rfl rfl⟩

/-- C13: for a verified event, a balance changes only if the event is
`checkout.session.completed` with mode `payment`, payment status `paid` and metadata intent
`credits`; and for such an event that names an existing user with a non-negative balance
and a non-negative integer amount, that user's balance grows by exactly the amount while
the balance of every other user id is unchanged. -/
theorem credits_granted_only_for_paid_credit_events (env : WebhookEnv)
    (req : WebhookRequest) (w : World) (event : StripeEvent)
    (hbuf : req.bodyIsBuffer = true)
    (hverified : env.constructEvent req.payload req.signature = Except.ok event) :
    ((∃ userId, balance (webhook env req w).2 userId ≠ balance w userId) →
      event.type = "checkout.session.completed" ∧ event.session.mode = "payment" ∧
      event.session.payment_status = "paid" ∧
      event.session.metaField "intent" = some "credits") ∧
    (event.type = "checkout.session.completed" → event.session.mode = "payment" →
      event.session.payment_status = "paid" →
      event.session.metaField "intent" = some "credits" →
      ∀ (userId : String) (amount b : Int),
        event.session.metaField "userId" = some userId →
        numberOr (event.session.metaField "creditsPurchased") 0 = JsNum.int amount →
        0 ≤ amount → balance w userId = some b → 0 ≤ b →
        balance (webhook env req w).2 userId = some (b + amount) ∧
        ∀ other, other ≠ userId → balance (webhook env req w).2 other = balance w other) := by
  constructor
  · rintro ⟨userId, hchange⟩
    by_contra hnot
    apply hchange
    rw [webhook_verified env req w event hbuf hverified]
    unfold balance
    rw [processEvent_users_of_not_credits env event w hnot]
  · intro htype hmode hpaid hintent userId amount b huser hamount hnonneg hb hb0
    refine ⟨balance_webhook_credits env req w event userId amount b hbuf hverified htype hmode
      hpaid hintent huser hamount hnonneg hb hb0, ?_⟩
    intro other hne
    rw [webhook_verified env req w event hbuf hverified]
    unfold processEvent
    simp only [htype, hmode, hpaid, hintent, huser, and_self, if_true]
    exact balance_addCredits_ne w (some userId) _ other (by
      intro h
      exact hne (Option.some.inj h).symm)

/-- C13, at a concrete input: a paid 30-credit event for `u1` (balance 5) next to `u2`
(balance 7). -/
theorem credits_granted_only_for_paid_credit_events_witness :
    signedRequest.bodyIsBuffer = true ∧
    balance twoUsers "u1" = some 5 ∧
    balance (webhook (envVerified (creditsEvent "evt_1" "u1" "30")) signedRequest twoUsers).2
      "u1" = some (5 + 30) ∧
    (∀ other, other ≠ "u1" →
      balance (webhook (envVerified (creditsEvent "evt_1" "u1" "30")) signedRequest twoUsers).2
        other = balance twoUsers other) ∧
    balance (webhook (envVerified (creditsEvent "evt_1" "u1" "30")) signedRequest twoUsers).2
      "u2" = some 7 :=
  ⟨rfl, by decide,
   ((credits_granted_only_for_paid_credit_events (envVerified (creditsEvent "evt_1" "u1" "30"))
      signedRequest twoUsers (creditsEvent "evt_1" "u1" "30") rfl rfl).2 rfl rfl rfl
      (by decide) "u1" 30 5 (by decide) (by decide) (by decide) (by decide) (by decide)).1,
   ((credits_granted_only_for_paid_credit_events (envVerified (creditsEvent "evt_1" "u1" "30"))
      signedRequest twoUsers (creditsEvent "evt_1" "u1" "30") rfl rfl).2 rfl rfl rfl
      (by decide) "u1" 30 5 (by decide) (by decide) (by decide) (by decide) (by decide)).2,
   by decide⟩

/-- C14: a verified paid one-time-payment event with the intent `book` is acknowledged and
changes nothing but the trace of order mails: the users and so every balance are unchanged,
and the mailer is called exactly once, with the order built from the session (its metadata
fields with their defaults, its totals and its id) and stamped with the handling time.  This
holds whatever the mailer returns, so an error of the mailer does not leave the handler. -/
theorem book_order_no_ledger_change (env : WebhookEnv) (req : WebhookRequest) (w : World)
    (event : StripeEvent) (hbuf : req.bodyIsBuffer = true)
    (hverified : env.constructEvent req.payload req.signature = Except.ok event)
    (htype : event.type = "checkout.session.completed")
    (hmode : event.session.mode = "payment")
    (hpaid : event.session.payment_status = "paid")
    (hintent : event.session.metaField "intent" = some "book") :
    webhook env req w =
      ({ status := 200, body := Body.received },
       { w with orderMails := w.orderMails ++ [orderOf env.now event.session] }) ∧
    (webhook env req w).2.users = w.users ∧
    (∀ userId, balance (webhook env req w).2 userId = balance w userId) ∧
    (webhook env req w).2.orderMails = w.orderMails ++ [orderOf env.now event.session] ∧
    (orderOf env.now event.session).userId = orElse (event.session.metaField "userId") "" ∧
    (orderOf env.now event.session).userEmail
      = orElse (event.session.metaField "userEmail") "" ∧
    (orderOf env.now event.session).material
      = orElse (event.session.metaField "material") "" ∧
    (orderOf env.now event.session).quantity
      = numberOr (event.session.metaField "quantity") 1 ∧
    (orderOf env.now event.session).city = orElse (event.session.metaField "addr_city") "" ∧
    (orderOf env.now event.session).stripeSessionId = event.session.id ∧
    (orderOf env.now event.session).createdAt = env.now := by
  have hw : webhook env req w =
      ({ status := 200, body := Body.received },
       { w with orderMails := w.orderMails ++ [orderOf env.now event.session] }) := by
    rw [webhook_verified env req w event hbuf hverified]
    unfold processEvent
    have hnot : ¬ (some "book" = some "credits") := by decide
    simp only [htype, hmode, hpaid, hintent, hnot, and_self, if_true, if_false,
      handleBookOrder_eq]
  refine ⟨hw, ?_, ?_, ?_, rfl, rfl, rfl, rfl, rfl, rfl, rfl⟩
  · rw [hw]
  · intro userId
    rw [hw]
    rfl
  · rw [hw]

/-- C14, at a concrete input: a book order of `u1` while the mailer throws. -/
theorem book_order_no_ledger_change_witness :
    (envMailerDown (intentEvent "book" "u1")).sendPurchaseEmail
      (orderOf 1 (intentEvent "book" "u1").session) ≠ none ∧
    (webhook (envMailerDown (intentEvent "book" "u1")) signedRequest twoUsers).2.users
      = twoUsers.users ∧
    (webhook (envMailerDown (intentEvent "book" "u1")) signedRequest twoUsers).2.orderMails
      = twoUsers.orderMails ++ [orderOf 1 (intentEvent "book" "u1").session] ∧
    (orderOf 1 (intentEvent "book" "u1").session).quantity = JsNum.int 2 :=
  ⟨by decide,
   (book_order_no_ledger_change (envMailerDown (intentEvent "book" "u1")) signedRequest twoUsers
      (intentEvent "book" "u1") rfl rfl rfl rfl rfl (by decide)).2.1,
   (book_order_no_ledger_change (envMailerDown (intentEvent "book" "u1")) signedRequest twoUsers
      (intentEvent "book" "u1") rfl rfl rfl rfl rfl (by decide)).2.2.2.1,
   by decide⟩

/-- C15: a verified event of a type other than `checkout.session.completed`, and a verified
event whose metadata intent is neither `credits` nor `book` (a missing intent included), is
acknowledged and leaves the whole state as it was: no balance changes and no notification
is sent. -/
theorem unrecognized_event_no_effect (env : WebhookEnv) (req : WebhookRequest) (w : World)
    (event : StripeEvent) (hbuf : req.bodyIsBuffer = true)
    (hverified : env.constructEvent req.payload req.signature = Except.ok event)
    (h : event.type ≠ "checkout.session.completed" ∨
      (event.session.metaField "intent" ≠ some "credits" ∧
        event.session.metaField "intent" ≠ some "book")) :
    webhook env req w = ({ status := 200, body := Body.received }, w) ∧
    (∀ userId, balance (webhook env req w).2 userId = balance w userId) ∧
    (webhook env req w).2.orderMails = w.orderMails := by
  have hw : webhook env req w = ({ status := 200, body := Body.received }, w) := by
    rw [webhook_verified env req w event hbuf hverified]
    unfold processEvent
    rcases h with h | ⟨h1, h2⟩
    · simp only [h, if_false]
    · simp only [h1, h2, if_false]
      split
      · split <;> rfl
      · rfl
  exact ⟨hw, fun userId => by rw [hw], by rw [hw]⟩

/-- C15, at concrete inputs: a paid event with the unknown intent `gift`, and an event of
another type. -/
theorem unrecognized_event_no_effect_witness :
    ((intentEvent "gift" "u1").session.metaField "intent" ≠ some "credits" ∧
      (intentEvent "gift" "u1").session.metaField "intent" ≠ some "book") ∧
    webhook (envVerified (intentEvent "gift" "u1")) signedRequest twoUsers
      = ({ status := 200, body := Body.received }, twoUsers) ∧
    webhook (envVerified { creditsEvent "evt_1" "u1" "30" with type := "invoice.paid" })
        signedRequest twoUsers
      = ({ status := 200, body := Body.received }, twoUsers) :=
  ⟨by decide,
   (unrecognized_event_no_effect (envVerified (intentEvent "gift" "u1")) signedRequest twoUsers
      (intentEvent "gift" "u1") rfl rfl (Or.inr (by decide))).1,
   (unrecognized_event_no_effect
      (envVerified { creditsEvent "evt_1" "u1" "30" with type := "invoice.paid" })
      signedRequest twoUsers { creditsEvent "evt_1" "u1" "30" with type := "invoice.paid" }
      rfl rfl (Or.inl (by decide))).1⟩

/-- C16: when the limit parameter parses to a number in 1..100 and the offset parameter to
a number at least 0 (and the store answers), the listing route returns status 200 with that
limit and offset, `total` the number of all records of the requesting user, and as items
the records of that user in an order that is descending in creation time, with the first
`offset` of them skipped and at most `limit` kept. -/
theorem list_newest_first_with_total (req : ListRequest) (w : World) (limit offset : Int)
    (hl : parseInt (orElse req.limit "20") = JsNum.int limit)
    (ho : parseInt (orElse req.offset "0") = JsNum.int offset)
    (hl1 : 1 ≤ limit) (hl100 : limit ≤ 100) (ho0 : 0 ≤ offset) :
    ∃ sorted : List Generation,
      sorted.Perm (w.generations.filter (fun g => g.doc.userId == req.userId)) ∧
      sorted.Sorted (fun a b => b.createdAt ≤ a.createdAt) ∧
      kidsGenerations none req w =
        { status := 200,
          body := Body.generations
            (w.generations.filter (fun g => g.doc.userId == req.userId)).length limit offset
            ((sorted.drop offset.toNat).take limit.toNat) } ∧
      ((sorted.drop offset.toNat).take limit.toNat).length =
        min limit.toNat
          ((w.generations.filter (fun g => g.doc.userId == req.userId)).length
            - offset.toNat) := by
  have hfilter : (fun g : Generation => g.doc.userId == req.userId) = ownedBy req.userId := rfl
  rw [hfilter]
  refine ⟨sortNewestFirst (w.generations.filter (ownedBy req.userId)),
    sortNewestFirst_perm _, sortNewestFirst_sorted _, ?_, ?_⟩
  · have hlim : limitOf req = JsNum.int limit := by
      unfold limitOf
      rw [hl]
      simp [jsMin, min_eq_left hl100]
    have hoff : offsetOf req = JsNum.int offset := by
      unfold offsetOf
      rw [ho]
      simp [jsMax, max_eq_left ho0]
    rw [kidsGenerations_ok req w limit offset hlim hoff]
    have hne : limit ≠ 0 := by omega
    have habs : limit.natAbs = limit.toNat := by omega
    simp only [findGenerations, applyLimit, countGenerations, hne, if_false, habs]
  · rw [List.length_take, List.length_drop, (sortNewestFirst_perm _).length_eq]

/-- C16, at the scenario of the specification: 25 records of `u1` (and records of another
user), limit 20 and offset 0 give the 20 newest, created at times 24 down to 5, and total
25. -/
theorem list_newest_first_with_total_witness :
    parseInt (orElse firstPage.limit "20") = JsNum.int 20 ∧
    parseInt (orElse firstPage.offset "0") = JsNum.int 0 ∧
    (∃ sorted : List Generation,
      sorted.Perm (storeOf25.generations.filter (fun g => g.doc.userId == firstPage.userId)) ∧
      sorted.Sorted (fun a b => b.createdAt ≤ a.createdAt) ∧
      kidsGenerations none firstPage storeOf25 =
        { status := 200,
          body := Body.generations
            (storeOf25.generations.filter (fun g => g.doc.userId == firstPage.userId)).length
            20 0 ((sorted.drop (0 : Int).toNat).take (20 : Int).toNat) }) ∧
    countGenerations storeOf25.generations "u1" = 25 ∧
    (findGenerations storeOf25.generations "u1" 0 20).map (fun g => g.createdAt) =
      [24, 23, 22, 21, 20, 19, 18, 17, 16, 15, 14, 13, 12, 11, 10, 9, 8, 7, 6, 5] :=
  ⟨by decide, by decide,
   (list_newest_first_with_total firstPage storeOf25 20 0 (by decide) (by decide) (by decide)
      (by decide) (by decide)).imp (fun _ h => ⟨h.1, h.2.1, h.2.2.1⟩),
   by decide, by decide⟩

/-- C17: every item that the listing route returns belongs to the requesting user, for
every limit and offset parameter and every store; and on two stores that hold the same
records of that user, whatever records of other users they hold, the route gives the same
response, items and total included. -/
theorem list_scoped_to_owner (queryError : Option JsError) (req : ListRequest)
    (w1 w2 : World) :
    (∀ total limit offset items,
      (kidsGenerations queryError req w1).body = Body.generations total limit offset items →
      ∀ g ∈ items, g.doc.userId = req.userId ∧ g ∈ w1.generations) ∧
    (w1.generations.filter (fun g => g.doc.userId == req.userId) =
        w2.generations.filter (fun g => g.doc.userId == req.userId) →
      kidsGenerations queryError req w1 = kidsGenerations queryError req w2) := by
  constructor
  · intro total limit offset items hbody g hg
    obtain ⟨_, hitems⟩ := kidsGenerations_body queryError req w1 total limit offset items hbody
    rw [hitems] at hg
    obtain ⟨hmem, howner⟩ := mem_findGenerations _ _ _ _ g hg
    exact ⟨howner, hmem⟩
  · intro hsame
    have hsame1 : w1.generations.filter (ownedBy req.userId) =
        w2.generations.filter (ownedBy req.userId) := hsame
    unfold kidsGenerations findGenerations countGenerations
    rw [hsame1]

/-- C17, at a concrete input: removing the records of `u2` from the store does not change
what `u1` is shown. -/
theorem list_scoped_to_owner_witness :
    storeOf25.generations.filter (fun g => g.doc.userId == firstPage.userId) =
      ({ storeOf25 with generations := (List.range 25).map (recordAt "u1") }).generations.filter
        (fun g => g.doc.userId == firstPage.userId) ∧
    kidsGenerations none firstPage storeOf25 =
      kidsGenerations none firstPage
        { storeOf25 with generations := (List.range 25).map (recordAt "u1") } :=
  ⟨rfl,
   (list_scoped_to_owner none firstPage storeOf25
      { storeOf25 with generations := (List.range 25).map (recordAt "u1") }).2 rfl⟩

/-- C18: the generation record store only grows.  After a batch request and after a single
generation the stored records are the records stored before, unchanged and in place,
followed by the records added by that request, each of them a record of the requesting user
stamped with the time of the insert; a single generation adds at most one.  The listing
route returns a response only and writes nothing. -/
theorem record_store_append_only (env : Env) (req : GenRequest) (w : World) :
    (∀ resp w1, kidsGenerate env req w = some (resp, w1) →
      ∃ added, w1.generations = w.generations ++ added ∧
        ∀ g ∈ added, g.doc.userId = req.userId ∧ g.createdAt = env.now) ∧
    (∃ added, (kidsGenerateOne env req w).2.generations = w.generations ++ added ∧
      added.length ≤ 1 ∧
      ∀ g ∈ added, g.doc.userId = req.userId ∧ g.createdAt = env.now) ∧
    (∀ resp w1, kidsGenerate env req w = some (resp, w1) →
      ∀ i (hi : i < w.generations.length), w1.generations[i]? = some (w.generations.get ⟨i, hi⟩)) ∧
    (∀ i (hi : i < w.generations.length),
      (kidsGenerateOne env req w).2.generations[i]? = some (w.generations.get ⟨i, hi⟩)) := by
  have hbatch : ∀ resp w1, kidsGenerate env req w = some (resp, w1) →
      ∃ added, w1.generations = w.generations ++ added ∧
        ∀ g ∈ added, g.doc.userId = req.userId ∧ g.createdAt = env.now := by
    intro resp w1 h
    rcases kidsGenerate_cases env req w resp w1 h with hw | hex
    · exact ⟨[], by rw [hw]; simp, by simp⟩
    · obtain ⟨added, hgens, hadded⟩ := executeBatch_generations env req.userId (genderOf req)
        _ w resp w1 hex
      exact ⟨added, hgens, fun g hg => ⟨(hadded g hg).1, (hadded g hg).2.2⟩⟩
  have hone := kidsGenerateOne_generations env req w
  refine ⟨hbatch, hone, ?_, ?_⟩
  · intro resp w1 h i hi
    obtain ⟨added, hgens, _⟩ := hbatch resp w1 h
    rw [hgens, List.getElem?_append_left hi, List.getElem?_eq_getElem hi]
    rfl
  · intro i hi
    obtain ⟨added, hgens, _⟩ := hone
    rw [hgens, List.getElem?_append_left hi, List.getElem?_eq_getElem hi]
    rfl

/-- C18, at a concrete input: a successful single generation on a store that already holds
27 records keeps them and adds one. -/
theorem record_store_append_only_witness :
    (kidsGenerateOne (envFailing []) demoRequest
        { storeOf25 with users := (singleUser "u1" 12).users }).2.generations.length = 28 ∧
    ∃ added,
      (kidsGenerateOne (envFailing []) demoRequest
        { storeOf25 with users := (singleUser "u1" 12).users }).2.generations
        = storeOf25.generations ++ added ∧ added.length ≤ 1 :=
  ⟨by decide,
   (record_store_append_only (envFailing []) demoRequest
      { storeOf25 with users := (singleUser "u1" 12).users }).2.1.imp
      (fun _ h => ⟨h.1, h.2.1⟩)⟩

/-- C19: the windowed runner returns one outcome per item, in item order: for a window of
at least one item it returns, its result has the length of the item list, and its entry at
`i` is the outcome of the worker on the item at `i`.  In the batch route the tabulated
results have the length of the key list and the entry at `i` carries the key at `i`, with an
artifact when that task succeeds and with an error when it fails. -/
theorem outcomes_in_input_order {α β σ : Type} (items : List α)
    (worker : α → σ → Settled β × σ) (batchSize : Nat) (s : σ) (hwindow : 0 < batchSize)
    (env : Env) (keys : List String) (w : World) :
    (∃ r, runInBatches items worker batchSize s = some r ∧ r.1.length = items.length ∧
      ∀ outcome : α → Settled β, (∀ x t, (worker x t).1 = outcome x) →
        ∀ i (hi : i < items.length), r.1[i]? = some (outcome (items.get ⟨i, hi⟩))) ∧
    (∃ settled w1, runInBatches keys (KidsHeroMaker.worker env) 3 w = some (settled, w1) ∧
      settled.length = keys.length ∧
      (resultsFrom keys 0 settled).length = keys.length ∧
      ∀ i (hi : i < keys.length), ∃ r, (resultsFrom keys 0 settled)[i]? = some r ∧
        r.key = keys.get ⟨i, hi⟩ ∧
        (succeeds env (keys.get ⟨i, hi⟩) = true → r.hasImage = true ∧ r.error = none) ∧
        (succeeds env (keys.get ⟨i, hi⟩) = false →
          r.image_url = none ∧ r.error.isSome = true)) := by
  constructor
  · refine ⟨_, runInBatches_eq items worker batchSize hwindow s,
      allSettled_length worker items s, ?_⟩
    intro outcome houtcome i hi
    rw [allSettled_outcome worker outcome houtcome items s, List.getElem?_map,
      List.getElem?_eq_getElem hi]
    rfl
  · refine ⟨keys.map (settledOf env), withCalls w keys, ?_, ?_, ?_, ?_⟩
    · rw [runInBatches_eq keys (KidsHeroMaker.worker env) 3 (by decide) w, allSettled_worker]
    · simp
    · rw [resultsFrom_settled env keys keys 0 (by simp)]
      simp
    · intro i hi
      rw [resultsFrom_settled env keys keys 0 (by simp)]
      refine ⟨entryOf env (keys.get ⟨i, hi⟩), by simp [List.getElem?_eq_getElem hi],
        entryOf_key _ _, ?_, ?_⟩
      · intro hs
        refine ⟨by rw [entryOf_hasImage, hs], ?_⟩
        have := entryOf_error env (keys.get ⟨i, hi⟩)
        rw [hs] at this
        simpa using this
      · intro hs
        have herr := entryOf_error env (keys.get ⟨i, hi⟩)
        rw [hs] at herr
        refine ⟨?_, by simpa using herr⟩
        have himg := entryOf_hasImage env (keys.get ⟨i, hi⟩)
        rw [hs] at himg
        unfold entryOf settledOf at himg ⊢
        unfold succeeds at hs
        cases hp : env.provider (keys.get ⟨i, hi⟩) with
        | error e => simp [resultOf]
        | ok out =>
          rw [hp] at hs
          simp only at hs
          simp [hs, resultOf]

/-- C19, at a concrete input: the boy pack with `thor` failing. -/
theorem outcomes_in_input_order_witness :
    (0 < 3) ∧
    ∃ settled w1, runInBatches BOY_KEYS (worker (envFailing ["thor"])) 3 (singleUser "u1" 12)
        = some (settled, w1) ∧
      (resultsFrom BOY_KEYS 0 settled).length = BOY_KEYS.length ∧
      (resultsFrom BOY_KEYS 0 settled).map (fun r => r.key) = BOY_KEYS :=
  ⟨by decide,
   ((outcomes_in_input_order BOY_KEYS (worker (envFailing ["thor"])) 3 (singleUser "u1" 12)
      (by decide) (envFailing ["thor"]) BOY_KEYS (singleUser "u1" 12)).2).imp
      (fun settled h => h.imp (fun _ h1 => ⟨h1.1, h1.2.2.1, by
        have h2 := h1.1
        rw [runInBatches_eq BOY_KEYS (worker (envFailing ["thor"])) 3 (by decide),
          allSettled_worker] at h2
        simp only [Option.some.injEq, Prod.mk.injEq] at h2
        rw [← h2.1]
        decide⟩))⟩

/-- C20: with a window of `batchSize >= 1` the runner returns and dispatches the items in
consecutive slices: the slices concatenate to the item list, each holds between 1 and
`batchSize` items, and every slice but the last holds exactly `batchSize`.  In the sequence
of task starts and settlements, whatever the order in which the tasks of a window settle,
at every point at most `batchSize` tasks are in flight, and at every start of a task fewer
than `batchSize` are in flight and the tasks settled so far are exactly those of the earlier
windows (`batchSize` times the number of earlier windows), so no task of a window starts
before every task of the window before it has settled.  Every task starts and settles
once. -/
theorem windowed_dispatch {α : Type} (items : List α) (resolveOrder : List α → List α)
    (batchSize : Nat) (hwindow : 0 < batchSize)
    (hperm : ∀ sl, (resolveOrder sl).Perm sl) :
    ∃ slices trace,
      slicesOf items batchSize = some slices ∧
      dispatchTrace items resolveOrder batchSize = some trace ∧
      trace = slices.flatMap (windowEvents resolveOrder) ∧
      slices.flatten = items ∧
      (∀ sl ∈ slices, 1 ≤ sl.length ∧ sl.length ≤ batchSize) ∧
      (∀ sl ∈ slices.dropLast, sl.length = batchSize) ∧
      (∀ p q, trace = p ++ q →
        settledCount p ≤ startedCount p ∧ startedCount p - settledCount p ≤ batchSize) ∧
      (∀ p x rest, trace = p ++ TaskEvent.started x :: rest →
        settledCount p = batchSize * (startedCount p / batchSize) ∧
        startedCount p - settledCount p < batchSize) ∧
      startedCount trace = items.length ∧ settledCount trace = items.length := by
  obtain ⟨slices, hrun, hflat, hlen, hfull⟩ :=
    slicesLoop_spec items batchSize hwindow items.length 0 [] (by omega)
  simp only [List.nil_append, List.drop_zero] at hrun hflat
  have hobeys := obeysWindow_slices batchSize resolveOrder hperm slices 0 (Nat.dvd_zero _)
    (fun sl hsl => (hlen sl hsl).2) hfull
  obtain ⟨hA, hB⟩ := obeysWindow_sound batchSize _ 0 0 hobeys (Nat.le_refl 0) (Nat.zero_le _)
  obtain ⟨hst, hse⟩ := counts_windows resolveOrder hperm slices
  refine ⟨slices, slices.flatMap (windowEvents resolveOrder), hrun, ?_, rfl, hflat, hlen,
    hfull, ?_, ?_, by rw [hst, hflat], by rw [hse, hflat]⟩
  · unfold dispatchTrace slicesOf
    rw [hrun]
    rfl
  · intro p q h
    have := hA p q h
    simpa using this
  · intro p x rest h
    have := hB p x rest h
    simpa using this

/-- C20, at the window of the batch route: the twelve keys of the boy pack in four windows
of three, the tasks of each window settling in reverse order. -/
theorem windowed_dispatch_witness :
    (0 < 3) ∧
    slicesOf BOY_KEYS 3 =
      some [["deadpool", "wolverine", "spider-man"],
            ["miles-morales", "iron-man", "captain-america"],
            ["thor", "venom", "doctor-strange"],
            ["black-panther", "hulk", "loki"]] ∧
    ∃ slices trace,
      slicesOf BOY_KEYS 3 = some slices ∧
      dispatchTrace BOY_KEYS List.reverse 3 = some trace ∧
      (∀ p q, trace = p ++ q →
        settledCount p ≤ startedCount p ∧ startedCount p - settledCount p ≤ 3) ∧
      (∀ p x rest, trace = p ++ TaskEvent.started x :: rest →
        settledCount p = 3 * (startedCount p / 3) ∧ startedCount p - settledCount p < 3) :=
  ⟨by decide, by decide,
   (windowed_dispatch BOY_KEYS List.reverse 3 (by decide)
      (fun sl => List.reverse_perm sl)).imp
      (fun _ h => h.imp (fun _ h1 => ⟨h1.1, h1.2.1, h1.2.2.2.2.2.2.1, h1.2.2.2.2.2.2.2.1⟩))⟩

/-- C21 fails on the code: a grant of 30 reads the balance 12, a charge of 5 then lowers
the stored balance to 7, and the grant writes 12 + 30; the balance is 42, above the initial
balance plus the grants minus the charges, 12 + 30 - 5 = 37: the charge is lost. -/
theorem charge_lost_between_grant_read_and_write :
    ∃ s, runGrants "u1"
        [GrantOp.grantRead 1 (JsNum.int 30), GrantOp.charge 5, GrantOp.grantWrite 1]
        { world := singleUser "u1" 12, reads := [], granted := 0, charged := 0 } = some s ∧
      s.granted = 30 ∧ s.charged = 5 ∧
      balance s.world "u1" = some 42 ∧
      ¬ ((42 : Int) ≤ 12 + s.granted - s.charged) :=
  ⟨_, rfl, by decide, by decide, by decide, by decide⟩

/-- C22: a checkout that `buy-credits` starts carries as `creditsPurchased` the decimal
text of the credits of the chosen pack of `CREDIT_PACKS`, one of 10, 30 and 100, and as
`userId` the authenticated user; when the paid event of that session is verified, the
webhook adds exactly that number of credits to the balance of that user.  The metadata
depends on the request only through the user and the lower-cased pack key, so no other
field of the body has a part in the amount. -/
theorem pack_grant_round_trip (env : StripeEnv) (req : BuyCreditsRequest) (w : World)
    (metadata : List (String × String)) (hbuy : buyCredits env req w = Except.ok metadata) :
    (∃ cfg, (CREDIT_PACKS env).lookup (toLowerCase (orElse req.pack "")) = some cfg ∧
      (cfg.credits = 10 ∨ cfg.credits = 30 ∨ cfg.credits = 100) ∧
      metadata.lookup "creditsPurchased" = some (toString cfg.credits) ∧
      metadata.lookup "userId" = some req.userId ∧
      metadata.lookup "intent" = some "credits" ∧
      ∀ (hookEnv : WebhookEnv) (hook : WebhookRequest) (w2 : World) (b : Int)
        (eventId sessionId : String),
        hook.bodyIsBuffer = true →
        hookEnv.constructEvent hook.payload hook.signature
          = Except.ok (paidSessionEvent eventId sessionId metadata) →
        balance w2 req.userId = some b → 0 ≤ b →
        balance (webhook hookEnv hook w2).2 req.userId = some (b + cfg.credits)) ∧
    (∀ req2 : BuyCreditsRequest, req2.userId = req.userId →
      toLowerCase (orElse req2.pack "") = toLowerCase (orElse req.pack "") →
      buyCredits env req2 w = buyCredits env req w) := by
  constructor
  · obtain ⟨cfg, hcfg, hmeta⟩ := buyCredits_ok env req w metadata hbuy
    have hcredits := credit_pack_lookup env _ cfg hcfg
    have h1 : metadata.lookup "creditsPurchased" = some (toString cfg.credits) := by
      rw [hmeta]; rfl
    have h2 : metadata.lookup "userId" = some req.userId := by
      rw [hmeta]; rfl
    have h3 : metadata.lookup "intent" = some "credits" := by
      rw [hmeta]; rfl
    refine ⟨cfg, hcfg, hcredits, h1, h2, h3, ?_⟩
    intro hookEnv hook w2 b eventId sessionId hbuf hverified hb hb0
    exact balance_webhook_credits hookEnv hook w2 (paidSessionEvent eventId sessionId metadata)
      req.userId cfg.credits b hbuf hverified rfl rfl rfl h3 h2
      (by
        show numberOr (metadata.lookup "creditsPurchased") 0 = JsNum.int cfg.credits
        rw [h1]
        exact pack_amount_round_trip cfg.credits hcredits)
      (by rcases hcredits with h | h | h <;> omega) hb hb0
  · intro req2 huser hpack
    unfold buyCredits
    rw [huser, hpack]

/-- C22, at a concrete input: `u1` (balance 5) buys the pack `C30` with a body that also
names an amount of 100000; the paid event adds 30. -/
theorem pack_grant_round_trip_witness :
    buyCredits stripeEnvOk (packRequest "C30") twoUsers =
      Except.ok [("intent", "credits"), ("userId", "u1"), ("userEmail", "u1@example.com"),
                 ("creditsPurchased", "30"), ("pack", "c30")] ∧
    (∃ cfg, (CREDIT_PACKS stripeEnvOk).lookup
        (toLowerCase (orElse (packRequest "C30").pack "")) = some cfg ∧
      (cfg.credits = 10 ∨ cfg.credits = 30 ∨ cfg.credits = 100)) ∧
    balance (webhook
      (envVerified (paidSessionEvent "evt_9" "cs_9"
        [("intent", "credits"), ("userId", "u1"), ("userEmail", "u1@example.com"),
         ("creditsPurchased", "30"), ("pack", "c30")]))
      signedRequest twoUsers).2 "u1" = some 35 :=
  ⟨rfl,
   (pack_grant_round_trip stripeEnvOk (packRequest "C30") twoUsers _ rfl).1.imp
      (fun _ h => ⟨h.1, h.2.1⟩),
   by decide⟩

/-- C23 fails on the code: the twelve keys of `BOY_KEYS` are distinct and each has a
non-empty prompt in `HERO_PROMPTS`, and the twelve keys of `GIRL_KEYS` are distinct, but
none of them is a key of `HERO_PROMPTS`; the missing-prompts check of a batch request with
gender `girl` yields all twelve keys and the route answers 400. -/
theorem girl_pack_has_no_prompts :
    BOY_KEYS.length = 12 ∧ BOY_KEYS.Nodup ∧ GIRL_KEYS.length = 12 ∧ GIRL_KEYS.Nodup ∧
    (∀ k ∈ BOY_KEYS, hasPrompt envRepo k = true) ∧
    BOY_KEYS.filter (fun k => !hasPrompt envRepo k) = [] ∧
    (∀ k ∈ GIRL_KEYS, HERO_PROMPTS.lookup k = none) ∧
    GIRL_KEYS.filter (fun k => !hasPrompt envRepo k) = GIRL_KEYS ∧
    kidsGenerate envRepo (genderRequest "girl") (singleUser "u1" 12) =
      some ({ status := 400,
              body := Body.missingPrompts "Missing prompts for some heroes." GIRL_KEYS
                "Add these keys to ../utils/hero-prompts" }, singleUser "u1" 12) :=
  ⟨by decide, by decide, by decide, by decide, by decide, by decide, by decide, by decide,
   rfl⟩

/-- C24 fails on the code: the gender of a request is its parameter in lower case, whatever
it is.  With the parameter `XyZ` the batch route runs the boy pack, answers with the gender
`xyz` and hands twelve documents with the gender `xyz` to the record store, a value that is
neither `boy` nor `girl`; with no parameter the gender is `boy`. -/
theorem gender_not_restricted :
    genderOf (genderRequest "XyZ") = "xyz" ∧
    genderOf (genderRequest "XyZ") ≠ "boy" ∧ genderOf (genderRequest "XyZ") ≠ "girl" ∧
    genderOf demoRequest = "boy" ∧
    ∃ results w1,
      kidsGenerate (envFailing []) (genderRequest "XyZ") (singleUser "u1" 12) =
        some ({ status := 200, body := Body.batch "xyz" 12 12 12 results }, w1) ∧
      w1.providerCalls = BOY_KEYS ∧
      w1.storeCalls.map (fun docs => docs.map (fun d => d.gender)) =
        [List.replicate 12 "xyz"] :=
  ⟨by decide, by decide, by decide, by decide, _, _, rfl, by decide, by decide⟩

/-- C25: for every item list, worker and window of at least one item, `runInBatches`
returns, and its result is that of settling every item on its own, one after the other;
so windows of different sizes give the same result, and for a worker whose outcome on an
item does not depend on the state the result is the list of the outcomes of the items.  On
the empty list it returns the empty list and leaves the state as it was, the worker not
being called, for every window size. -/
theorem runInBatches_refines_settleEach {α β σ : Type} (items : List α)
    (worker : α → σ → Settled β × σ) (batchSize : Nat) (s : σ) (hwindow : 0 < batchSize) :
    runInBatches items worker batchSize s = some (settleEach worker items s) ∧
    (∀ other, 0 < other →
      runInBatches items worker other s = runInBatches items worker batchSize s) ∧
    (∀ outcome : α → Settled β, (∀ x t, (worker x t).1 = outcome x) →
      (settleEach worker items s).1 = items.map outcome) ∧
    (∀ size, runInBatches ([] : List α) worker size s = some ([], s)) ∧
    settleEach worker ([] : List α) s = ([], s) := by
  refine ⟨?_, ?_, ?_, ?_, rfl⟩
  · rw [runInBatches_eq items worker batchSize hwindow s, allSettled_eq_settleEach]
  · intro other hother
    rw [runInBatches_eq items worker other hother s,
      runInBatches_eq items worker batchSize hwindow s]
  · intro outcome houtcome
    rw [← allSettled_eq_settleEach]
    exact allSettled_outcome worker outcome houtcome items s
  · intro size
    rfl

/-- C25, at concrete inputs: seven tasks in windows of 3 and of 2, with the worker of the
batch route. -/
theorem runInBatches_refines_settleEach_witness :
    (0 < 3) ∧
    runInBatches (BOY_KEYS.take 7) (worker (envFailing ["thor"])) 3 (singleUser "u1" 12) =
      some (settleEach (worker (envFailing ["thor"])) (BOY_KEYS.take 7) (singleUser "u1" 12)) ∧
    runInBatches (BOY_KEYS.take 7) (worker (envFailing ["thor"])) 2 (singleUser "u1" 12) =
      runInBatches (BOY_KEYS.take 7) (worker (envFailing ["thor"])) 3 (singleUser "u1" 12) :=
  ⟨by decide,
   (runInBatches_refines_settleEach (BOY_KEYS.take 7) (worker (envFailing ["thor"])) 3
      (singleUser "u1" 12) (by decide)).1,
   (runInBatches_refines_settleEach (BOY_KEYS.take 7) (worker (envFailing ["thor"])) 3
      (singleUser "u1" 12) (by decide)).2.1 2 (by decide)⟩

/-- C26 fails on the code: the boy pack on a balance of 12 with a provider whose call for
`thor` is rejected with an `Error` that has neither a name nor a message.  The batch is
answered with 200, twelve entries in the order of the keys, eleven of them with an artifact,
eleven credits reported and charged (balance 1); the entry of `thor` carries the key, no
`image_url`, and the empty string as its error text.  For the same provider error the catch
block of the single route answers with its fallback text. -/
theorem rejected_entry_with_empty_error :
    balance (singleUser "u1" 12) "u1" = some 12 ∧
    envBlankError.provider "thor" =
      Except.error { name := "", message := "", status := none } ∧
    (∃ results w1,
      executeBatch envBlankError "u1" "boy" BOY_KEYS (singleUser "u1" 12) =
        some ({ status := 200, body := Body.batch "boy" 12 11 11 results }, w1) ∧
      results.map (fun r => r.key) = BOY_KEYS ∧
      (results.get? 6).map (fun r => (r.key, r.image_url.isSome, r.error)) =
        some ("thor", false, some "") ∧
      (results.filter ResultEntry.hasImage).length = 11 ∧
      (results.filter (fun r => r.error.isSome)).length = 1 ∧
      balance w1 "u1" = some 1) ∧
    (kidsGenerateOne envBlankError (heroRequest "thor") (singleUser "u1" 12)).1.body =
      Body.error "Failed to generate image." :=
  ⟨by decide, rfl, ⟨_, _, rfl, by decide, by decide, by decide, by decide, by decide⟩, rfl⟩

/-- C27 fails: for the array whose only element is an object with the empty string as
`url`, and for the object with the empty string as `url`, `normalizeReplicateOutput` returns
the empty string, a falsy value that is not `null`; and for an array whose first string
element is the empty string it returns `null` and not a string of the array. -/
theorem normalize_returns_empty_string_counterexample :
    normalizeReplicateOutput (JsVal.arr [JsVal.obj [("url", JsVal.str "")]]) = JsVal.str "" ∧
    normalizeReplicateOutput (JsVal.obj [("url", JsVal.str "")]) = JsVal.str "" ∧
    (JsVal.str "").truthy = false ∧
    JsVal.str "" ≠ JsVal.null ∧
    normalizeReplicateOutput (JsVal.arr [JsVal.str "", JsVal.str "https://img.example/a.jpg"])
      = JsVal.null :=
  ⟨rfl, rfl, rfl, (fun h => JsVal.noConfusion h), rfl⟩

/-- C27, amended: `normalizeReplicateOutput` returns a non-empty string as it is; for an
array whose first string element is non-empty it returns that element; for `null`,
`undefined`, the empty string, the empty array and an object without `url`, `image` and
`images` it returns `null`; and a falsy result is `null`, or the empty string, or the
result of calling the `url` accessor of the reply. -/
theorem normalize_extracts_or_falsy (out : JsVal) :
    (∀ s, s ≠ "" → normalizeReplicateOutput (JsVal.str s) = JsVal.str s) ∧
    (∀ (before after : List JsVal) (s : String), s ≠ "" →
      (∀ x ∈ before, x.isString = false) →
      normalizeReplicateOutput (JsVal.arr (before ++ JsVal.str s :: after)) = JsVal.str s) ∧
    normalizeReplicateOutput JsVal.null = JsVal.null ∧
    normalizeReplicateOutput JsVal.undefined = JsVal.null ∧
    normalizeReplicateOutput (JsVal.str "") = JsVal.null ∧
    normalizeReplicateOutput (JsVal.arr []) = JsVal.null ∧
    (∀ fields : List (String × JsVal), fields.lookup "url" = none →
      fields.lookup "image" = none → fields.lookup "images" = none →
      normalizeReplicateOutput (JsVal.obj fields) = JsVal.null) ∧
    ((normalizeReplicateOutput out).truthy = false →
      normalizeReplicateOutput out = JsVal.null ∨
      normalizeReplicateOutput out = JsVal.str "" ∨
      ∃ ret, out.get "url" = JsVal.func ret ∧ normalizeReplicateOutput out = ret) := by
  refine ⟨?_, ?_, rfl, rfl, rfl, rfl, ?_, ?_⟩
  · intro s hs
    simp [normalizeReplicateOutput, JsVal.truthy, JsVal.isString, hs]
  · intro before after s hs hbefore
    have hfind : JsVal.findString (before ++ JsVal.str s :: after) = JsVal.str s := by
      induction before with
      | nil => simp [JsVal.findString, JsVal.isString]
      | cons x xs ih =>
        have hx : x.isString = false := hbefore x (List.mem_cons_self _ _)
        simp only [List.cons_append, JsVal.findString, hx, Bool.false_eq_true, if_false]
        exact ih (fun y hy => hbefore y (List.mem_cons_of_mem _ hy))
    simp [normalizeReplicateOutput, normalizeArrayBranch, JsVal.truthy, JsVal.isString, hfind,
      hs]
  · intro fields hurl himage himages
    simp [normalizeReplicateOutput, normalizeArrayBranch, JsVal.truthy, JsVal.isString,
      JsVal.get, hurl, himage, himages, JsVal.isFunction, JsVal.isArray]
  · intro hfalsy
    unfold normalizeReplicateOutput at hfalsy ⊢
    by_cases h1 : (!out.truthy) = true
    · simp only [h1, if_true]
      exact Or.inl trivial
    · simp only [h1, Bool.false_eq_true, if_false] at hfalsy ⊢
      have hout : out.truthy = true := by simpa using h1
      by_cases h2 : out.isString = true
      · simp only [h2, if_true] at hfalsy
        rw [hout] at hfalsy
        cases hfalsy
      · simp only [h2, Bool.false_eq_true, if_false] at hfalsy ⊢
        cases hbranch : normalizeArrayBranch out with
        | some v =>
          simp only [hbranch] at hfalsy ⊢
          unfold normalizeArrayBranch at hbranch
          cases out with
          | arr xs =>
            simp only at hbranch
            split at hbranch
            · rename_i hs
              cases hbranch
              rw [hs] at hfalsy
              cases hfalsy
            · split at hbranch
              · split at hbranch
                · rename_i hstr
                  cases hbranch
                  cases hurl : (JsVal.arr xs).first.get "url" with
                  | str s =>
                    rw [hurl] at hfalsy
                    have : s = "" := by simpa [JsVal.truthy] using hfalsy
                    subst this
                    exact Or.inr (Or.inl rfl)
                  | _ => rw [hurl] at hstr; cases hstr
                · split at hbranch
                  · rename_i himg
                    cases hbranch
                    rw [himg] at hfalsy
                    cases hfalsy
                  · split at hbranch
                    · rename_i himgs
                      cases hbranch
                      simp only [Bool.and_eq_true] at himgs
                      rw [himgs.2] at hfalsy
                      cases hfalsy
                    · cases hbranch
              · cases hbranch
          | _ => cases hbranch
        | none =>
          simp only [hbranch] at hfalsy ⊢
          by_cases h3 : ((out.get "url").truthy && (out.get "url").isFunction) = true
          · simp only [h3, if_true] at hfalsy ⊢
            cases hurl : out.get "url" with
            | func ret => exact Or.inr (Or.inr ⟨ret, rfl, rfl⟩)
            | _ => rw [hurl] at h3; simp [JsVal.isFunction] at h3
          · simp only [h3, Bool.false_eq_true, if_false] at hfalsy ⊢
            by_cases h4 : (out.get "url").isString = true
            · simp only [h4, if_true] at hfalsy ⊢
              cases hurl : out.get "url" with
              | str s =>
                rw [hurl] at hfalsy
                have : s = "" := by simpa [JsVal.truthy] using hfalsy
                subst this
                exact Or.inr (Or.inl rfl)
              | _ => rw [hurl] at h4; cases h4
            · simp only [h4, Bool.false_eq_true, if_false] at hfalsy ⊢
              by_cases h5 : (out.get "image").truthy = true
              · simp only [h5, if_true] at hfalsy
                cases hfalsy
              · simp only [h5, Bool.false_eq_true, if_false] at hfalsy ⊢
                by_cases h6 : ((out.get "images").isArray &&
                    (out.get "images").first.truthy) = true
                · simp only [h6, if_true] at hfalsy
                  simp only [Bool.and_eq_true] at h6
                  simp only [h6.2] at hfalsy
                  cases hfalsy
                · simp only [h6, Bool.false_eq_true, if_false]
                  exact Or.inl trivial

/-- C27 amended, at concrete inputs: a URL string, an array with a URL after an object, and
the falsy result of the counterexample. -/
theorem normalize_extracts_or_falsy_witness :
    normalizeReplicateOutput (JsVal.str "https://img.example/a.jpg")
      = JsVal.str "https://img.example/a.jpg" ∧
    normalizeReplicateOutput
      (JsVal.arr ([JsVal.obj []] ++ JsVal.str "https://img.example/a.jpg" :: []))
      = JsVal.str "https://img.example/a.jpg" ∧
    (normalizeReplicateOutput (JsVal.arr [JsVal.obj [("url", JsVal.str "")]]) = JsVal.null ∨
      normalizeReplicateOutput (JsVal.arr [JsVal.obj [("url", JsVal.str "")]]) = JsVal.str "" ∨
      ∃ ret, (JsVal.arr [JsVal.obj [("url", JsVal.str "")]]).get "url" = JsVal.func ret ∧
        normalizeReplicateOutput (JsVal.arr [JsVal.obj [("url", JsVal.str "")]]) = ret) :=
  ⟨(normalize_extracts_or_falsy JsVal.null).1 "https://img.example/a.jpg" (by decide),
   (normalize_extracts_or_falsy JsVal.null).2.1 [JsVal.obj []] [] "https://img.example/a.jpg"
      (by decide) (fun x hx => by
        rw [List.mem_singleton] at hx
        subst hx
        rfl),
   (normalize_extracts_or_falsy (JsVal.arr [JsVal.obj [("url", JsVal.str "")]])).2.2.2.2.2.2.2
      rfl⟩

/-- C28: `addCredits` never lowers a balance.  For every state, user id and amount value
the balance of every user after the call is at least the balance before; the balance of an
existing user with a non-negative balance becomes the old balance plus the amount when the
amount is a positive number and stays the same when it is negative, zero or not a number;
and when the id matches no user the state is unchanged.  A missing `creditsPurchased` is
read as 0. -/
theorem grant_never_decreases (w : World) (userId : Option String) (amount : JsNum) :
    (∀ uid b, balance w uid = some b →
      ∃ b1, balance (addCredits w userId amount).2 uid = some b1 ∧ b ≤ b1) ∧
    (∀ uid b, userId = some uid → balance w uid = some b → 0 ≤ b →
      balance (addCredits w userId amount).2 uid = some (b + grantAmount amount)) ∧
    (addCreditsRead w userId = none → (addCredits w userId amount).2 = w) ∧
    grantAmount JsNum.nan = 0 ∧
    (∀ a, grantAmount (JsNum.int a) = max 0 a) ∧
    numberOr none 0 = JsNum.int 0 := by
  refine ⟨?_, ?_, ?_, rfl, fun _ => rfl, rfl⟩
  · intro uid b hb
    rcases balance_addCredits_any w userId amount uid b hb with h | ⟨_, _, h⟩
    · exact ⟨b, h, le_refl b⟩
    · exact ⟨_, h, by have := grantAmount_nonneg amount; omega⟩
  · intro uid b hu hb hb0
    subst hu
    have hg := grantAmount_nonneg amount
    cases amount with
    | int a => exact balance_addCredits w uid a b hb (by simp only [grantAmount] at hg; omega)
    | nan =>
      have h0 := balance_addCredits w uid 0 b hb (by simpa using hb0)
      have hsame : addCredits w (some uid) JsNum.nan = addCredits w (some uid) (JsNum.int 0) := by
        unfold addCredits
        rfl
      rw [hsame, h0]
      simp [grantAmount]
  · intro hread
    rw [addCredits_eq_read_write, hread]

/-- C28, at concrete inputs: amounts -4, not-a-number and 30 on the balance 5 of `u1`, and
an id that matches no user. -/
theorem grant_never_decreases_witness :
    balance twoUsers "u1" = some 5 ∧
    balance (addCredits twoUsers (some "u1") (JsNum.int (-4))).2 "u1"
      = some (5 + grantAmount (JsNum.int (-4))) ∧
    balance (addCredits twoUsers (some "u1") JsNum.nan).2 "u1" = some (5 + grantAmount JsNum.nan) ∧
    balance (addCredits twoUsers (some "u1") (JsNum.int 30)).2 "u1"
      = some (5 + grantAmount (JsNum.int 30)) ∧
    (addCredits twoUsers (some "nobody") (JsNum.int 30)).2 = twoUsers ∧
    grantAmount (JsNum.int (-4)) = 0 ∧ grantAmount (JsNum.int 30) = 30 ∧
    numberOr (some "thirty") 0 = JsNum.nan :=
  ⟨by decide,
   (grant_never_decreases twoUsers (some "u1") (JsNum.int (-4))).2.1 "u1" 5 rfl (by decide)
      (by decide),
   (grant_never_decreases twoUsers (some "u1") JsNum.nan).2.1 "u1" 5 rfl (by decide)
      (by decide),
   (grant_never_decreases twoUsers (some "u1") (JsNum.int 30)).2.1 "u1" 5 rfl (by decide)
      (by decide),
   (grant_never_decreases twoUsers (some "nobody") (JsNum.int 30)).2.2.1 (by decide),
   by decide, by decide, by decide⟩

/-- C29: when the limit parameter parses to the integer `n`, the limit that the listing
route uses and returns is `min n 100`, at most 100; when the offset parameter parses to
`m`, the offset used and returned is `max m 0`, at least 0; an absent limit is 20 and an
absent offset is 0. -/
theorem paging_parameters_clamped (req : ListRequest) (w : World) :
    (∀ n, parseInt (orElse req.limit "20") = JsNum.int n →
      limitOf req = JsNum.int (min n 100) ∧ min n 100 ≤ 100) ∧
    (∀ m, parseInt (orElse req.offset "0") = JsNum.int m →
      offsetOf req = JsNum.int (max m 0) ∧ 0 ≤ max m 0) ∧
    (req.limit = none → limitOf req = JsNum.int 20) ∧
    (req.offset = none → offsetOf req = JsNum.int 0) ∧
    (∀ n m, parseInt (orElse req.limit "20") = JsNum.int n →
      parseInt (orElse req.offset "0") = JsNum.int m →
      kidsGenerations none req w =
        { status := 200,
          body := Body.generations (countGenerations w.generations req.userId)
            (min n 100) (max m 0)
            (findGenerations w.generations req.userId (max m 0) (min n 100)) }) := by
  have hlimit : ∀ n, parseInt (orElse req.limit "20") = JsNum.int n →
      limitOf req = JsNum.int (min n 100) := by
    intro n hn
    unfold limitOf
    rw [hn]
    rfl
  have hoffset : ∀ m, parseInt (orElse req.offset "0") = JsNum.int m →
      offsetOf req = JsNum.int (max m 0) := by
    intro m hm
    unfold offsetOf
    rw [hm]
    rfl
  refine ⟨fun n hn => ⟨hlimit n hn, min_le_right n 100⟩,
    fun m hm => ⟨hoffset m hm, le_max_right m 0⟩, ?_, ?_, ?_⟩
  · intro hnone
    have := hlimit 20 (by rw [hnone]; decide)
    simpa using this
  · intro hnone
    have := hoffset 0 (by rw [hnone]; decide)
    simpa using this
  · intro n m hn hm
    exact kidsGenerations_ok req w (min n 100) (max m 0) (hlimit n hn) (hoffset m hm)

/-- C29, at concrete inputs: `limit=500` and `offset=-3` are used as 100 and 0, and an
empty query as 20 and 0. -/
theorem paging_parameters_clamped_witness :
    parseInt (orElse (some "500") "20") = JsNum.int 500 ∧
    limitOf { userId := "u1", limit := some "500", offset := some "-3" }
      = JsNum.int (min 500 100) ∧
    offsetOf { userId := "u1", limit := some "500", offset := some "-3" }
      = JsNum.int (max (-3) 0) ∧
    limitOf { userId := "u1", limit := none, offset := none } = JsNum.int 20 ∧
    offsetOf { userId := "u1", limit := none, offset := none } = JsNum.int 0 :=
  ⟨by decide,
   ((paging_parameters_clamped { userId := "u1", limit := some "500", offset := some "-3" }
      storeOf25).1 500 (by decide)).1,
   ((paging_parameters_clamped { userId := "u1", limit := some "500", offset := some "-3" }
      storeOf25).2.1 (-3) (by decide)).1,
   (paging_parameters_clamped { userId := "u1", limit := none, offset := none }
      storeOf25).2.2.1 rfl,
   (paging_parameters_clamped { userId := "u1", limit := none, offset := none }
      storeOf25).2.2.2.1 rfl⟩

/-- C30: for every input string, the output of `escapeHtml` contains none of the characters
`<`, `>`, double quote and single quote; every ampersand of the output is followed by the
rest of one of the entities `&amp;`, `&lt;`, `&gt;`, `&quot;`, `&#39;`; the output is the
input when the input contains none of the five characters; and two inputs with the same
output are equal. -/
theorem escapeHtml_neutralises (v : String) :
    (∀ c ∈ (escapeHtml v).data,
      c ≠ '<' ∧ c ≠ '>' ∧ c ≠ doubleQuote ∧ c ≠ singleQuote) ∧
    (∀ before after, (escapeHtml v).data = before ++ '&' :: after →
      ∃ t ∈ entityTails, t <+: after) ∧
    ((∀ c ∈ v.data, c ≠ '&' ∧ c ≠ '<' ∧ c ≠ '>' ∧ c ≠ doubleQuote ∧ c ≠ singleQuote) →
      escapeHtml v = v) ∧
    (∀ u, escapeHtml u = escapeHtml v → u = v) := by
  refine ⟨?_, ?_, ?_, ?_⟩
  · intro c hc
    rw [escapeHtml_data, List.mem_flatMap] at hc
    obtain ⟨x, _, hx⟩ := hc
    exact escapeChar_clean x c hx
  · intro before after h
    exact ampersands_sound (escapeHtml v).data
      (by rw [escapeHtml_data]; exact ampersands_escaped v.data) before after h
  · intro hclean
    apply String.ext
    rw [escapeHtml_data, escape_identity v.data hclean]
  · intro u h
    apply String.ext
    apply escape_injective
    rw [← escapeHtml_data, ← escapeHtml_data, h]

/-- C30, at concrete inputs: a text with all five characters, and a text with none. -/
theorem escapeHtml_neutralises_witness :
    escapeHtml "<a href=\"x\">Tom & 'Jerry'</a>"
      = "&lt;a href=&quot;x&quot;&gt;Tom &amp; &#39;Jerry&#39;&lt;/a&gt;" ∧
    (∀ c ∈ "Sofia 1000".data,
      c ≠ '&' ∧ c ≠ '<' ∧ c ≠ '>' ∧ c ≠ doubleQuote ∧ c ≠ singleQuote) ∧
    escapeHtml "Sofia 1000" = "Sofia 1000" :=
  ⟨by decide, by decide,
   (escapeHtml_neutralises "Sofia 1000").2.2.1 (by decide)⟩

end KidsHeroMaker
